import Mathlib

/-!
# The nRF24L01 radio driver of the split keyboard (`keyboard/split_keyboard/wireless/nrf.c`)

A shallow embedding of the driver: the SPI transaction layer (`read_buf`, `write_buf`, ...),
the configuration sequence `nrf_setup` and the transfer operations.

* The hardware is a state machine `Chip σ` that reacts to the four transport primitives
  (chip-select, chip-enable, byte exchange, delay); the driver threads a `World σ` that holds
  the chip, the two output pins, the chronological trace of transport events and the log of
  the array reads made through pointers.
* `uint8_t` values are natural numbers reduced by `u8` wherever the C code converts to
  `uint8_t` (parameter passing, `SPDR`).
* The constants of `nRF24L01.h` and the build options of `nrf.h` are not part of the sources
  at hand; they are the parameters `Header` and `Build`.
-/

namespace Nrf

/-! ## Data model -/

/-- Conversion of an integer value to `uint8_t`. -/
def u8 (n : Nat) : Nat := n % 256

/-- The constants of `nRF24L01.h` that `nrf.c` uses: command opcodes, register addresses and
bit positions. The header is not among the sources, so the driver is parameterised by it. -/
structure Header where
  R_REGISTER : Nat
  W_REGISTER : Nat
  REGISTER_MASK : Nat
  R_RX_PAYLOAD : Nat
  W_TX_PAYLOAD : Nat
  W_TX_PAYLOAD_NO_ACK : Nat
  FLUSH_TX : Nat
  FLUSH_RX : Nat
  NOP : Nat
  CONFIG : Nat
  EN_AA : Nat
  EN_RXADDR : Nat
  SETUP_AW : Nat
  SETUP_RETR : Nat
  RF_CH : Nat
  RF_SETUP : Nat
  NRF_STATUS : Nat
  RX_ADDR_P0 : Nat
  RX_ADDR_P1 : Nat
  TX_ADDR : Nat
  RX_PW_P0 : Nat
  RX_PW_P1 : Nat
  FIFO_STATUS : Nat
  DYNPD : Nat
  FEATURE : Nat
  EN_CRC : Nat
  CRCO : Nat
  PWR_UP : Nat
  PRIM_RX : Nat
  ENAA_P0 : Nat
  ENAA_P1 : Nat
  ERX_P0 : Nat
  ERX_P1 : Nat
  ARD : Nat
  ARC : Nat
  RF_DR_LOW : Nat
  RF_DR_HIGH : Nat
  RF_PWR : Nat
  RX_P_NO : Nat
  MAX_RT : Nat
  TX_EMPTY : Nat
  EN_DYN_ACK : Nat

/-- Modelled from the spec: `nRF24L01.h` is missing from the sources. The spec fixes
`R_REGISTER = 0x00`, `W_REGISTER = 0x20`, `REGISTER_MASK = 0x1F`, the pipe-number field at
bit 1 of the status byte and the three interrupt flags `0x70`; the other values are those of
the nRF24L01+ register map. The driver and the general statements do not depend on this
value: it only instantiates them. -/
def nRF24L01 : Header where
  R_REGISTER := 0x00
  W_REGISTER := 0x20
  REGISTER_MASK := 0x1F
  R_RX_PAYLOAD := 0x61
  W_TX_PAYLOAD := 0xA0
  W_TX_PAYLOAD_NO_ACK := 0xB0
  FLUSH_TX := 0xE1
  FLUSH_RX := 0xE2
  NOP := 0xFF
  CONFIG := 0x00
  EN_AA := 0x01
  EN_RXADDR := 0x02
  SETUP_AW := 0x03
  SETUP_RETR := 0x04
  RF_CH := 0x05
  RF_SETUP := 0x06
  NRF_STATUS := 0x07
  RX_ADDR_P0 := 0x0A
  RX_ADDR_P1 := 0x0B
  TX_ADDR := 0x10
  RX_PW_P0 := 0x11
  RX_PW_P1 := 0x12
  FIFO_STATUS := 0x17
  DYNPD := 0x1C
  FEATURE := 0x1D
  EN_CRC := 3
  CRCO := 2
  PWR_UP := 1
  PRIM_RX := 0
  ENAA_P0 := 0
  ENAA_P1 := 1
  ERX_P0 := 0
  ERX_P1 := 1
  ARD := 4
  ARC := 0
  RF_DR_LOW := 5
  RF_DR_HIGH := 3
  RF_PWR := 1
  RX_P_NO := 1
  MAX_RT := 4
  TX_EMPTY := 4
  EN_DYN_ACK := 0

/-- The build options of `nrf.h` (not among the sources): role, auto-ack and the numeric
macros. `buffer_byte` records that the buffer length is used as a `uint8_t`
(`write_reg(RX_PW_P0, RF_BUFFER_LEN)`, the `len` arguments). Nothing relates
`RF_BUFFER_LEN` to the five bytes listed per row of `slave_addr` (line 110), nor to
`RF_ADDRESS_LEN`: a build with a payload buffer shorter than the address is accepted by the
compiler. -/
structure Build where
  MASTER_DEVICE : Bool
  USE_AUTO_ACK : Bool
  RF_BUFFER_LEN : Nat
  RF_ADDRESS_LEN : Nat
  MAX_RETRANSMIT : Nat
  RF_PWR_LEVEL : Nat
  buffer_byte : RF_BUFFER_LEN < 256

/-- One event seen on the transport: a level written to chip-select or chip-enable
(`true` is high), one full-duplex byte exchange, or a busy delay in microseconds. -/
inductive Event where
  | csn (high : Bool)
  | ce (high : Bool)
  | xfer (sent recv : Nat)
  | delay (us : Nat)
deriving DecidableEq, Repr

/-- The radio chip as a state machine reacting to the four transport primitives. -/
structure Chip (σ : Type) where
  select : Bool → σ → σ
  enable : Bool → σ → σ
  exchange : Nat → σ → Nat × σ
  wait : Nat → σ → σ

/-- A C object that is read through a pointer: offsets below `size` are inside the object,
`byte i` is what memory holds at offset `i` (inside or beyond the object). -/
structure Buf where
  size : Nat
  byte : Nat → Nat

/-- One array read `buf[index]` through a pointer to an object of `size` bytes. -/
structure Load where
  size : Nat
  index : Nat
deriving DecidableEq, Repr

/-- The state threaded through the driver. -/
structure World (σ : Type) where
  chip : σ
  csnPin : Bool
  cePin : Bool
  trace : List Event
  loads : List Load

/-- What the memory holds behind the two local arrays of `nrf_setup`. -/
structure Stack where
  after_slave_addr : Nat → Nat
  after_zero_addr : Nat → Nat

variable {σ : Type}

/-! ## Transport primitives (lines 7-59) -/

/-- The bit setter `csn(val)` generated by `CREATE_BIT_SETTER`: sets the port bit when `val`
is nonzero and clears it otherwise. -/
def csn (c : Chip σ) (val : Nat) (w : World σ) : World σ :=
  { w with chip := c.select (decide (u8 val ≠ 0)) w.chip,
           csnPin := decide (u8 val ≠ 0),
           trace := w.trace ++ [Event.csn (decide (u8 val ≠ 0))] }

/-- The bit setter `ce(val)` generated by `CREATE_BIT_SETTER`. -/
def ce (c : Chip σ) (val : Nat) (w : World σ) : World σ :=
  { w with chip := c.enable (decide (u8 val ≠ 0)) w.chip,
           cePin := decide (u8 val ≠ 0),
           trace := w.trace ++ [Event.ce (decide (u8 val ≠ 0))] }

/-- The function `nrf_enable` (lines 31-34). -/
def nrf_enable (c : Chip σ) (val : Nat) (w : World σ) : World σ :=
  ce c val w

/-- The busy delay `_delay_us(n)` of `util/delay.h`. -/
def delay_us (c : Chip σ) (n : Nat) (w : World σ) : World σ :=
  { w with chip := c.wait n w.chip, trace := w.trace ++ [Event.delay n] }

/-- The function `spi_transceive` (lines 55-59): writes `data` to `SPDR`, waits for the
hardware to finish the exchange and returns `SPDR`. -/
def spi_transceive (c : Chip σ) (data : Nat) (w : World σ) : Nat × World σ :=
  (u8 (c.exchange (u8 data) w.chip).1,
   { w with chip := (c.exchange (u8 data) w.chip).2,
            trace := w.trace ++ [Event.xfer (u8 data) (u8 (c.exchange (u8 data) w.chip).1)] })

/-- Records the array read `buf[i]`. -/
def load (buf : Buf) (i : Nat) (w : World σ) : World σ :=
  { w with loads := w.loads ++ [Load.mk buf.size i] }

/-! ## Register access layer (lines 61-97) -/

/-- The loop `for (i = 0; i < len; ++i) buf[i] = spi_transceive(NOP);` of `read_buf` and of
`nrf_read_rx_fifo`, with `n` iterations left; returns the bytes stored, in index order. -/
def read_loop (c : Chip σ) (h : Header) : Nat → World σ → List Nat × World σ
  | 0, w => ([], w)
  | n + 1, w =>
    ((spi_transceive c h.NOP w).1 :: (read_loop c h n (spi_transceive c h.NOP w).2).1,
     (read_loop c h n (spi_transceive c h.NOP w).2).2)

/-- The loop `for (i = 0; i < len; ++i) spi_transceive(buf[i]);` of `write_buf` and of
`nrf_load_tx_fifo`, at index `i` with `n` iterations left. -/
def write_loop (c : Chip σ) (buf : Buf) : Nat → Nat → World σ → World σ
  | 0, _, w => w
  | n + 1, i, w => write_loop c buf n (i + 1) (spi_transceive c (buf.byte i) (load buf i w)).2

/-- The function `read_buf` (lines 61-68); the first component is the content of `buf[0..len-1]`. -/
def read_buf (c : Chip σ) (h : Header) (reg len : Nat) (w : World σ) : List Nat × World σ :=
  let w1 := csn c 0 w
  let w2 := (spi_transceive c (h.R_REGISTER ||| (h.REGISTER_MASK &&& u8 reg)) w1).2
  let r := read_loop c h (u8 len) w2
  (r.1, csn c 1 r.2)

/-- The function `read_reg` (lines 70-74). -/
def read_reg (c : Chip σ) (h : Header) (reg : Nat) (w : World σ) : Nat × World σ :=
  ((read_buf c h reg 1 w).1.headD 0, (read_buf c h reg 1 w).2)

/-- The function `write_buf` (lines 76-85). -/
def write_buf (c : Chip σ) (h : Header) (reg : Nat) (buf : Buf) (len : Nat) (w : World σ) :
    Nat × World σ :=
  let w1 := csn c 0 w
  let r := spi_transceive c (h.W_REGISTER ||| (h.REGISTER_MASK &&& u8 reg)) w1
  let w3 := write_loop c buf (u8 len) 0 r.2
  (r.1, csn c 1 w3)

/-- The one-byte object `data` whose address `write_reg` passes on. -/
def byteObject (data : Nat) : Buf :=
  { size := 1, byte := fun _ => u8 data }

/-- The function `write_reg` (lines 87-89). -/
def write_reg (c : Chip σ) (h : Header) (reg data : Nat) (w : World σ) : Nat × World σ :=
  write_buf c h reg (byteObject data) 1 w

/-- The function `spi_command` (lines 91-97). -/
def spi_command (c : Chip σ) (command : Nat) (w : World σ) : Nat × World σ :=
  let w1 := csn c 0 w
  let r := spi_transceive c command w1
  (r.1, csn c 1 r.2)

/-! ## Configuration sequencer (lines 99-186)

Integer expressions such as `(1<<CRCO) | (1<<EN_CRC)` are evaluated in the natural numbers;
the conversion to `uint8_t` happens where the value is passed to `write_reg`. -/

/-- The function `nrf_power_set` (lines 99-105); `#if MASTER_DEVICE` selects the `PRIM_RX` bit. -/
def nrf_power_set (c : Chip σ) (h : Header) (b : Build) (on_ : Bool) (w : World σ) : World σ :=
  if b.MASTER_DEVICE then
    (write_reg c h h.CONFIG
      ((1 <<< h.CRCO) ||| (1 <<< h.EN_CRC) ||| (on_.toNat <<< h.PWR_UP) ||| (1 <<< h.PRIM_RX)) w).2
  else
    (write_reg c h h.CONFIG
      ((1 <<< h.CRCO) ||| (1 <<< h.EN_CRC) ||| (on_.toNat <<< h.PWR_UP) ||| (0 <<< h.PRIM_RX)) w).2

/-- The initialiser of `slave_addr` (lines 110-111). -/
def slave_addr_init : List (List Nat) :=
  [[0x0f, 0xb3, 0x47, 0x17, 0x1c], [0xd7, 0x1c, 0xca, 0x3b, 0x8a]]

/-- The byte at flat offset `i` of the local array `slave_addr[2][RF_BUFFER_LEN]`: each row
holds the first `RF_BUFFER_LEN` of its five listed bytes, followed by zeros when the row is
longer (the compiler drops the excess initialisers of a shorter row); the rows are adjacent,
and past the array lies whatever the stack holds. -/
def slave_addr_mem (b : Build) (m : Stack) (i : Nat) : Nat :=
  if i < 2 * b.RF_BUFFER_LEN then
    (slave_addr_init.getD (i / b.RF_BUFFER_LEN) []).getD (i % b.RF_BUFFER_LEN) 0
  else
    m.after_slave_addr (i - 2 * b.RF_BUFFER_LEN)

/-- The row pointer `slave_addr[n]`: a row of `RF_BUFFER_LEN` bytes when `n` indexes the
two-entry table and a pointer outside the table otherwise. -/
def slave_addr (b : Build) (m : Stack) (n : Nat) : Buf :=
  { size := if n < 2 then b.RF_BUFFER_LEN else 0,
    byte := fun i => slave_addr_mem b m (n * b.RF_BUFFER_LEN + i) }

/-- The local array `zero_addr[RF_BUFFER_LEN] = { 0 }` (line 157). -/
def zero_addr (b : Build) (m : Stack) : Buf :=
  { size := b.RF_BUFFER_LEN,
    byte := fun i => if i < b.RF_BUFFER_LEN then 0 else m.after_zero_addr (i - b.RF_BUFFER_LEN) }

/-- Lines 116-140 of `nrf_setup`: auto-ack and retransmission; returns the new value of the
local variable `features`. -/
def nrf_setup_ack (c : Chip σ) (h : Header) (b : Build) (device_num features : Nat)
    (w : World σ) : Nat × World σ :=
  if b.USE_AUTO_ACK then
    if b.MASTER_DEVICE then
      (features,
       (write_reg c h h.EN_AA ((1 <<< h.ENAA_P0) ||| (1 <<< h.ENAA_P1))
         (write_reg c h h.SETUP_RETR 0 w).2).2)
    else
      (features,
       (write_reg c h h.EN_AA (1 <<< h.ENAA_P0)
         (if device_num ≠ 0 then
            (write_reg c h h.SETUP_RETR ((0 <<< h.ARD) ||| (b.MAX_RETRANSMIT <<< h.ARC)) w).2
          else
            (write_reg c h h.SETUP_RETR ((10 <<< h.ARD) ||| (b.MAX_RETRANSMIT <<< h.ARC)) w).2)).2)
  else
    (u8 (features ||| (1 <<< h.EN_DYN_ACK)),
     (write_reg c h h.SETUP_RETR 0 (write_reg c h h.EN_AA 0 w).2).2)

/-- Lines 146-152 of `nrf_setup`: the `switch (RF_ADDRESS_LEN)`. -/
def nrf_setup_aw (c : Chip σ) (h : Header) (b : Build) (w : World σ) : World σ :=
  if b.RF_ADDRESS_LEN = 3 then (write_reg c h h.SETUP_AW 0x1 w).2
  else if b.RF_ADDRESS_LEN = 4 then (write_reg c h h.SETUP_AW 0x2 w).2
  else if b.RF_ADDRESS_LEN = 5 then (write_reg c h h.SETUP_AW 0x3 w).2
  else w

/-- Lines 156-172 of `nrf_setup`: the receive pipes and the transmit address. -/
def nrf_setup_pipes (c : Chip σ) (h : Header) (b : Build) (m : Stack) (device_num : Nat)
    (w : World σ) : World σ :=
  if b.MASTER_DEVICE then
    let w1 := (write_reg c h h.EN_RXADDR ((1 <<< h.ERX_P0) ||| (1 <<< h.ERX_P1)) w).2
    let w2 := (write_buf c h h.RX_ADDR_P0 (slave_addr b m 0) b.RF_ADDRESS_LEN w1).2
    let w3 := (write_buf c h h.RX_ADDR_P1 (slave_addr b m 1) b.RF_ADDRESS_LEN w2).2
    let w4 := (write_reg c h h.RX_PW_P0 b.RF_BUFFER_LEN w3).2
    let w5 := (write_reg c h h.RX_PW_P1 b.RF_BUFFER_LEN w4).2
    (write_buf c h h.TX_ADDR (zero_addr b m) b.RF_ADDRESS_LEN w5).2
  else
    let w1 := (write_reg c h h.EN_RXADDR (1 <<< h.ERX_P0) w).2
    let w2 := (write_reg c h h.RX_PW_P0 0 w1).2
    let w3 := (write_buf c h h.RX_ADDR_P0 (slave_addr b m device_num) b.RF_ADDRESS_LEN w2).2
    (write_buf c h h.TX_ADDR (slave_addr b m device_num) b.RF_ADDRESS_LEN w3).2

/-- The function `nrf_setup` (lines 107-186). -/
def nrf_setup (c : Chip σ) (h : Header) (b : Build) (m : Stack) (device_num : Nat)
    (w : World σ) : World σ :=
  let dev := u8 device_num
  let w1 := nrf_power_set c h b false w
  let r := nrf_setup_ack c h b dev 0 w1
  let w2 := (write_reg c h h.RF_CH 0x02 r.2).2
  let w3 := (write_reg c h h.RF_SETUP
    ((0 <<< h.RF_DR_LOW) ||| (1 <<< h.RF_DR_HIGH) |||
      (if b.RF_PWR_LEVEL < h.RF_PWR then 1 else 0)) w2).2
  let w4 := nrf_setup_aw c h b w3
  let w5 := (write_reg c h h.NRF_STATUS 0xff w4).2
  let w6 := nrf_setup_pipes c h b m dev w5
  let w7 := (write_reg c h h.DYNPD 0 w6).2
  let w8 := (write_reg c h h.FEATURE r.1 w7).2
  let w9 := (spi_command c h.FLUSH_RX w8).2
  let w10 := (spi_command c h.FLUSH_TX w9).2
  let w11 := nrf_power_set c h b true w10
  delay_us c 100 w11

/-! ## Transfer controller (lines 188-234) -/

/-- The function `nrf_load_tx_fifo` (lines 188-201); `#ifdef USE_AUTO_ACK` selects the opcode. -/
def nrf_load_tx_fifo (c : Chip σ) (h : Header) (b : Build) (buf : Buf) (len : Nat)
    (w : World σ) : Nat × World σ :=
  let w1 := csn c 0 w
  let r := if b.USE_AUTO_ACK then spi_transceive c h.W_TX_PAYLOAD w1
           else spi_transceive c h.W_TX_PAYLOAD_NO_ACK w1
  let w3 := write_loop c buf (u8 len) 0 r.2
  (r.1, csn c 1 w3)

/-- The function `nrf_clear_flags` (lines 203-205). -/
def nrf_clear_flags (c : Chip σ) (h : Header) (w : World σ) : World σ :=
  (write_reg c h h.NRF_STATUS 0x70 w).2

/-- The function `nrf_send_one` (lines 207-212). -/
def nrf_send_one (c : Chip σ) (w : World σ) : World σ :=
  ce c 0 (delay_us c 11 (ce c 1 w))

/-- The polling loop of `nrf_send_all` (lines 218-219) run for at most `fuel` iterations;
`none` when the loop is still running after them. The second read is made only when the
first test lets the `&&` continue. -/
def nrf_send_all_loop (c : Chip σ) (h : Header) : Nat → World σ → Option (World σ)
  | 0, _ => none
  | fuel + 1, w =>
    if (read_reg c h h.FIFO_STATUS w).1 &&& (1 <<< h.TX_EMPTY) ≠ 0 then
      some (read_reg c h h.FIFO_STATUS w).2
    else if (read_reg c h h.NRF_STATUS (read_reg c h h.FIFO_STATUS w).2).1
        &&& (1 <<< h.MAX_RT) ≠ 0 then
      some (read_reg c h h.NRF_STATUS (read_reg c h h.FIFO_STATUS w).2).2
    else
      nrf_send_all_loop c h fuel (read_reg c h h.NRF_STATUS (read_reg c h h.FIFO_STATUS w).2).2

/-- The function `nrf_send_all` (lines 214-221), the loop bounded by `fuel`. -/
def nrf_send_all (c : Chip σ) (h : Header) (fuel : Nat) (w : World σ) : Option (World σ) :=
  (nrf_send_all_loop c h fuel (delay_us c 11 (ce c 1 w))).map (ce c 0)

/-- The function `nrf_read_rx_fifo` (lines 223-230); the first component is the content of
`buf[0..len-1]`. -/
def nrf_read_rx_fifo (c : Chip σ) (h : Header) (len : Nat) (w : World σ) :
    List Nat × World σ :=
  let w1 := csn c 0 w
  let w2 := (spi_transceive c h.R_RX_PAYLOAD w1).2
  let r := read_loop c h (u8 len) w2
  (r.1, csn c 1 r.2)

/-- The function `nrf_rx_pipe_number` (lines 232-234). -/
def nrf_rx_pipe_number (c : Chip σ) (h : Header) (w : World σ) : Nat × World σ :=
  (u8 (((read_reg c h h.NRF_STATUS w).1 >>> h.RX_P_NO) &&& 0b111),
   (read_reg c h h.NRF_STATUS w).2)

/-! ## Observations on traces -/

/-- The events appended to the trace between the worlds `w` and `w1`. -/
def emitted (w w1 : World σ) : List Event :=
  w1.trace.drop w.trace.length

/-- Whether an event is a byte exchange. -/
def Event.isXfer : Event → Bool
  | Event.xfer _ _ => true
  | _ => false

/-- Whether a list of events is chip-select low, exactly `n` byte exchanges, chip-select high. -/
def isBracket (n : Nat) : List Event → Bool
  | Event.csn false :: es =>
    decide (es.length = n + 1) && (es.take n).all Event.isXfer && decide (es.drop n = [Event.csn true])
  | _ => false

/-- Replays a trace from the chip-select level `high` and checks that every byte exchange
takes place while chip-select is low. -/
def exchangesSelected : Bool → List Event → Bool
  | _, [] => true
  | _, Event.csn b :: es => exchangesSelected b es
  | high, Event.xfer _ _ :: es => !high && exchangesSelected high es
  | high, _ :: es => exchangesSelected high es

/-- The chip-select level after a trace that starts at level `high`. -/
def csnAfter : Bool → List Event → Bool
  | high, [] => high
  | _, Event.csn b :: es => csnAfter b es
  | high, _ :: es => csnAfter high es

/-- The replies of the chip to a list of bytes sent one after the other, and its state after
them. -/
def Chip.feed (c : Chip σ) : List Nat → σ → List Nat × σ
  | [], s => ([], s)
  | x :: xs, s => (u8 (c.exchange x s).1 :: (c.feed xs (c.exchange x s).2).1,
                   (c.feed xs (c.exchange x s).2).2)

/-- The events of one transaction: chip-select low, the exchanges, chip-select high. -/
def bracket (sent recv : List Nat) : List Event :=
  Event.csn false :: (List.zipWith Event.xfer sent recv ++ [Event.csn true])

/-- One SPI transaction as a whole: the bytes `sent` are exchanged inside one chip-select
bracket; returns the replies. -/
def transaction (c : Chip σ) (sent : List Nat) (w : World σ) : List Nat × World σ :=
  ((c.feed sent (c.select false w.chip)).1,
   { w with chip := c.select true (c.feed sent (c.select false w.chip)).2,
            csnPin := true,
            trace := w.trace ++ bracket sent (c.feed sent (c.select false w.chip)).1 })

/-- The bytes at offsets `i .. i+n-1` of a buffer, as sent on the bus. -/
def Buf.bytes (buf : Buf) (i n : Nat) : List Nat :=
  (List.range n).map (fun k => u8 (buf.byte (i + k)))

/-- The reads `buf[i] .. buf[i+n-1]`. -/
def Buf.reads (buf : Buf) (i n : Nat) : List Load :=
  (List.range n).map (fun k => Load.mk buf.size (i + k))

/-- The command byte of a register write. -/
def wcmd (h : Header) (reg : Nat) : Nat :=
  u8 (h.W_REGISTER ||| (h.REGISTER_MASK &&& u8 reg))

/-- The command byte of a register read. -/
def rcmd (h : Header) (reg : Nat) : Nat :=
  u8 (h.R_REGISTER ||| (h.REGISTER_MASK &&& u8 reg))

/-- Appends array reads to the log. -/
def logLoads (ls : List Load) (w : World σ) : World σ :=
  { w with loads := w.loads ++ ls }

/-- The world in which `spi_setup` leaves the lines (lines 46-47: `csn(1); ce(0);`), with
nothing recorded yet. -/
def World.init (s : σ) : World σ :=
  { chip := s, csnPin := true, cePin := false, trace := [], loads := [] }

/-- What chip-select bracketing asks of an operation that takes the world `w` to `w1`: the
events it emits are chip-select low, exactly `n` byte exchanges, chip-select high; no exchange
takes place while chip-select is high; chip-select is high afterwards (the pin and the last
level on the trace). -/
def ChipSelectBracketed (n : Nat) (w w1 : World σ) : Prop :=
  isBracket n (emitted w w1) = true ∧
  exchangesSelected w.csnPin (emitted w w1) = true ∧
  csnAfter w.csnPin (emitted w w1) = true ∧
  w1.csnPin = true

/-- A buffer holding the bytes of a list. -/
def Buf.ofList (bs : List Nat) : Buf :=
  { size := bs.length, byte := fun i => bs.getD i 0 }

/-! ## A register-file chip -/

/-- Where a register-file chip stands within a transaction. -/
inductive Phase where
  | idle
  | command
  | writing (r : Nat)
  | reading (r k : Nat)
deriving DecidableEq, Repr

/-- The state of the register-file chip: the bytes stored in each register and the phase. -/
structure RegFile where
  regs : Nat → List Nat
  phase : Phase

/-- The register-file chip with nothing stored. -/
def RegFile.empty : RegFile :=
  { regs := fun _ => [], phase := Phase.idle }

/-- A chip that is a read/write register file indexed by the 5-bit register address: after
chip-select goes low the first byte is the command; `001A AAAA` (write register) stores the
data bytes that follow in register `A`, `000A AAAA` (read register) returns the bytes stored
in `A`, in the same order. Command bytes are answered with the status byte `0x0E`. -/
def registerFile : Chip RegFile where
  select high s := { s with phase := if high then Phase.idle else Phase.command }
  enable _ s := s
  wait _ s := s
  exchange x s :=
    match s.phase with
    | Phase.idle => (0, s)
    | Phase.command =>
      if x / 32 = 1 then
        (0x0E, { regs := fun a => if a = x % 32 then [] else s.regs a,
                 phase := Phase.writing (x % 32) })
      else if x / 32 = 0 then (0x0E, { s with phase := Phase.reading (x % 32) 0 })
      else (0x0E, { s with phase := Phase.idle })
    | Phase.writing r =>
      (0, { s with regs := fun a => if a = r then s.regs r ++ [x] else s.regs a })
    | Phase.reading r k => ((s.regs r).getD k 0, { s with phase := Phase.reading r (k + 1) })

/-- A build with a 16-byte payload buffer, 15 retransmissions and power level 0, for a given
role, auto-ack option and address length; used to instantiate the general statements. -/
def Build.demo (master ack : Bool) (aw : Nat) : Build :=
  { MASTER_DEVICE := master, USE_AUTO_ACK := ack, RF_BUFFER_LEN := 16, RF_ADDRESS_LEN := aw,
    MAX_RETRANSMIT := 15, RF_PWR_LEVEL := 0, buffer_byte := by decide }

/-- A slave build whose payload buffer (4 bytes) is shorter than its addresses (5 bytes),
with auto-ack, 15 retransmissions and power level 0. -/
def Build.narrow : Build :=
  { MASTER_DEVICE := false, USE_AUTO_ACK := true, RF_BUFFER_LEN := 4, RF_ADDRESS_LEN := 5,
    MAX_RETRANSMIT := 15, RF_PWR_LEVEL := 0, buffer_byte := by decide }

/-- A stack holding `0xEE` behind `slave_addr` and `0xDD` behind `zero_addr`. -/
def Stack.demo : Stack :=
  { after_slave_addr := fun _ => 0xEE, after_zero_addr := fun _ => 0xDD }

/-! ## Transactions of a trace -/

/-- An event without the reply of the chip: what the driver itself puts on the transport. -/
def Event.erase : Event → Event
  | Event.xfer s _ => Event.xfer s 0
  | e => e

/-- The driver's side of a trace: chip-select and chip-enable levels, bytes sent, delays. -/
def outs (es : List Event) : List Event :=
  es.map Event.erase

/-- The driver's side of one transaction that sends the bytes `sent`. -/
def quiet (sent : List Nat) : List Event :=
  Event.csn false :: (sent.map (fun x => Event.xfer x 0) ++ [Event.csn true])

/-- Splits a trace into SPI transactions, `cur` being the bytes sent so far in the bracket
that is open (`none` while chip-select is high): each bracket from chip-select low to
chip-select high yields the list of bytes sent in it. -/
def framesFrom : Option (List Nat) → List Event → List (List Nat)
  | _, [] => []
  | _, Event.csn false :: es => framesFrom (some []) es
  | some bs, Event.csn true :: es => bs :: framesFrom none es
  | none, Event.csn true :: es => framesFrom none es
  | some bs, Event.xfer s _ :: es => framesFrom (some (bs ++ [s])) es
  | none, Event.xfer _ _ :: es => framesFrom none es
  | cur, Event.ce _ :: es => framesFrom cur es
  | cur, Event.delay _ :: es => framesFrom cur es

/-- The SPI transactions of a trace that starts with chip-select high: for each, the bytes
sent, first the command byte. -/
def frames (es : List Event) : List (List Nat) :=
  framesFrom none es

/-- The events that a list of transactions puts on the transport, replies left out. -/
def script (fs : List (List Nat)) : List Event :=
  (fs.map quiet).flatten

/-! ## The transactions of `nrf_setup`, section by section

The lists below are not the embedding of `nrf_setup` (that is the function `nrf_setup` above):
they name the bytes it sends, and `outs_nrf_setup` proves that the driver's side of the trace
of `nrf_setup` is exactly `setupFrames` followed by the delay. -/

/-- The byte that `nrf_power_set(on)` writes to `CONFIG` (lines 100-104). -/
def configByte (h : Header) (b : Build) (on_ : Bool) : Nat :=
  u8 ((1 <<< h.CRCO) ||| (1 <<< h.EN_CRC) ||| (on_.toNat <<< h.PWR_UP) |||
    (b.MASTER_DEVICE.toNat <<< h.PRIM_RX))

/-- The byte written to `SETUP_RETR` by a slave with auto-ack (lines 127-133). -/
def retrByte (h : Header) (b : Build) (device_num : Nat) : Nat :=
  u8 (((if device_num ≠ 0 then 0 else 10) <<< h.ARD) ||| (b.MAX_RETRANSMIT <<< h.ARC))

/-- The transactions of lines 116-140. -/
def ackFrames (h : Header) (b : Build) (device_num : Nat) : List (List Nat) :=
  if b.USE_AUTO_ACK then
    if b.MASTER_DEVICE then
      [[wcmd h h.SETUP_RETR, 0], [wcmd h h.EN_AA, u8 ((1 <<< h.ENAA_P0) ||| (1 <<< h.ENAA_P1))]]
    else
      [[wcmd h h.SETUP_RETR, retrByte h b device_num], [wcmd h h.EN_AA, u8 (1 <<< h.ENAA_P0)]]
  else
    [[wcmd h h.EN_AA, 0], [wcmd h h.SETUP_RETR, 0]]

/-- The value of the local variable `features` after lines 116-140. -/
def featuresByte (h : Header) (b : Build) : Nat :=
  if b.USE_AUTO_ACK then 0 else u8 (1 <<< h.EN_DYN_ACK)

/-- The byte written to `RF_SETUP` (line 144). -/
def rfSetupByte (h : Header) (b : Build) : Nat :=
  u8 ((0 <<< h.RF_DR_LOW) ||| (1 <<< h.RF_DR_HIGH) |||
    (if b.RF_PWR_LEVEL < h.RF_PWR then 1 else 0))

/-- The transactions of lines 146-152. -/
def awFrames (h : Header) (b : Build) : List (List Nat) :=
  if b.RF_ADDRESS_LEN = 3 then [[wcmd h h.SETUP_AW, 0x1]]
  else if b.RF_ADDRESS_LEN = 4 then [[wcmd h h.SETUP_AW, 0x2]]
  else if b.RF_ADDRESS_LEN = 5 then [[wcmd h h.SETUP_AW, 0x3]]
  else []

/-- The transactions of lines 156-172. -/
def pipeFrames (h : Header) (b : Build) (m : Stack) (device_num : Nat) : List (List Nat) :=
  if b.MASTER_DEVICE then
    [[wcmd h h.EN_RXADDR, u8 ((1 <<< h.ERX_P0) ||| (1 <<< h.ERX_P1))],
     wcmd h h.RX_ADDR_P0 :: (slave_addr b m 0).bytes 0 (u8 b.RF_ADDRESS_LEN),
     wcmd h h.RX_ADDR_P1 :: (slave_addr b m 1).bytes 0 (u8 b.RF_ADDRESS_LEN),
     [wcmd h h.RX_PW_P0, u8 b.RF_BUFFER_LEN],
     [wcmd h h.RX_PW_P1, u8 b.RF_BUFFER_LEN],
     wcmd h h.TX_ADDR :: (zero_addr b m).bytes 0 (u8 b.RF_ADDRESS_LEN)]
  else
    [[wcmd h h.EN_RXADDR, u8 (1 <<< h.ERX_P0)],
     [wcmd h h.RX_PW_P0, 0],
     wcmd h h.RX_ADDR_P0 :: (slave_addr b m device_num).bytes 0 (u8 b.RF_ADDRESS_LEN),
     wcmd h h.TX_ADDR :: (slave_addr b m device_num).bytes 0 (u8 b.RF_ADDRESS_LEN)]

/-- The transactions between the two `CONFIG` writes of `nrf_setup`. -/
def setupMiddle (h : Header) (b : Build) (m : Stack) (device_num : Nat) : List (List Nat) :=
  ackFrames h b (u8 device_num) ++
  [[wcmd h h.RF_CH, 0x02], [wcmd h h.RF_SETUP, rfSetupByte h b]] ++
  awFrames h b ++
  [[wcmd h h.NRF_STATUS, 0xff]] ++
  pipeFrames h b m (u8 device_num) ++
  [[wcmd h h.DYNPD, 0], [wcmd h h.FEATURE, featuresByte h b], [u8 h.FLUSH_RX], [u8 h.FLUSH_TX]]

/-- All transactions of `nrf_setup`, in order. -/
def setupFrames (h : Header) (b : Build) (m : Stack) (device_num : Nat) : List (List Nat) :=
  [wcmd h h.CONFIG, configByte h b false] ::
    (setupMiddle h b m device_num ++ [[wcmd h h.CONFIG, configByte h b true]])

/-- The command bytes that `nrf_setup` sends: the register writes and the two flushes. -/
def Header.commands (h : Header) : List Nat :=
  [wcmd h h.CONFIG, wcmd h h.EN_AA, wcmd h h.EN_RXADDR, wcmd h h.SETUP_AW, wcmd h h.SETUP_RETR,
   wcmd h h.RF_CH, wcmd h h.RF_SETUP, wcmd h h.NRF_STATUS, wcmd h h.RX_ADDR_P0,
   wcmd h h.RX_ADDR_P1, wcmd h h.TX_ADDR, wcmd h h.RX_PW_P0, wcmd h h.RX_PW_P1, wcmd h h.DYNPD,
   wcmd h h.FEATURE, u8 h.FLUSH_RX, u8 h.FLUSH_TX]

/-- The transactions among `fs` that are writes to the register `reg`: those whose command
byte is `W_REGISTER | (REGISTER_MASK & reg)`. -/
def writesTo (h : Header) (reg : Nat) (fs : List (List Nat)) : List (List Nat) :=
  fs.filter (fun f => decide (f.head? = some (wcmd h reg)))

/-- The register-file chip with the bytes `bs` stored in register `r`. -/
def RegFile.holding (r : Nat) (bs : List Nat) : RegFile :=
  { regs := fun a => if a = r then bs else [], phase := Phase.idle }

/-! ## Observations for the transfer controller and for array reads -/

/-- Whether an event writes the chip-enable line. -/
def Event.isCe : Event → Bool
  | Event.ce _ => true
  | _ => false

/-- Whether a list of events leaves the chip-enable line alone. -/
def ceFree (es : List Event) : Bool :=
  es.all (fun e => !e.isCe)

/-- What leaving chip-enable alone asks of an operation that takes the world `w` to `w1`: it
emits no chip-enable event and the pin is as before. -/
def CeUntouched (w w1 : World σ) : Prop :=
  ceFree (emitted w w1) = true ∧ w1.cePin = w.cePin

/-- The array reads logged between the worlds `w` and `w1`. -/
def loaded (w w1 : World σ) : List Load :=
  w1.loads.drop w.loads.length

/-- Whether an array read lies inside its object. -/
def Load.inBounds (l : Load) : Bool :=
  decide (l.index < l.size)

/-- A chip that is a stream of replies: it answers the `k`-th byte exchange with `replies k`,
whatever is sent. -/
def streamChip (replies : Nat → Nat) : Chip Nat where
  select _ k := k
  enable _ k := k
  exchange _ k := (replies k, k + 1)
  wait _ k := k

/-! ## The polling loop of `nrf_send_all` -/

/-- The events of one register read: the command byte of the read of `reg`, answered by
`r0`, then `NOP`, answered by the data byte `v`, inside one chip-select bracket. -/
def readEvents (h : Header) (reg r0 v : Nat) : List Event :=
  [Event.csn false, Event.xfer (rcmd h reg) r0, Event.xfer (u8 h.NOP) v, Event.csn true]

/-- One iteration of the polling loop as seen on the transport: the two replies of the
`FIFO_STATUS` read (to the command byte, then the reading) and, when `STATUS` was read in
the iteration, its two replies. -/
structure Poll where
  fifo : Nat × Nat
  status : Option (Nat × Nat)

/-- The events of one iteration. -/
def Poll.events (h : Header) (p : Poll) : List Event :=
  readEvents h h.FIFO_STATUS p.fifo.1 p.fifo.2 ++
    (match p.status with
     | none => []
     | some s => readEvents h h.NRF_STATUS s.1 s.2)

/-- Whether the `FIFO_STATUS` reading of an iteration has `TX_EMPTY` set. -/
def Poll.txEmpty (h : Header) (p : Poll) : Bool :=
  decide (p.fifo.2 &&& (1 <<< h.TX_EMPTY) ≠ 0)

/-- Whether an iteration read `STATUS` and the reading has `MAX_RT` set. -/
def Poll.maxRt (h : Header) (p : Poll) : Bool :=
  match p.status with
  | none => false
  | some s => decide (s.2 &&& (1 <<< h.MAX_RT) ≠ 0)

/-- Whether an iteration read `STATUS` exactly when its `FIFO_STATUS` reading has `TX_EMPTY`
clear. -/
def Poll.ordered (h : Header) (p : Poll) : Bool :=
  p.status.isSome == !(p.txEmpty h)

/-- The reply of the chip to the command byte of the read of `reg` made in the world `w`. -/
def cmdReply (c : Chip σ) (h : Header) (reg : Nat) (w : World σ) : Nat :=
  (transaction c [rcmd h reg, u8 h.NOP] w).1.headD 0

/-- Whether the iteration of the polling loop that starts in the world `w` leaves the loop:
the `FIFO_STATUS` reading has `TX_EMPTY` set, or the `STATUS` reading that follows it has
`MAX_RT` set. -/
def pollExits (c : Chip σ) (h : Header) (w : World σ) : Bool :=
  decide ((read_reg c h h.FIFO_STATUS w).1 &&& (1 <<< h.TX_EMPTY) ≠ 0) ||
  decide ((read_reg c h h.NRF_STATUS (read_reg c h h.FIFO_STATUS w).2).1
    &&& (1 <<< h.MAX_RT) ≠ 0)

/-- The world after an iteration of the polling loop that stays in the loop: both registers
were read. -/
def pollStep (c : Chip σ) (h : Header) (w : World σ) : World σ :=
  (read_reg c h h.NRF_STATUS (read_reg c h h.FIFO_STATUS w).2).2

/-- The world after `k` iterations that stay in the loop. -/
def pollRun (c : Chip σ) (h : Header) : Nat → World σ → World σ
  | 0, w => w
  | k + 1, w => pollRun c h k (pollStep c h w)

/-! # Theorems -/

/-! ## The operations as transactions -/

@[simp] theorem u8_u8 (n : Nat) : u8 (u8 n) = u8 n := by
  simp [u8]

theorem u8_lt (n : Nat) : u8 n < 256 := by
  unfold u8; omega

theorem u8_of_lt {n : Nat} (hn : n < 256) : u8 n = n := by
  unfold u8; omega

theorem Buf.bytes_succ (buf : Buf) (i n : Nat) :
    buf.bytes i (n + 1) = u8 (buf.byte i) :: buf.bytes (i + 1) n := by
  simp [Buf.bytes, List.range_succ_eq_map, Function.comp_def, Nat.add_assoc, Nat.add_comm 1]

theorem Buf.reads_succ (buf : Buf) (i n : Nat) :
    buf.reads i (n + 1) = Load.mk buf.size i :: buf.reads (i + 1) n := by
  simp [Buf.reads, List.range_succ_eq_map, Function.comp_def, Nat.add_assoc, Nat.add_comm 1]

@[simp] theorem Buf.bytes_length (buf : Buf) (i n : Nat) : (buf.bytes i n).length = n := by
  simp [Buf.bytes]

theorem Chip.feed_length (c : Chip σ) (xs : List Nat) (s : σ) :
    (c.feed xs s).1.length = xs.length := by
  induction xs generalizing s with
  | nil => rfl
  | cons x xs ih => simp [Chip.feed, ih]

theorem write_loop_eq (c : Chip σ) (buf : Buf) (n i : Nat) (w : World σ) :
    write_loop c buf n i w =
      { w with chip := (c.feed (buf.bytes i n) w.chip).2,
               trace := w.trace ++
                 List.zipWith Event.xfer (buf.bytes i n) (c.feed (buf.bytes i n) w.chip).1,
               loads := w.loads ++ buf.reads i n } := by
  induction n generalizing i w with
  | zero => simp [write_loop, Buf.bytes, Buf.reads, Chip.feed]
  | succ n ih =>
    rw [write_loop, ih, Buf.bytes_succ, Buf.reads_succ]
    simp [spi_transceive, load, Chip.feed]

theorem read_loop_eq (c : Chip σ) (h : Header) (n : Nat) (w : World σ) :
    read_loop c h n w =
      ((c.feed (List.replicate n (u8 h.NOP)) w.chip).1,
       { w with chip := (c.feed (List.replicate n (u8 h.NOP)) w.chip).2,
                trace := w.trace ++ List.zipWith Event.xfer (List.replicate n (u8 h.NOP))
                  (c.feed (List.replicate n (u8 h.NOP)) w.chip).1 }) := by
  induction n generalizing w with
  | zero => simp [read_loop, Chip.feed]
  | succ n ih =>
    rw [read_loop, ih]
    simp [spi_transceive, Chip.feed, List.replicate_succ]

theorem write_buf_eq (c : Chip σ) (h : Header) (reg : Nat) (buf : Buf) (len : Nat)
    (w : World σ) :
    write_buf c h reg buf len w =
      ((transaction c (wcmd h reg :: buf.bytes 0 (u8 len)) w).1.headD 0,
       logLoads (buf.reads 0 (u8 len))
         (transaction c (wcmd h reg :: buf.bytes 0 (u8 len)) w).2) := by
  simp [write_buf, write_loop_eq, transaction, logLoads, csn, spi_transceive, wcmd, bracket,
    Chip.feed, u8]

theorem read_buf_eq (c : Chip σ) (h : Header) (reg len : Nat) (w : World σ) :
    read_buf c h reg len w =
      ((transaction c (rcmd h reg :: List.replicate (u8 len) (u8 h.NOP)) w).1.tail,
       (transaction c (rcmd h reg :: List.replicate (u8 len) (u8 h.NOP)) w).2) := by
  simp [read_buf, read_loop_eq, transaction, csn, spi_transceive, rcmd, bracket, Chip.feed, u8]

theorem write_reg_eq (c : Chip σ) (h : Header) (reg data : Nat) (w : World σ) :
    write_reg c h reg data w =
      ((transaction c [wcmd h reg, u8 data] w).1.headD 0,
       logLoads [Load.mk 1 0] (transaction c [wcmd h reg, u8 data] w).2) := by
  rw [write_reg, write_buf_eq]
  simp [u8, byteObject, Buf.bytes, Buf.reads, List.range_succ]

theorem read_reg_eq (c : Chip σ) (h : Header) (reg : Nat) (w : World σ) :
    read_reg c h reg w =
      ((transaction c [rcmd h reg, u8 h.NOP] w).1.tail.headD 0,
       (transaction c [rcmd h reg, u8 h.NOP] w).2) := by
  simp [read_reg, read_buf_eq, u8]

theorem spi_command_eq (c : Chip σ) (command : Nat) (w : World σ) :
    spi_command c command w =
      ((transaction c [u8 command] w).1.headD 0, (transaction c [u8 command] w).2) := by
  simp [spi_command, transaction, csn, spi_transceive, bracket, Chip.feed, u8]

theorem nrf_load_tx_fifo_eq (c : Chip σ) (h : Header) (b : Build) (buf : Buf) (len : Nat)
    (w : World σ) :
    nrf_load_tx_fifo c h b buf len w =
      ((transaction c (u8 (if b.USE_AUTO_ACK then h.W_TX_PAYLOAD else h.W_TX_PAYLOAD_NO_ACK)
          :: buf.bytes 0 (u8 len)) w).1.headD 0,
       logLoads (buf.reads 0 (u8 len))
         (transaction c (u8 (if b.USE_AUTO_ACK then h.W_TX_PAYLOAD else h.W_TX_PAYLOAD_NO_ACK)
          :: buf.bytes 0 (u8 len)) w).2) := by
  cases hb : b.USE_AUTO_ACK <;>
    simp [nrf_load_tx_fifo, hb, write_loop_eq, transaction, logLoads, csn, spi_transceive,
      bracket, Chip.feed, u8]

theorem nrf_read_rx_fifo_eq (c : Chip σ) (h : Header) (len : Nat) (w : World σ) :
    nrf_read_rx_fifo c h len w =
      ((transaction c (u8 h.R_RX_PAYLOAD :: List.replicate (u8 len) (u8 h.NOP)) w).1.tail,
       (transaction c (u8 h.R_RX_PAYLOAD :: List.replicate (u8 len) (u8 h.NOP)) w).2) := by
  simp [nrf_read_rx_fifo, read_loop_eq, transaction, csn, spi_transceive, bracket, Chip.feed,
    u8]

/-! ## Shape of one transaction -/

theorem emitted_of_append (w w1 : World σ) (es : List Event)
    (ht : w1.trace = w.trace ++ es) : emitted w w1 = es := by
  simp [emitted, ht]

@[simp] theorem logLoads_trace (ls : List Load) (w : World σ) :
    (logLoads ls w).trace = w.trace := rfl

@[simp] theorem logLoads_csnPin (ls : List Load) (w : World σ) :
    (logLoads ls w).csnPin = w.csnPin := rfl

@[simp] theorem logLoads_cePin (ls : List Load) (w : World σ) :
    (logLoads ls w).cePin = w.cePin := rfl

@[simp] theorem logLoads_chip (ls : List Load) (w : World σ) :
    (logLoads ls w).chip = w.chip := rfl

@[simp] theorem emitted_logLoads (ls : List Load) (w w1 : World σ) :
    emitted w (logLoads ls w1) = emitted w w1 := rfl

theorem emitted_transaction (c : Chip σ) (sent : List Nat) (w : World σ) :
    emitted w (transaction c sent w).2 = bracket sent (transaction c sent w).1 :=
  emitted_of_append _ _ _ rfl

theorem transaction_replies_length (c : Chip σ) (sent : List Nat) (w : World σ) :
    (transaction c sent w).1.length = sent.length := by
  simp [transaction, Chip.feed_length]

theorem all_isXfer_zipWith (sent recv : List Nat) :
    (List.zipWith Event.xfer sent recv).all Event.isXfer = true := by
  induction sent generalizing recv with
  | nil => simp
  | cons x xs ih =>
    cases recv with
    | nil => simp
    | cons r rs => simp [Event.isXfer, ih]

theorem isBracket_bracket (sent recv : List Nat) (hl : recv.length = sent.length) :
    isBracket sent.length (bracket sent recv) = true := by
  have hz : (List.zipWith Event.xfer sent recv).length = sent.length := by
    simp [List.length_zipWith, hl]
  simp [isBracket, bracket, hz, List.take_append_of_le_length, List.drop_append_of_le_length,
    List.take_of_length_le, List.drop_of_length_le, all_isXfer_zipWith]

theorem exchangesSelected_xfers (sent recv : List Nat) (rest : List Event)
    (hr : exchangesSelected false rest = true) :
    exchangesSelected false (List.zipWith Event.xfer sent recv ++ rest) = true := by
  induction sent generalizing recv with
  | nil => simpa using hr
  | cons x xs ih =>
    cases recv with
    | nil => simpa using hr
    | cons r rs => simpa [exchangesSelected] using ih rs

theorem exchangesSelected_bracket (high : Bool) (sent recv : List Nat) :
    exchangesSelected high (bracket sent recv) = true := by
  simp only [bracket, exchangesSelected]
  exact exchangesSelected_xfers sent recv _ (by simp [exchangesSelected])

theorem csnAfter_xfers (high : Bool) (sent recv : List Nat) (rest : List Event) :
    csnAfter high (List.zipWith Event.xfer sent recv ++ rest) = csnAfter high rest := by
  induction sent generalizing recv with
  | nil => simp
  | cons x xs ih =>
    cases recv with
    | nil => simp
    | cons r rs => simpa [csnAfter] using ih rs

theorem csnAfter_bracket (high : Bool) (sent recv : List Nat) :
    csnAfter high (bracket sent recv) = true := by
  simp [bracket, csnAfter, csnAfter_xfers]

theorem chipSelectBracketed_transaction (c : Chip σ) (sent : List Nat) (ls : List Load)
    (w : World σ) :
    ChipSelectBracketed sent.length w (logLoads ls (transaction c sent w).2) := by
  refine ⟨?_, ?_, ?_, rfl⟩
  · rw [emitted_logLoads, emitted_transaction]
    exact isBracket_bracket _ _ (transaction_replies_length c sent w)
  · rw [emitted_logLoads, emitted_transaction]
    exact exchangesSelected_bracket _ _ _
  · rw [emitted_logLoads, emitted_transaction]
    exact csnAfter_bracket _ _ _

theorem chipSelectBracketed_transaction0 (c : Chip σ) (sent : List Nat) (w : World σ) :
    ChipSelectBracketed sent.length w (transaction c sent w).2 :=
  chipSelectBracketed_transaction c sent [] w

/-! ## C1: chip-select bracketing -/

/-- C1. For every register address, opcode, buffer and length `len` in 0..255, each of
`read_buf`, `read_reg`, `write_buf`, `write_reg`, `spi_command`, `nrf_load_tx_fifo` and
`nrf_read_rx_fifo` emits exactly chip-select low, `1 + len` byte exchanges (`len = 1` for
`read_reg` and `write_reg`, `0` for `spi_command`), chip-select high; no byte is exchanged
while chip-select is high and chip-select is high when the operation returns. -/
theorem chip_select_bracketing (c : Chip σ) (h : Header) (b : Build) (reg data command : Nat)
    (buf : Buf) (len : Nat) (w : World σ) (hlen : len < 256) :
    ChipSelectBracketed (1 + len) w (read_buf c h reg len w).2 ∧
    ChipSelectBracketed (1 + 1) w (read_reg c h reg w).2 ∧
    ChipSelectBracketed (1 + len) w (write_buf c h reg buf len w).2 ∧
    ChipSelectBracketed (1 + 1) w (write_reg c h reg data w).2 ∧
    ChipSelectBracketed (1 + 0) w (spi_command c command w).2 ∧
    ChipSelectBracketed (1 + len) w (nrf_load_tx_fifo c h b buf len w).2 ∧
    ChipSelectBracketed (1 + len) w (nrf_read_rx_fifo c h len w).2 := by
  have hl : u8 len = len := u8_of_lt hlen
  refine ⟨?_, ?_, ?_, ?_, ?_, ?_, ?_⟩
  · rw [read_buf_eq]
    have := chipSelectBracketed_transaction0 c
      (rcmd h reg :: List.replicate (u8 len) (u8 h.NOP)) w
    simpa [hl, Nat.add_comm] using this
  · rw [read_reg_eq]
    exact chipSelectBracketed_transaction0 c [rcmd h reg, u8 h.NOP] w
  · rw [write_buf_eq]
    have := chipSelectBracketed_transaction c (wcmd h reg :: buf.bytes 0 (u8 len))
      (buf.reads 0 (u8 len)) w
    simpa [hl, Nat.add_comm] using this
  · rw [write_reg_eq]
    exact chipSelectBracketed_transaction c [wcmd h reg, u8 data] _ w
  · rw [spi_command_eq]
    exact chipSelectBracketed_transaction0 c [u8 command] w
  · rw [nrf_load_tx_fifo_eq]
    have := chipSelectBracketed_transaction c
      (u8 (if b.USE_AUTO_ACK then h.W_TX_PAYLOAD else h.W_TX_PAYLOAD_NO_ACK)
        :: buf.bytes 0 (u8 len)) (buf.reads 0 (u8 len)) w
    simpa [hl, Nat.add_comm] using this
  · rw [nrf_read_rx_fifo_eq]
    have := chipSelectBracketed_transaction0 c
      (u8 h.R_RX_PAYLOAD :: List.replicate (u8 len) (u8 h.NOP)) w
    simpa [hl, Nat.add_comm] using this

/-- Witness of C1: the register-file chip, the nRF24L01 header, register `RX_ADDR_P0`, a
three-byte buffer. -/
theorem chip_select_bracketing_witness :
    3 < 256 ∧
    (ChipSelectBracketed (1 + 3) (World.init RegFile.empty)
        (read_buf registerFile nRF24L01 0x0A 3 (World.init RegFile.empty)).2 ∧
      ChipSelectBracketed (1 + 1) (World.init RegFile.empty)
        (read_reg registerFile nRF24L01 0x0A (World.init RegFile.empty)).2 ∧
      ChipSelectBracketed (1 + 3) (World.init RegFile.empty)
        (write_buf registerFile nRF24L01 0x0A (Buf.ofList [1, 2, 3]) 3
          (World.init RegFile.empty)).2 ∧
      ChipSelectBracketed (1 + 1) (World.init RegFile.empty)
        (write_reg registerFile nRF24L01 0x0A 7 (World.init RegFile.empty)).2 ∧
      ChipSelectBracketed (1 + 0) (World.init RegFile.empty)
        (spi_command registerFile 0xE1 (World.init RegFile.empty)).2 ∧
      ChipSelectBracketed (1 + 3) (World.init RegFile.empty)
        (nrf_load_tx_fifo registerFile nRF24L01 (Build.demo true true 5) (Buf.ofList [1, 2, 3]) 3
          (World.init RegFile.empty)).2 ∧
      ChipSelectBracketed (1 + 3) (World.init RegFile.empty)
        (nrf_read_rx_fifo registerFile nRF24L01 3 (World.init RegFile.empty)).2) :=
  ⟨by decide,
   chip_select_bracketing registerFile nRF24L01 (Build.demo true true 5) 0x0A 7 0xE1
     (Buf.ofList [1, 2, 3]) 3 (World.init RegFile.empty) (by decide)⟩

/-! ## C2: register framing -/

theorem wcmd_of_lt (h : Header) (reg : Nat) (hW : h.W_REGISTER < 256) (hreg : reg < 256) :
    wcmd h reg = h.W_REGISTER ||| (h.REGISTER_MASK &&& reg) := by
  have h1 : h.REGISTER_MASK &&& reg < 2 ^ 8 := Nat.and_lt_two_pow _ (by simpa using hreg)
  have h2 : h.W_REGISTER ||| (h.REGISTER_MASK &&& reg) < 2 ^ 8 :=
    Nat.or_lt_two_pow (by simpa using hW) h1
  rw [wcmd, u8_of_lt hreg, u8_of_lt (by simpa using h2)]

theorem rcmd_of_lt (h : Header) (reg : Nat) (hR : h.R_REGISTER < 256) (hreg : reg < 256) :
    rcmd h reg = h.R_REGISTER ||| (h.REGISTER_MASK &&& reg) := by
  have h1 : h.REGISTER_MASK &&& reg < 2 ^ 8 := Nat.and_lt_two_pow _ (by simpa using hreg)
  have h2 : h.R_REGISTER ||| (h.REGISTER_MASK &&& reg) < 2 ^ 8 :=
    Nat.or_lt_two_pow (by simpa using hR) h1
  rw [rcmd, u8_of_lt hreg, u8_of_lt (by simpa using h2)]

theorem and_31 (reg : Nat) : 0x1F &&& reg = reg % 32 := by
  rw [Nat.and_comm]
  exact Nat.and_pow_two_sub_one_eq_mod reg 5

theorem or_32_bounds (x : Nat) (hx : x < 32) : 0x20 ≤ 0x20 ||| x ∧ 0x20 ||| x ≤ 0x3F := by
  have h1 : 0x20 ||| x < 2 ^ 6 := Nat.or_lt_two_pow (by decide) (by omega)
  have h2 : (0x20 ||| x).testBit 5 = true := by
    rw [Nat.testBit_or]; simp; exact Or.inl (by decide)
  have h3 : 2 ^ 5 ≤ 0x20 ||| x := Nat.testBit_implies_ge h2
  omega

/-- C2. For 8-bit `reg`, `data` and `op`: `write_reg` exchanges exactly the two bytes
`W_REGISTER | (REGISTER_MASK & reg)` and `data` and returns the reply to the first;
`read_reg` exchanges exactly `R_REGISTER | (REGISTER_MASK & reg)` and `NOP` and returns the
reply to the second; `spi_command` exchanges exactly `op` and returns its reply. With
`R_REGISTER = 0x00`, `W_REGISTER = 0x20`, `REGISTER_MASK = 0x1F` the read command byte lies in
`0x00..0x1F`, the write command byte in `0x20..0x3F`, and an address equal to `reg` modulo 32
makes both operations behave identically. -/
theorem register_framing (c : Chip σ) (h : Header) (reg data op : Nat) (w : World σ)
    (hreg : reg < 256) (hdata : data < 256) (hop : op < 256)
    (hR : h.R_REGISTER < 256) (hW : h.W_REGISTER < 256) (hN : h.NOP < 256) :
    (∃ r0 r1, emitted w (write_reg c h reg data w).2 =
        [Event.csn false, Event.xfer (h.W_REGISTER ||| (h.REGISTER_MASK &&& reg)) r0,
         Event.xfer data r1, Event.csn true] ∧
      (write_reg c h reg data w).1 = r0) ∧
    (∃ r0 r1, emitted w (read_reg c h reg w).2 =
        [Event.csn false, Event.xfer (h.R_REGISTER ||| (h.REGISTER_MASK &&& reg)) r0,
         Event.xfer h.NOP r1, Event.csn true] ∧
      (read_reg c h reg w).1 = r1) ∧
    (∃ r0, emitted w (spi_command c op w).2 =
        [Event.csn false, Event.xfer op r0, Event.csn true] ∧
      (spi_command c op w).1 = r0) ∧
    (h.R_REGISTER = 0x00 → h.W_REGISTER = 0x20 → h.REGISTER_MASK = 0x1F →
      (h.R_REGISTER ||| (h.REGISTER_MASK &&& reg)) ≤ 0x1F ∧
      0x20 ≤ (h.W_REGISTER ||| (h.REGISTER_MASK &&& reg)) ∧
      (h.W_REGISTER ||| (h.REGISTER_MASK &&& reg)) ≤ 0x3F ∧
      ∀ reg2, reg2 < 256 → reg2 % 32 = reg % 32 →
        write_reg c h reg2 data w = write_reg c h reg data w ∧
        read_reg c h reg2 w = read_reg c h reg w) := by
  refine ⟨?_, ?_, ?_, ?_⟩
  · refine ⟨(transaction c [wcmd h reg, u8 data] w).1.headD 0,
      (transaction c [wcmd h reg, u8 data] w).1.getD 1 0, ?_, ?_⟩
    · rw [write_reg_eq, emitted_logLoads, emitted_transaction, wcmd_of_lt h reg hW hreg,
        u8_of_lt hdata]
      simp [transaction, bracket, Chip.feed]
    · rw [write_reg_eq]
  · refine ⟨(transaction c [rcmd h reg, u8 h.NOP] w).1.headD 0,
      (transaction c [rcmd h reg, u8 h.NOP] w).1.tail.headD 0, ?_, ?_⟩
    · rw [read_reg_eq, emitted_transaction, rcmd_of_lt h reg hR hreg, u8_of_lt hN]
      simp [transaction, bracket, Chip.feed]
    · rw [read_reg_eq]
  · refine ⟨(transaction c [u8 op] w).1.headD 0, ?_, ?_⟩
    · rw [spi_command_eq, emitted_transaction, u8_of_lt hop]
      simp [transaction, bracket, Chip.feed]
    · rw [spi_command_eq]
  · intro h0 h1 h2
    have hm : reg % 32 < 32 := Nat.mod_lt _ (by decide)
    rw [h0, h1, h2, and_31]
    refine ⟨by simpa using Nat.le_of_lt_succ hm, (or_32_bounds _ hm).1, (or_32_bounds _ hm).2,
      ?_⟩
    intro reg2 hreg2 hmod
    have e1 : wcmd h reg2 = wcmd h reg := by
      rw [wcmd_of_lt h reg2 hW hreg2, wcmd_of_lt h reg hW hreg, h2, and_31, and_31, hmod]
    have e2 : rcmd h reg2 = rcmd h reg := by
      rw [rcmd_of_lt h reg2 hR hreg2, rcmd_of_lt h reg hR hreg, h2, and_31, and_31, hmod]
    rw [write_reg_eq, write_reg_eq, read_reg_eq, read_reg_eq, e1, e2]
    exact ⟨rfl, rfl⟩

/-- Witness of C2: the register-file chip, the nRF24L01 header, address `0x2A`, data `7`,
opcode `FLUSH_TX`. -/
theorem register_framing_witness :
    (0x2A < 256 ∧ 7 < 256 ∧ 0xE1 < 256 ∧ nRF24L01.R_REGISTER < 256 ∧
      nRF24L01.W_REGISTER < 256 ∧ nRF24L01.NOP < 256) ∧
    ((∃ r0 r1, emitted (World.init RegFile.empty)
          (write_reg registerFile nRF24L01 0x2A 7 (World.init RegFile.empty)).2 =
        [Event.csn false,
         Event.xfer (nRF24L01.W_REGISTER ||| (nRF24L01.REGISTER_MASK &&& 0x2A)) r0,
         Event.xfer 7 r1, Event.csn true] ∧
        (write_reg registerFile nRF24L01 0x2A 7 (World.init RegFile.empty)).1 = r0) ∧
      (∃ r0 r1, emitted (World.init RegFile.empty)
          (read_reg registerFile nRF24L01 0x2A (World.init RegFile.empty)).2 =
        [Event.csn false,
         Event.xfer (nRF24L01.R_REGISTER ||| (nRF24L01.REGISTER_MASK &&& 0x2A)) r0,
         Event.xfer nRF24L01.NOP r1, Event.csn true] ∧
        (read_reg registerFile nRF24L01 0x2A (World.init RegFile.empty)).1 = r1) ∧
      (∃ r0, emitted (World.init RegFile.empty)
          (spi_command registerFile 0xE1 (World.init RegFile.empty)).2 =
        [Event.csn false, Event.xfer 0xE1 r0, Event.csn true] ∧
        (spi_command registerFile 0xE1 (World.init RegFile.empty)).1 = r0) ∧
      (nRF24L01.R_REGISTER = 0x00 → nRF24L01.W_REGISTER = 0x20 →
        nRF24L01.REGISTER_MASK = 0x1F →
        (nRF24L01.R_REGISTER ||| (nRF24L01.REGISTER_MASK &&& 0x2A)) ≤ 0x1F ∧
        0x20 ≤ (nRF24L01.W_REGISTER ||| (nRF24L01.REGISTER_MASK &&& 0x2A)) ∧
        (nRF24L01.W_REGISTER ||| (nRF24L01.REGISTER_MASK &&& 0x2A)) ≤ 0x3F ∧
        ∀ reg2, reg2 < 256 → reg2 % 32 = 0x2A % 32 →
          write_reg registerFile nRF24L01 reg2 7 (World.init RegFile.empty) =
            write_reg registerFile nRF24L01 0x2A 7 (World.init RegFile.empty) ∧
          read_reg registerFile nRF24L01 reg2 (World.init RegFile.empty) =
            read_reg registerFile nRF24L01 0x2A (World.init RegFile.empty))) :=
  ⟨⟨by decide, by decide, by decide, by decide, by decide, by decide⟩,
   register_framing registerFile nRF24L01 0x2A 7 0xE1 (World.init RegFile.empty)
     (by decide) (by decide) (by decide) (by decide) (by decide) (by decide)⟩

/-! ## C3: write/read round trip against the register-file chip -/

theorem registerFile_feed_writing (xs : List Nat) (regs : Nat → List Nat) (r : Nat) :
    registerFile.feed xs { regs := regs, phase := Phase.writing r } =
      (xs.map (fun _ => 0),
       { regs := fun a => if a = r then regs r ++ xs else regs a, phase := Phase.writing r }) := by
  induction xs generalizing regs with
  | nil =>
    simp only [Chip.feed, List.map_nil, List.append_nil, Prod.mk.injEq, true_and]
    congr 1
    funext a
    by_cases ha : a = r <;> simp [ha]
  | cons x xs ih =>
    simp only [Chip.feed, registerFile, List.map_cons]
    have := ih (fun a => if a = r then regs r ++ [x] else regs a)
    simp only [registerFile] at this
    rw [this]
    simp [u8]
    funext a
    by_cases ha : a = r <;> simp [ha]

theorem registerFile_feed_reading (n k nop : Nat) (regs : Nat → List Nat) (r : Nat) :
    (registerFile.feed (List.replicate n nop) { regs := regs, phase := Phase.reading r k }).1 =
      (List.range n).map (fun j => u8 ((regs r).getD (k + j) 0)) := by
  induction n generalizing k with
  | zero => simp [Chip.feed]
  | succ n ih =>
    simp only [List.replicate_succ, Chip.feed, registerFile]
    have := ih (k + 1)
    simp only [registerFile] at this
    rw [this]
    simp [List.range_succ_eq_map, Function.comp_def, Nat.add_assoc, Nat.add_comm 1]


theorem ofList_bytes (B : List Nat) (hB : ∀ x ∈ B, x < 256) :
    (Buf.ofList B).bytes 0 B.length = B := by
  apply List.ext_getElem
  · simp
  · intro i h1 h2
    have hi : i < B.length := by simpa using h1
    simp only [Buf.bytes, Buf.ofList, List.getElem_map, List.getElem_range, Nat.zero_add,
      List.getD_eq_getElem?_getD, List.getElem?_eq_getElem hi, Option.getD_some]
    exact u8_of_lt (hB _ (List.getElem_mem _))

theorem registerFile_write_transaction (cmd : Nat) (B : List Nat) (s : RegFile)
    (hc : cmd / 32 = 1) :
    (registerFile.feed (cmd :: B) (registerFile.select false s)).2 =
      { regs := fun a => if a = cmd % 32 then B else s.regs a,
        phase := Phase.writing (cmd % 32) } := by
  have e : registerFile.exchange cmd (registerFile.select false s) =
      (0x0E, { regs := fun a => if a = cmd % 32 then [] else s.regs a,
               phase := Phase.writing (cmd % 32) }) := by
    simp [registerFile, hc]
  rw [Chip.feed, e, registerFile_feed_writing]
  simp only [RegFile.mk.injEq, and_true]
  funext a
  by_cases ha : a = cmd % 32 <;> simp [ha]

theorem registerFile_read_transaction (cmd n nop : Nat) (s : RegFile) (hc : cmd / 32 = 0) :
    (registerFile.feed (cmd :: List.replicate n nop) (registerFile.select false s)).1.tail =
      (List.range n).map (fun j => u8 ((s.regs (cmd % 32)).getD j 0)) := by
  have e : registerFile.exchange cmd (registerFile.select false s) =
      (0x0E, { regs := s.regs, phase := Phase.reading (cmd % 32) 0 }) := by
    simp [registerFile, hc]
  rw [Chip.feed, e]
  simp only [List.tail_cons]
  rw [registerFile_feed_reading]
  simp

theorem round_trip_aux (h : Header) (R n : Nat) (B : List Nat) (w : World RegFile)
    (hR : h.R_REGISTER = 0x00) (hW : h.W_REGISTER = 0x20) (hM : h.REGISTER_MASK = 0x1F)
    (hn : n < 256) (hB : B.length = n) (hbytes : ∀ x ∈ B, x < 256) :
    (read_buf registerFile h R n (write_buf registerFile h R (Buf.ofList B) n w).2).1 = B := by
  subst hB
  have hm : u8 R % 32 < 32 := Nat.mod_lt _ (by decide)
  have hw : wcmd h R = 0x20 ||| (u8 R % 32) := by
    rw [wcmd, hW, hM, and_31]
    exact u8_of_lt (by have := (or_32_bounds _ hm).2; omega)
  have hr : rcmd h R = u8 R % 32 := by
    rw [rcmd, hR, hM, and_31]
    simp only [Nat.zero_or]
    exact u8_of_lt (by omega)
  have hw1 : (0x20 ||| (u8 R % 32)) / 32 = 1 := by
    have := or_32_bounds _ hm; omega
  have hw2 : (0x20 ||| (u8 R % 32)) % 32 = u8 R % 32 := by
    apply Nat.eq_of_testBit_eq
    intro i
    have e : (32 : Nat) = 2 ^ 5 := rfl
    rw [e, Nat.testBit_mod_two_pow, Nat.testBit_or, Nat.testBit_mod_two_pow, Nat.testBit_two_pow]
    by_cases hi : i < 5
    · have : ¬ (5 = i) := by omega
      simp [hi, this]
    · simp [hi]
  have hr1 : (u8 R % 32) / 32 = 0 := by omega
  have hr2 : (u8 R % 32) % 32 = u8 R % 32 := by omega
  rw [read_buf_eq, write_buf_eq, hw, hr, u8_of_lt hn, ofList_bytes B hbytes]
  simp only [transaction, logLoads]
  rw [registerFile_read_transaction _ _ _ _ hr1, registerFile_write_transaction _ _ _ hw1,
    hw2, hr2]
  apply List.ext_getElem
  · simp
  · intro i h1 h2
    simp only [List.getElem_map, List.getElem_range]
    simp only [registerFile, if_true, List.getD_eq_getElem?_getD, List.getElem?_eq_getElem h2,
      Option.getD_some]
    exact u8_of_lt (hbytes _ (List.getElem_mem _))

/-- C3. Against the register-file chip (with `R_REGISTER = 0x00`, `W_REGISTER = 0x20`,
`REGISTER_MASK = 0x1F`): for every register `R`, every length `n` from 1 up to the configured
buffer length and every sequence `B` of `n` bytes, `write_buf(R, B, n)` followed by
`read_buf(R, out, n)` leaves `out = B`; and for every byte `V`, `write_reg(R, V)` followed by
`read_reg(R)` returns `V`. -/
theorem write_read_round_trip (h : Header) (b : Build) (R n V : Nat) (B : List Nat)
    (w : World RegFile)
    (hR : h.R_REGISTER = 0x00) (hW : h.W_REGISTER = 0x20) (hM : h.REGISTER_MASK = 0x1F)
    (hn1 : 1 ≤ n) (hn : n ≤ b.RF_BUFFER_LEN) (hB : B.length = n) (hbytes : ∀ x ∈ B, x < 256)
    (hV : V < 256) :
    (read_buf registerFile h R n (write_buf registerFile h R (Buf.ofList B) n w).2).1 = B ∧
    (read_reg registerFile h R (write_reg registerFile h R V w).2).1 = V := by
  have _ := hn1
  refine ⟨round_trip_aux h R n B w hR hW hM (by have := b.buffer_byte; omega) hB hbytes, ?_⟩
  have e : write_reg registerFile h R V w = write_buf registerFile h R (Buf.ofList [V]) 1 w := by
    rw [write_reg_eq, write_buf_eq]
    simp [Buf.bytes, Buf.reads, Buf.ofList, u8, List.range_succ]
  have hv : ∀ x ∈ [V], x < 256 := by simpa using hV
  have := round_trip_aux h R 1 [V] w hR hW hM (by decide) rfl hv
  rw [read_reg, e, this]
  rfl

/-- Witness of C3: register `RX_ADDR_P0` of the nRF24L01 header, five bytes, a build whose
buffer holds 16. -/
theorem write_read_round_trip_witness :
    (nRF24L01.R_REGISTER = 0x00 ∧ nRF24L01.W_REGISTER = 0x20 ∧ nRF24L01.REGISTER_MASK = 0x1F ∧
      1 ≤ 5 ∧ 5 ≤ (Build.demo true true 5).RF_BUFFER_LEN ∧
      [0x0f, 0xb3, 0x47, 0x17, 0x1c].length = 5 ∧
      (∀ x ∈ [0x0f, 0xb3, 0x47, 0x17, 0x1c], x < 256) ∧ 0xA5 < 256) ∧
    (read_buf registerFile nRF24L01 0x0A 5
        (write_buf registerFile nRF24L01 0x0A (Buf.ofList [0x0f, 0xb3, 0x47, 0x17, 0x1c]) 5
          (World.init RegFile.empty)).2).1 = [0x0f, 0xb3, 0x47, 0x17, 0x1c] ∧
    (read_reg registerFile nRF24L01 0x0A
        (write_reg registerFile nRF24L01 0x0A 0xA5 (World.init RegFile.empty)).2).1 = 0xA5 :=
  ⟨⟨rfl, rfl, rfl, by decide, by decide, rfl, by decide, by decide⟩,
   write_read_round_trip nRF24L01 (Build.demo true true 5) 0x0A 5 0xA5
     [0x0f, 0xb3, 0x47, 0x17, 0x1c] (World.init RegFile.empty) rfl rfl rfl (by decide)
     (by decide) rfl (by decide) (by decide)⟩

/-! ## The driver's side of a trace and its transactions -/

@[simp] theorem outs_append (xs ys : List Event) : outs (xs ++ ys) = outs xs ++ outs ys := by
  simp [outs]

@[simp] theorem outs_nil : outs [] = [] := rfl

theorem outs_zipWith (sent recv : List Nat) (hl : recv.length = sent.length) :
    outs (List.zipWith Event.xfer sent recv) = sent.map (fun x => Event.xfer x 0) := by
  induction sent generalizing recv with
  | nil => simp [outs]
  | cons x xs ih =>
    cases recv with
    | nil => simp at hl
    | cons r rs =>
      have := ih rs (by simpa using hl)
      simp only [outs] at this
      simp [outs, Event.erase, this]

theorem outs_bracket (sent recv : List Nat) (hl : recv.length = sent.length) :
    outs (bracket sent recv) = quiet sent := by
  have := outs_zipWith sent recv hl
  simp only [outs] at this
  simp [outs, bracket, quiet, Event.erase, this]

theorem outs_emitted (w w1 : World σ) (es : List Event)
    (ht : outs w1.trace = outs w.trace ++ es) : outs (emitted w w1) = es := by
  have hl : (outs w.trace).length = w.trace.length := by simp [outs]
  rw [emitted, outs, List.map_drop, ← hl]
  change List.drop (outs w.trace).length (outs w1.trace) = es
  rw [ht, List.drop_left]

theorem framesFrom_erase (cur : Option (List Nat)) (es : List Event) :
    framesFrom cur (outs es) = framesFrom cur es := by
  induction es generalizing cur with
  | nil => rfl
  | cons e es ih =>
    cases e with
    | csn b => cases b <;> cases cur <;> simp [outs, Event.erase, framesFrom] <;>
        simpa [outs] using ih _
    | ce b => simpa [outs, Event.erase, framesFrom] using ih cur
    | xfer s r => cases cur <;> simp [outs, Event.erase, framesFrom] <;> simpa [outs] using ih _
    | delay n => simpa [outs, Event.erase, framesFrom] using ih cur

theorem frames_outs (es : List Event) : frames (outs es) = frames es :=
  framesFrom_erase none es

theorem framesFrom_xfers (bs sent : List Nat) (rest : List Event) :
    framesFrom (some bs) (sent.map (fun x => Event.xfer x 0) ++ rest) =
      framesFrom (some (bs ++ sent)) rest := by
  induction sent generalizing bs with
  | nil => simp
  | cons x xs ih => simp [framesFrom, ih]

theorem framesFrom_quiet (cur : Option (List Nat)) (sent : List Nat) (rest : List Event) :
    framesFrom cur (quiet sent ++ rest) = sent :: framesFrom none rest := by
  simp [quiet, framesFrom, framesFrom_xfers]

theorem frames_script (fs : List (List Nat)) (rest : List Event) :
    frames (script fs ++ rest) = fs ++ frames rest := by
  induction fs with
  | nil => simp [script]
  | cons f fs ih =>
    simp only [script, List.map_cons, List.flatten_cons, List.append_assoc, List.cons_append]
    rw [frames, framesFrom_quiet]
    simpa [script, frames] using ih

theorem script_append (fs gs : List (List Nat)) : script (fs ++ gs) = script fs ++ script gs := by
  simp [script]

theorem script_cons (f : List Nat) (fs : List (List Nat)) :
    script (f :: fs) = quiet f ++ script fs := by
  simp [script]

@[simp] theorem script_nil : script [] = [] := rfl

/-! ## The driver's side of each operation -/

theorem outs_transaction (c : Chip σ) (sent : List Nat) (w : World σ) :
    outs (transaction c sent w).2.trace = outs w.trace ++ quiet sent := by
  have := outs_bracket sent (transaction c sent w).1 (transaction_replies_length c sent w)
  simpa [transaction] using this

theorem outs_write_reg (c : Chip σ) (h : Header) (reg data : Nat) (w : World σ) :
    outs (write_reg c h reg data w).2.trace = outs w.trace ++ script [[wcmd h reg, u8 data]] := by
  rw [write_reg_eq]
  simp [outs_transaction, script]

theorem outs_write_buf (c : Chip σ) (h : Header) (reg : Nat) (buf : Buf) (len : Nat)
    (w : World σ) :
    outs (write_buf c h reg buf len w).2.trace =
      outs w.trace ++ script [wcmd h reg :: buf.bytes 0 (u8 len)] := by
  rw [write_buf_eq]
  simp [outs_transaction, script]

theorem outs_spi_command (c : Chip σ) (command : Nat) (w : World σ) :
    outs (spi_command c command w).2.trace = outs w.trace ++ script [[u8 command]] := by
  rw [spi_command_eq]
  simp [outs_transaction, script]

theorem outs_delay_us (c : Chip σ) (n : Nat) (w : World σ) :
    outs (delay_us c n w).trace = outs w.trace ++ [Event.delay n] := by
  simp [delay_us, outs, Event.erase]

theorem outs_nrf_power_set (c : Chip σ) (h : Header) (b : Build) (on_ : Bool) (w : World σ) :
    outs (nrf_power_set c h b on_ w).trace =
      outs w.trace ++ script [[wcmd h h.CONFIG, configByte h b on_]] := by
  cases hm : b.MASTER_DEVICE <;>
    simp [nrf_power_set, hm, outs_write_reg, configByte]

theorem outs_nrf_setup_ack (c : Chip σ) (h : Header) (b : Build) (dev features : Nat)
    (w : World σ) :
    outs (nrf_setup_ack c h b dev features w).2.trace =
      outs w.trace ++ script (ackFrames h b dev) := by
  cases ha : b.USE_AUTO_ACK <;> cases hm : b.MASTER_DEVICE <;>
    by_cases hd : dev = 0 <;>
    simp [nrf_setup_ack, ackFrames, retrByte, ha, hm, hd, outs_write_reg, script, u8]

theorem nrf_setup_ack_features (c : Chip σ) (h : Header) (b : Build) (dev : Nat) (w : World σ) :
    (nrf_setup_ack c h b dev 0 w).1 = featuresByte h b := by
  cases ha : b.USE_AUTO_ACK <;> cases hm : b.MASTER_DEVICE <;>
    simp [nrf_setup_ack, featuresByte, ha, hm]

theorem outs_nrf_setup_aw (c : Chip σ) (h : Header) (b : Build) (w : World σ) :
    outs (nrf_setup_aw c h b w).trace = outs w.trace ++ script (awFrames h b) := by
  by_cases h3 : b.RF_ADDRESS_LEN = 3
  · simp [nrf_setup_aw, awFrames, h3, outs_write_reg, u8]
  · by_cases h4 : b.RF_ADDRESS_LEN = 4
    · simp [nrf_setup_aw, awFrames, h4, outs_write_reg, u8]
    · by_cases h5 : b.RF_ADDRESS_LEN = 5
      · simp [nrf_setup_aw, awFrames, h5, outs_write_reg, u8]
      · simp [nrf_setup_aw, awFrames, h3, h4, h5]

theorem outs_nrf_setup_pipes (c : Chip σ) (h : Header) (b : Build) (m : Stack) (dev : Nat)
    (w : World σ) :
    outs (nrf_setup_pipes c h b m dev w).trace = outs w.trace ++ script (pipeFrames h b m dev) := by
  cases hm : b.MASTER_DEVICE <;>
    simp [nrf_setup_pipes, pipeFrames, hm, outs_write_reg, outs_write_buf, script_cons, u8]

theorem outs_nrf_setup (c : Chip σ) (h : Header) (b : Build) (m : Stack) (device_num : Nat)
    (w : World σ) :
    outs (nrf_setup c h b m device_num w).trace =
      outs w.trace ++ (script (setupFrames h b m device_num) ++ [Event.delay 100]) := by
  simp only [nrf_setup, outs_delay_us, outs_nrf_power_set, outs_spi_command, outs_write_reg,
    outs_nrf_setup_pipes, outs_nrf_setup_aw, outs_nrf_setup_ack, nrf_setup_ack_features,
    setupFrames, setupMiddle, script_append, script_cons, script_nil, List.append_assoc,
    List.append_nil, List.cons_append, List.nil_append]
  cases ha : b.USE_AUTO_ACK <;> simp [u8, rfSetupByte, featuresByte, ha]

/-- The transactions of `nrf_setup` and its last event, for every chip and earlier trace. -/
theorem frames_nrf_setup (c : Chip σ) (h : Header) (b : Build) (m : Stack) (device_num : Nat)
    (w : World σ) :
    frames (emitted w (nrf_setup c h b m device_num w)) = setupFrames h b m device_num ∧
    (emitted w (nrf_setup c h b m device_num w)).getLast? = some (Event.delay 100) := by
  have ho := outs_emitted w _ _ (outs_nrf_setup c h b m device_num w)
  constructor
  · rw [← frames_outs, ho, frames_script]
    simp [frames, framesFrom]
  · have hl : (outs (emitted w (nrf_setup c h b m device_num w))).getLast? =
        some (Event.delay 100) := by
      rw [ho]; simp
    cases hx : (emitted w (nrf_setup c h b m device_num w)).getLast? with
    | none =>
      rw [List.getLast?_eq_none_iff] at hx
      rw [hx] at hl
      simp at hl
    | some e =>
      simp only [outs, List.getLast?_map, hx, Option.map_some'] at hl
      cases e <;> simp [Event.erase] at hl
      rw [hl]


/-! ## Writes to one register -/

theorem nodup_others {l : List Nat} (hd : l.Nodup) (j : Nat) (hj : j < l.length) :
    ∀ x ∈ l.eraseIdx j, x ≠ l[j] := by
  intro x hx
  rw [← hd.erase_getElem j hj] at hx
  exact ((hd.mem_erase_iff).1 hx).1

theorem writesTo_append (h : Header) (reg : Nat) (fs gs : List (List Nat)) :
    writesTo h reg (fs ++ gs) = writesTo h reg fs ++ writesTo h reg gs := by
  simp [writesTo]

theorem writesTo_cons (h : Header) (reg : Nat) (f : List Nat) (fs : List (List Nat)) :
    writesTo h reg (f :: fs) =
      (if f.head? = some (wcmd h reg) then [f] else []) ++ writesTo h reg fs := by
  by_cases hf : f.head? = some (wcmd h reg) <;> simp [writesTo, List.filter_cons, hf]

@[simp] theorem writesTo_nil (h : Header) (reg : Nat) : writesTo h reg [] = [] := rfl

/-! ## C4: power sequencing -/

theorem testBit_one_shiftLeft (k i : Nat) : (1 <<< k).testBit i = decide (k = i) := by
  rw [Nat.one_shiftLeft, Nat.testBit_two_pow]

theorem testBit_toNat_shiftLeft (x : Bool) (k i : Nat) :
    (x.toNat <<< k).testBit i = (x && decide (k = i)) := by
  cases x
  · simp
  · simpa using testBit_one_shiftLeft k i

theorem testBit_u8 (x i : Nat) : (u8 x).testBit i = (decide (i < 8) && x.testBit i) := by
  have e : (256 : Nat) = 2 ^ 8 := rfl
  rw [u8, e, Nat.testBit_mod_two_pow]

theorem testBit_configByte (h : Header) (b : Build) (on_ : Bool) (i : Nat) :
    (configByte h b on_).testBit i =
      (decide (i < 8) && (decide (h.CRCO = i) || decide (h.EN_CRC = i) ||
        (on_ && decide (h.PWR_UP = i)) || (b.MASTER_DEVICE && decide (h.PRIM_RX = i)))) := by
  rw [configByte, testBit_u8, Nat.testBit_or, Nat.testBit_or, Nat.testBit_or,
    testBit_one_shiftLeft, testBit_one_shiftLeft, testBit_toNat_shiftLeft,
    testBit_toNat_shiftLeft]

theorem setupMiddle_heads (h : Header) (b : Build) (m : Stack) (device_num : Nat)
    (f : List Nat) (hf : f ∈ setupMiddle h b m device_num) :
    f.head? ∈ [some (wcmd h h.SETUP_RETR), some (wcmd h h.EN_AA), some (wcmd h h.RF_CH),
      some (wcmd h h.RF_SETUP), some (wcmd h h.SETUP_AW), some (wcmd h h.NRF_STATUS),
      some (wcmd h h.EN_RXADDR), some (wcmd h h.RX_ADDR_P0), some (wcmd h h.RX_ADDR_P1),
      some (wcmd h h.RX_PW_P0), some (wcmd h h.RX_PW_P1), some (wcmd h h.TX_ADDR),
      some (wcmd h h.DYNPD), some (wcmd h h.FEATURE), some (u8 h.FLUSH_RX),
      some (u8 h.FLUSH_TX)] := by
  unfold setupMiddle ackFrames awFrames pipeFrames at hf
  split_ifs at hf <;>
    simp only [List.mem_append, List.mem_cons, List.mem_singleton, List.not_mem_nil, or_false,
      false_or, List.append_nil, List.nil_append] at hf <;>
    (casesm* _ ∨ _) <;> subst_vars <;> simp

/-- C4. For every role, auto-ack setting and `device_num`: the first SPI transaction of
`nrf_setup` is a write to `CONFIG` with `PWR_UP` clear, the last one a write to `CONFIG` with
`PWR_UP` set, no transaction in between writes `CONFIG`, and the last event of the trace is
the 100 microsecond delay, right after the power-up write. Both values have `EN_CRC` and
`CRCO` set and have `PRIM_RX` set exactly in a master build. The header is any one whose four
`CONFIG` bit positions are distinct and below 8 and whose command bytes are distinct. -/
theorem power_sequencing (c : Chip σ) (h : Header) (b : Build) (m : Stack) (device_num : Nat)
    (w : World σ)
    (hlt : ∀ i ∈ [h.CRCO, h.EN_CRC, h.PWR_UP, h.PRIM_RX], i < 8)
    (hnd : [h.CRCO, h.EN_CRC, h.PWR_UP, h.PRIM_RX].Nodup)
    (hd : h.commands.Nodup) :
    ∃ off on_ mid pre,
      frames (emitted w (nrf_setup c h b m device_num w)) =
        [wcmd h h.CONFIG, off] :: (mid ++ [[wcmd h h.CONFIG, on_]]) ∧
      (∀ f ∈ mid, f.head? ≠ some (wcmd h h.CONFIG)) ∧
      (emitted w (nrf_setup c h b m device_num w)).getLast? = some (Event.delay 100) ∧
      outs (emitted w (nrf_setup c h b m device_num w)) =
        pre ++ (quiet [wcmd h h.CONFIG, on_] ++ [Event.delay 100]) ∧
      off.testBit h.PWR_UP = false ∧ on_.testBit h.PWR_UP = true ∧
      off.testBit h.EN_CRC = true ∧ off.testBit h.CRCO = true ∧
      on_.testBit h.EN_CRC = true ∧ on_.testBit h.CRCO = true ∧
      off.testBit h.PRIM_RX = b.MASTER_DEVICE ∧ on_.testBit h.PRIM_RX = b.MASTER_DEVICE := by
  simp only [List.mem_cons, List.mem_singleton, List.not_mem_nil, or_false, forall_eq_or_imp,
    forall_eq] at hlt
  simp only [List.nodup_cons, List.mem_cons, List.mem_singleton, List.not_mem_nil, or_false,
    not_or, List.nodup_nil, and_true, not_false_eq_true] at hnd
  obtain ⟨h1, h2, h3, h4⟩ := hlt
  obtain ⟨⟨n1, n2, n3⟩, ⟨n4, n5⟩, n6⟩ := hnd
  refine ⟨configByte h b false, configByte h b true, setupMiddle h b m device_num,
    script ([wcmd h h.CONFIG, configByte h b false] :: setupMiddle h b m device_num),
    (frames_nrf_setup c h b m device_num w).1, ?_, (frames_nrf_setup c h b m device_num w).2,
    ?_, ?_⟩
  · intro f hf hc
    have hmem := setupMiddle_heads h b m device_num f hf
    rw [hc] at hmem
    simp only [List.mem_cons, List.mem_singleton, Option.some.injEq, List.not_mem_nil,
      or_false] at hmem
    have key : ∀ x ∈ h.commands.eraseIdx 0, wcmd h h.CONFIG ≠ x :=
      fun x hx e => nodup_others hd 0 (by simp [Header.commands]) x hx e.symm
    simp only [Header.commands, List.eraseIdx, List.mem_cons, List.mem_singleton,
      List.not_mem_nil, or_false, forall_eq_or_imp, forall_eq] at key
    tauto
  · rw [outs_emitted w _ _ (outs_nrf_setup c h b m device_num w), setupFrames,
      ← List.cons_append, script_append]
    simp [script]
  · simp only [testBit_configByte]
    have e1 : ¬ (h.PWR_UP = h.CRCO) := fun e => n2 e.symm
    have e2 : ¬ (h.PWR_UP = h.EN_CRC) := fun e => n4 e.symm
    have e3 : ¬ (h.PRIM_RX = h.CRCO) := fun e => n3 e.symm
    have e4 : ¬ (h.PRIM_RX = h.EN_CRC) := fun e => n5 e.symm
    have e5 : ¬ (h.PRIM_RX = h.PWR_UP) := fun e => n6 e.symm
    simp [h1, h2, h3, h4, n1, n2, n3, n4, n5, n6, e1, e2, e3, e4, e5]

/-- Witness of C4: a slave build with auto-ack, device 1, on the nRF24L01 header. -/
theorem power_sequencing_witness :
    ((∀ i ∈ [nRF24L01.CRCO, nRF24L01.EN_CRC, nRF24L01.PWR_UP, nRF24L01.PRIM_RX], i < 8) ∧
      [nRF24L01.CRCO, nRF24L01.EN_CRC, nRF24L01.PWR_UP, nRF24L01.PRIM_RX].Nodup ∧
      nRF24L01.commands.Nodup) ∧
    ∃ off on_ mid pre,
      frames (emitted (World.init RegFile.empty)
          (nrf_setup registerFile nRF24L01 (Build.demo false true 5) Stack.demo 1
            (World.init RegFile.empty))) =
        [wcmd nRF24L01 nRF24L01.CONFIG, off] ::
          (mid ++ [[wcmd nRF24L01 nRF24L01.CONFIG, on_]]) ∧
      (∀ f ∈ mid, f.head? ≠ some (wcmd nRF24L01 nRF24L01.CONFIG)) ∧
      (emitted (World.init RegFile.empty)
          (nrf_setup registerFile nRF24L01 (Build.demo false true 5) Stack.demo 1
            (World.init RegFile.empty))).getLast? = some (Event.delay 100) ∧
      outs (emitted (World.init RegFile.empty)
          (nrf_setup registerFile nRF24L01 (Build.demo false true 5) Stack.demo 1
            (World.init RegFile.empty))) =
        pre ++ (quiet [wcmd nRF24L01 nRF24L01.CONFIG, on_] ++ [Event.delay 100]) ∧
      off.testBit nRF24L01.PWR_UP = false ∧ on_.testBit nRF24L01.PWR_UP = true ∧
      off.testBit nRF24L01.EN_CRC = true ∧ off.testBit nRF24L01.CRCO = true ∧
      on_.testBit nRF24L01.EN_CRC = true ∧ on_.testBit nRF24L01.CRCO = true ∧
      off.testBit nRF24L01.PRIM_RX = (Build.demo false true 5).MASTER_DEVICE ∧
      on_.testBit nRF24L01.PRIM_RX = (Build.demo false true 5).MASTER_DEVICE :=
  ⟨⟨by decide, by decide, by decide⟩,
   power_sequencing registerFile nRF24L01 (Build.demo false true 5) Stack.demo 1
     (World.init RegFile.empty) (by decide) (by decide) (by decide)⟩

/-! ## C5: retry desynchronisation -/

theorem retr_fields (a r : Nat) (hr : r ≤ 15) (ha : a ≤ 15) :
    u8 ((a <<< 4) ||| (r <<< 0)) / 16 = a ∧ u8 ((a <<< 4) ||| (r <<< 0)) % 16 = r := by
  have e : (a <<< 4) ||| (r <<< 0) = 2 ^ 4 * a + r := by
    rw [Nat.shiftLeft_zero, Nat.shiftLeft_eq, Nat.mul_comm]
    exact (Nat.mul_add_lt_is_or (by omega) a).symm
  rw [e, u8]
  omega

/-- C5. In a slave build with auto-ack and `MAX_RETRANSMIT` in 0..15 (the retry-delay field
`ARD` being bits 4-7 and the retry-count field `ARC` bits 0-3 of `SETUP_RETR`), `nrf_setup`
writes `SETUP_RETR` exactly once; the value has `ARD = 10` when `device_num = 0` and
`ARD = 0` for every nonzero `device_num`, and `ARC = MAX_RETRANSMIT` in both cases. -/
theorem retry_desynchronisation (c : Chip σ) (h : Header) (b : Build) (m : Stack)
    (device_num : Nat) (w : World σ)
    (hd : h.commands.Nodup)
    (hm : b.MASTER_DEVICE = false) (ha : b.USE_AUTO_ACK = true) (hmax : b.MAX_RETRANSMIT ≤ 15)
    (hARD : h.ARD = 4) (hARC : h.ARC = 0) (hdev : device_num < 256) :
    ∃ v, writesTo h h.SETUP_RETR (frames (emitted w (nrf_setup c h b m device_num w))) =
        [[wcmd h h.SETUP_RETR, v]] ∧
      v / 16 = (if device_num = 0 then 10 else 0) ∧ v % 16 = b.MAX_RETRANSMIT := by
  have hne := nodup_others hd 4 (by simp [Header.commands])
  simp only [Header.commands, List.eraseIdx, List.mem_cons, List.mem_singleton,
    List.not_mem_nil, or_false, forall_eq_or_imp, forall_eq, List.getElem_cons_succ,
    List.getElem_cons_zero] at hne
  refine ⟨retrByte h b (u8 device_num), ?_, ?_⟩
  · rw [(frames_nrf_setup c h b m device_num w).1]
    simp only [setupFrames, setupMiddle, ackFrames, awFrames, pipeFrames, hm, ha,
      Bool.false_eq_true, if_true, if_false]
    split_ifs <;>
      simp [writesTo_append, writesTo_cons, hne]
  · rw [retrByte, hARD, hARC, u8_of_lt hdev]
    by_cases h0 : device_num = 0
    · simpa [h0] using retr_fields 10 b.MAX_RETRANSMIT hmax (by decide)
    · simpa [h0] using retr_fields 0 b.MAX_RETRANSMIT hmax (by decide)

/-- Witness of C5: the slave build with 15 retransmissions, device 1, nRF24L01 header. -/
theorem retry_desynchronisation_witness :
    (nRF24L01.commands.Nodup ∧ (Build.demo false true 5).MASTER_DEVICE = false ∧
      (Build.demo false true 5).USE_AUTO_ACK = true ∧
      (Build.demo false true 5).MAX_RETRANSMIT ≤ 15 ∧ nRF24L01.ARD = 4 ∧ nRF24L01.ARC = 0 ∧
      1 < 256) ∧
    ∃ v, writesTo nRF24L01 nRF24L01.SETUP_RETR
          (frames (emitted (World.init RegFile.empty)
            (nrf_setup registerFile nRF24L01 (Build.demo false true 5) Stack.demo 1
              (World.init RegFile.empty)))) =
        [[wcmd nRF24L01 nRF24L01.SETUP_RETR, v]] ∧
      v / 16 = (if 1 = 0 then 10 else 0) ∧ v % 16 = (Build.demo false true 5).MAX_RETRANSMIT :=
  ⟨⟨by decide, rfl, rfl, by decide, rfl, rfl, by decide⟩,
   retry_desynchronisation registerFile nRF24L01 (Build.demo false true 5) Stack.demo 1
     (World.init RegFile.empty) (by decide) rfl rfl (by decide) rfl rfl (by decide)⟩

/-! ## The address tables -/

theorem slave_addr_byte (b : Build) (m : Stack) (n k : Nat) (hn : n < 2)
    (hk : k < b.RF_BUFFER_LEN) :
    (slave_addr b m n).byte k = (slave_addr_init.getD n []).getD k 0 := by
  have hL : 0 < b.RF_BUFFER_LEN := by omega
  simp only [slave_addr, slave_addr_mem]
  interval_cases n
  · have h1 : 0 * b.RF_BUFFER_LEN + k < 2 * b.RF_BUFFER_LEN := by omega
    rw [if_pos h1]
    simp [Nat.div_eq_of_lt hk, Nat.mod_eq_of_lt hk]
  · have h1 : 1 * b.RF_BUFFER_LEN + k < 2 * b.RF_BUFFER_LEN := by omega
    rw [if_pos h1]
    simp [Nat.add_div_left _ hL, Nat.div_eq_of_lt hk, Nat.mod_eq_of_lt hk]

theorem slave_addr_bytes (b : Build) (m : Stack) (n W : Nat) (hn : n < 2) (hW : W ≤ 5)
    (hWL : W ≤ b.RF_BUFFER_LEN) :
    (slave_addr b m n).bytes 0 W = (slave_addr_init.getD n []).take W := by
  apply List.ext_getElem
  · interval_cases n <;> simp [slave_addr_init] <;> omega
  · intro i h1 h2
    have hi : i < W := by simpa using h1
    simp only [Buf.bytes, List.getElem_map, List.getElem_range, Nat.zero_add, List.getElem_take]
    rw [slave_addr_byte b m n i hn (by omega)]
    have hi5 : i < 5 := by omega
    interval_cases n <;> interval_cases i <;> simp [slave_addr_init, u8]

theorem zero_addr_bytes (b : Build) (m : Stack) (W : Nat) (hW : W ≤ b.RF_BUFFER_LEN) :
    (zero_addr b m).bytes 0 W = List.replicate W 0 := by
  apply List.ext_getElem
  · simp
  · intro i h1 h2
    have hi : i < W := by simpa using h1
    have hi2 : i < b.RF_BUFFER_LEN := by omega
    simp [Buf.bytes, zero_addr, hi2, u8]

theorem testBit_two_bits (p q i : Nat) (hp : p < 8) (hq : q < 8) :
    (u8 ((1 <<< p) ||| (1 <<< q))).testBit i = true ↔ i = p ∨ i = q := by
  rw [testBit_u8, Nat.testBit_or, testBit_one_shiftLeft, testBit_one_shiftLeft]
  simp only [Bool.and_eq_true, Bool.or_eq_true, decide_eq_true_eq]
  constructor
  · rintro ⟨_, h | h⟩
    · exact Or.inl h.symm
    · exact Or.inr h.symm
  · rintro (h | h)
    · exact ⟨by omega, Or.inl h.symm⟩
    · exact ⟨by omega, Or.inr h.symm⟩

theorem testBit_one_bit (p i : Nat) (hp : p < 8) :
    (u8 (1 <<< p)).testBit i = true ↔ i = p := by
  rw [testBit_u8, testBit_one_shiftLeft]
  simp only [Bool.and_eq_true, decide_eq_true_eq]
  constructor
  · rintro ⟨_, h⟩
    exact h.symm
  · intro h
    exact ⟨by omega, h.symm⟩

/-- The pairwise differences of the command bytes that fix the writes to the register at
position `j` of `Header.commands`. -/
theorem commands_ne (h : Header) (hd : h.commands.Nodup) (j : Nat) (hj : j < h.commands.length) :
    ∀ x ∈ h.commands.eraseIdx j, x ≠ h.commands[j] :=
  nodup_others hd j hj

/-! ## C6: the pipe table of the master -/

/-- C6. In a master build with address width `W` in {3,4,5} and `W <= RF_BUFFER_LEN`, for every
`device_num`, `nrf_setup` writes `EN_RXADDR` once, with exactly the bits `ERX_P0` and `ERX_P1`
set; writes the first `W` bytes of the device-0 address to `RX_ADDR_P0` and of the device-1
address to `RX_ADDR_P1`; writes `RF_BUFFER_LEN` to `RX_PW_P0` and to `RX_PW_P1`; and writes
`TX_ADDR` with exactly `W` bytes, all zero. -/
theorem master_pipe_table (c : Chip σ) (h : Header) (b : Build) (m : Stack)
    (device_num : Nat) (w : World σ)
    (hd : h.commands.Nodup) (hP0 : h.ERX_P0 < 8) (hP1 : h.ERX_P1 < 8)
    (hm : b.MASTER_DEVICE = true)
    (hW : b.RF_ADDRESS_LEN = 3 ∨ b.RF_ADDRESS_LEN = 4 ∨ b.RF_ADDRESS_LEN = 5)
    (hWle : b.RF_ADDRESS_LEN ≤ b.RF_BUFFER_LEN) :
    (∃ v, writesTo h h.EN_RXADDR (frames (emitted w (nrf_setup c h b m device_num w))) =
        [[wcmd h h.EN_RXADDR, v]] ∧ ∀ i, v.testBit i = true ↔ i = h.ERX_P0 ∨ i = h.ERX_P1) ∧
    writesTo h h.RX_ADDR_P0 (frames (emitted w (nrf_setup c h b m device_num w))) =
      [wcmd h h.RX_ADDR_P0 :: [0x0f, 0xb3, 0x47, 0x17, 0x1c].take b.RF_ADDRESS_LEN] ∧
    writesTo h h.RX_ADDR_P1 (frames (emitted w (nrf_setup c h b m device_num w))) =
      [wcmd h h.RX_ADDR_P1 :: [0xd7, 0x1c, 0xca, 0x3b, 0x8a].take b.RF_ADDRESS_LEN] ∧
    writesTo h h.RX_PW_P0 (frames (emitted w (nrf_setup c h b m device_num w))) =
      [[wcmd h h.RX_PW_P0, b.RF_BUFFER_LEN]] ∧
    writesTo h h.RX_PW_P1 (frames (emitted w (nrf_setup c h b m device_num w))) =
      [[wcmd h h.RX_PW_P1, b.RF_BUFFER_LEN]] ∧
    writesTo h h.TX_ADDR (frames (emitted w (nrf_setup c h b m device_num w))) =
      [wcmd h h.TX_ADDR :: List.replicate b.RF_ADDRESS_LEN 0] := by
  have hW5 : b.RF_ADDRESS_LEN ≤ 5 := by omega
  have hWu : u8 b.RF_ADDRESS_LEN = b.RF_ADDRESS_LEN := u8_of_lt (by omega)
  have hLu : u8 b.RF_BUFFER_LEN = b.RF_BUFFER_LEN := u8_of_lt b.buffer_byte
  have e0 := slave_addr_bytes b m 0 b.RF_ADDRESS_LEN (by decide) hW5 hWle
  have e1 := slave_addr_bytes b m 1 b.RF_ADDRESS_LEN (by decide) hW5 hWle
  have ez := zero_addr_bytes b m b.RF_ADDRESS_LEN hWle
  simp only [slave_addr_init, List.getD_cons_zero, List.getD_cons_succ] at e0 e1
  have hfr : frames (emitted w (nrf_setup c h b m device_num w)) =
      [wcmd h h.CONFIG, configByte h b false] ::
        (ackFrames h b (u8 device_num) ++
          ([wcmd h h.RF_CH, 0x02] :: [wcmd h h.RF_SETUP, rfSetupByte h b] ::
            (awFrames h b ++
              [[wcmd h h.NRF_STATUS, 0xff],
               [wcmd h h.EN_RXADDR, u8 ((1 <<< h.ERX_P0) ||| (1 <<< h.ERX_P1))],
               wcmd h h.RX_ADDR_P0 :: [0x0f, 0xb3, 0x47, 0x17, 0x1c].take b.RF_ADDRESS_LEN,
               wcmd h h.RX_ADDR_P1 :: [0xd7, 0x1c, 0xca, 0x3b, 0x8a].take b.RF_ADDRESS_LEN,
               [wcmd h h.RX_PW_P0, b.RF_BUFFER_LEN],
               [wcmd h h.RX_PW_P1, b.RF_BUFFER_LEN],
               wcmd h h.TX_ADDR :: List.replicate b.RF_ADDRESS_LEN 0,
               [wcmd h h.DYNPD, 0], [wcmd h h.FEATURE, featuresByte h b], [u8 h.FLUSH_RX],
               [u8 h.FLUSH_TX], [wcmd h h.CONFIG, configByte h b true]]))) := by
    rw [(frames_nrf_setup c h b m device_num w).1]
    simp [setupFrames, setupMiddle, pipeFrames, hm, hWu, hLu, e0, e1, ez]
  refine ⟨⟨u8 ((1 <<< h.ERX_P0) ||| (1 <<< h.ERX_P1)), ?_,
    fun i => testBit_two_bits _ _ i hP0 hP1⟩, ?_, ?_, ?_, ?_, ?_⟩
  · have hne := commands_ne h hd 2 (by simp [Header.commands])
    simp only [Header.commands, List.eraseIdx, List.mem_cons, List.mem_singleton,
      List.not_mem_nil, or_false, forall_eq_or_imp, forall_eq, List.getElem_cons_succ,
      List.getElem_cons_zero] at hne
    rw [hfr]
    unfold ackFrames awFrames
    split_ifs <;> simp [writesTo_append, writesTo_cons, hne]
  · have hne := commands_ne h hd 8 (by simp [Header.commands])
    simp only [Header.commands, List.eraseIdx, List.mem_cons, List.mem_singleton,
      List.not_mem_nil, or_false, forall_eq_or_imp, forall_eq, List.getElem_cons_succ,
      List.getElem_cons_zero] at hne
    rw [hfr]
    unfold ackFrames awFrames
    split_ifs <;> simp [writesTo_append, writesTo_cons, hne]
  · have hne := commands_ne h hd 9 (by simp [Header.commands])
    simp only [Header.commands, List.eraseIdx, List.mem_cons, List.mem_singleton,
      List.not_mem_nil, or_false, forall_eq_or_imp, forall_eq, List.getElem_cons_succ,
      List.getElem_cons_zero] at hne
    rw [hfr]
    unfold ackFrames awFrames
    split_ifs <;> simp [writesTo_append, writesTo_cons, hne]
  · have hne := commands_ne h hd 11 (by simp [Header.commands])
    simp only [Header.commands, List.eraseIdx, List.mem_cons, List.mem_singleton,
      List.not_mem_nil, or_false, forall_eq_or_imp, forall_eq, List.getElem_cons_succ,
      List.getElem_cons_zero] at hne
    rw [hfr]
    unfold ackFrames awFrames
    split_ifs <;> simp [writesTo_append, writesTo_cons, hne]
  · have hne := commands_ne h hd 12 (by simp [Header.commands])
    simp only [Header.commands, List.eraseIdx, List.mem_cons, List.mem_singleton,
      List.not_mem_nil, or_false, forall_eq_or_imp, forall_eq, List.getElem_cons_succ,
      List.getElem_cons_zero] at hne
    rw [hfr]
    unfold ackFrames awFrames
    split_ifs <;> simp [writesTo_append, writesTo_cons, hne]
  · have hne := commands_ne h hd 10 (by simp [Header.commands])
    simp only [Header.commands, List.eraseIdx, List.mem_cons, List.mem_singleton,
      List.not_mem_nil, or_false, forall_eq_or_imp, forall_eq, List.getElem_cons_succ,
      List.getElem_cons_zero] at hne
    rw [hfr]
    unfold ackFrames awFrames
    split_ifs <;> simp [writesTo_append, writesTo_cons, hne]

/-- Witness of C6: the master build with five-byte addresses on the nRF24L01 header. -/
theorem master_pipe_table_witness :
    (nRF24L01.commands.Nodup ∧ nRF24L01.ERX_P0 < 8 ∧ nRF24L01.ERX_P1 < 8 ∧
      (Build.demo true true 5).MASTER_DEVICE = true ∧
      ((Build.demo true true 5).RF_ADDRESS_LEN = 3 ∨ (Build.demo true true 5).RF_ADDRESS_LEN = 4 ∨
        (Build.demo true true 5).RF_ADDRESS_LEN = 5) ∧
      (Build.demo true true 5).RF_ADDRESS_LEN ≤ (Build.demo true true 5).RF_BUFFER_LEN) ∧
    ((∃ v, writesTo nRF24L01 nRF24L01.EN_RXADDR
          (frames (emitted (World.init RegFile.empty)
            (nrf_setup registerFile nRF24L01 (Build.demo true true 5) Stack.demo 0
              (World.init RegFile.empty)))) =
        [[wcmd nRF24L01 nRF24L01.EN_RXADDR, v]] ∧
        ∀ i, v.testBit i = true ↔ i = nRF24L01.ERX_P0 ∨ i = nRF24L01.ERX_P1) ∧
      writesTo nRF24L01 nRF24L01.RX_ADDR_P0
          (frames (emitted (World.init RegFile.empty)
            (nrf_setup registerFile nRF24L01 (Build.demo true true 5) Stack.demo 0
              (World.init RegFile.empty)))) =
        [wcmd nRF24L01 nRF24L01.RX_ADDR_P0 ::
          [0x0f, 0xb3, 0x47, 0x17, 0x1c].take (Build.demo true true 5).RF_ADDRESS_LEN] ∧
      writesTo nRF24L01 nRF24L01.RX_ADDR_P1
          (frames (emitted (World.init RegFile.empty)
            (nrf_setup registerFile nRF24L01 (Build.demo true true 5) Stack.demo 0
              (World.init RegFile.empty)))) =
        [wcmd nRF24L01 nRF24L01.RX_ADDR_P1 ::
          [0xd7, 0x1c, 0xca, 0x3b, 0x8a].take (Build.demo true true 5).RF_ADDRESS_LEN] ∧
      writesTo nRF24L01 nRF24L01.RX_PW_P0
          (frames (emitted (World.init RegFile.empty)
            (nrf_setup registerFile nRF24L01 (Build.demo true true 5) Stack.demo 0
              (World.init RegFile.empty)))) =
        [[wcmd nRF24L01 nRF24L01.RX_PW_P0, (Build.demo true true 5).RF_BUFFER_LEN]] ∧
      writesTo nRF24L01 nRF24L01.RX_PW_P1
          (frames (emitted (World.init RegFile.empty)
            (nrf_setup registerFile nRF24L01 (Build.demo true true 5) Stack.demo 0
              (World.init RegFile.empty)))) =
        [[wcmd nRF24L01 nRF24L01.RX_PW_P1, (Build.demo true true 5).RF_BUFFER_LEN]] ∧
      writesTo nRF24L01 nRF24L01.TX_ADDR
          (frames (emitted (World.init RegFile.empty)
            (nrf_setup registerFile nRF24L01 (Build.demo true true 5) Stack.demo 0
              (World.init RegFile.empty)))) =
        [wcmd nRF24L01 nRF24L01.TX_ADDR ::
          List.replicate (Build.demo true true 5).RF_ADDRESS_LEN 0]) :=
  ⟨⟨by decide, by decide, by decide, rfl, Or.inr (Or.inr rfl), by decide⟩,
   master_pipe_table registerFile nRF24L01 (Build.demo true true 5) Stack.demo 0
     (World.init RegFile.empty) (by decide) (by decide) (by decide) rfl (Or.inr (Or.inr rfl))
     (by decide)⟩

/-! ## C7: the addresses of a slave -/

/-- C7, amended. In a slave build with address width `W` in {3,4,5} and
`W <= RF_BUFFER_LEN`, for device number `N` in {0,1}, `nrf_setup` writes `EN_RXADDR` once,
with only the bit `ERX_P0` set; writes `0` to `RX_PW_P0`; and writes the same `W` bytes to
`RX_ADDR_P0` and to `TX_ADDR`: the first `W` bytes of entry `N` of the table
`{0x0f,0xb3,0x47,0x17,0x1c}`, `{0xd7,0x1c,0xca,0x3b,0x8a}`. The bound on `W` is needed because
the rows of `slave_addr` are declared `RF_BUFFER_LEN` bytes long (line 110). -/
theorem slave_addressing (c : Chip σ) (h : Header) (b : Build) (m : Stack)
    (device_num : Nat) (w : World σ)
    (hd : h.commands.Nodup) (hP0 : h.ERX_P0 < 8)
    (hm : b.MASTER_DEVICE = false)
    (hW : b.RF_ADDRESS_LEN = 3 ∨ b.RF_ADDRESS_LEN = 4 ∨ b.RF_ADDRESS_LEN = 5)
    (hWle : b.RF_ADDRESS_LEN ≤ b.RF_BUFFER_LEN)
    (hN : device_num = 0 ∨ device_num = 1) :
    (∃ v, writesTo h h.EN_RXADDR (frames (emitted w (nrf_setup c h b m device_num w))) =
        [[wcmd h h.EN_RXADDR, v]] ∧ ∀ i, v.testBit i = true ↔ i = h.ERX_P0) ∧
    writesTo h h.RX_PW_P0 (frames (emitted w (nrf_setup c h b m device_num w))) =
      [[wcmd h h.RX_PW_P0, 0]] ∧
    writesTo h h.RX_ADDR_P0 (frames (emitted w (nrf_setup c h b m device_num w))) =
      [wcmd h h.RX_ADDR_P0 ::
        ([[0x0f, 0xb3, 0x47, 0x17, 0x1c], [0xd7, 0x1c, 0xca, 0x3b, 0x8a]].getD device_num
          []).take b.RF_ADDRESS_LEN] ∧
    writesTo h h.TX_ADDR (frames (emitted w (nrf_setup c h b m device_num w))) =
      [wcmd h h.TX_ADDR ::
        ([[0x0f, 0xb3, 0x47, 0x17, 0x1c], [0xd7, 0x1c, 0xca, 0x3b, 0x8a]].getD device_num
          []).take b.RF_ADDRESS_LEN] := by
  have hW5 : b.RF_ADDRESS_LEN ≤ 5 := by omega
  have hWu : u8 b.RF_ADDRESS_LEN = b.RF_ADDRESS_LEN := u8_of_lt (by omega)
  have hNu : u8 device_num = device_num := u8_of_lt (by omega)
  have e0 := slave_addr_bytes b m device_num b.RF_ADDRESS_LEN (by omega) hW5 hWle
  simp only [slave_addr_init] at e0
  have hfr : frames (emitted w (nrf_setup c h b m device_num w)) =
      [wcmd h h.CONFIG, configByte h b false] ::
        (ackFrames h b device_num ++
          ([wcmd h h.RF_CH, 0x02] :: [wcmd h h.RF_SETUP, rfSetupByte h b] ::
            (awFrames h b ++
              [[wcmd h h.NRF_STATUS, 0xff],
               [wcmd h h.EN_RXADDR, u8 (1 <<< h.ERX_P0)],
               [wcmd h h.RX_PW_P0, 0],
               wcmd h h.RX_ADDR_P0 ::
                 ([[0x0f, 0xb3, 0x47, 0x17, 0x1c], [0xd7, 0x1c, 0xca, 0x3b, 0x8a]].getD
                   device_num []).take b.RF_ADDRESS_LEN,
               wcmd h h.TX_ADDR ::
                 ([[0x0f, 0xb3, 0x47, 0x17, 0x1c], [0xd7, 0x1c, 0xca, 0x3b, 0x8a]].getD
                   device_num []).take b.RF_ADDRESS_LEN,
               [wcmd h h.DYNPD, 0], [wcmd h h.FEATURE, featuresByte h b], [u8 h.FLUSH_RX],
               [u8 h.FLUSH_TX], [wcmd h h.CONFIG, configByte h b true]]))) := by
    rw [(frames_nrf_setup c h b m device_num w).1]
    simp [setupFrames, setupMiddle, pipeFrames, hm, hWu, hNu, e0]
  refine ⟨⟨u8 (1 <<< h.ERX_P0), ?_, fun i => testBit_one_bit _ i hP0⟩, ?_, ?_, ?_⟩
  · have hne := commands_ne h hd 2 (by simp [Header.commands])
    simp only [Header.commands, List.eraseIdx, List.mem_cons, List.mem_singleton,
      List.not_mem_nil, or_false, forall_eq_or_imp, forall_eq, List.getElem_cons_succ,
      List.getElem_cons_zero] at hne
    rw [hfr]
    unfold ackFrames awFrames
    split_ifs <;> simp [writesTo_append, writesTo_cons, hne]
  · have hne := commands_ne h hd 11 (by simp [Header.commands])
    simp only [Header.commands, List.eraseIdx, List.mem_cons, List.mem_singleton,
      List.not_mem_nil, or_false, forall_eq_or_imp, forall_eq, List.getElem_cons_succ,
      List.getElem_cons_zero] at hne
    rw [hfr]
    unfold ackFrames awFrames
    split_ifs <;> simp [writesTo_append, writesTo_cons, hne]
  · have hne := commands_ne h hd 8 (by simp [Header.commands])
    simp only [Header.commands, List.eraseIdx, List.mem_cons, List.mem_singleton,
      List.not_mem_nil, or_false, forall_eq_or_imp, forall_eq, List.getElem_cons_succ,
      List.getElem_cons_zero] at hne
    rw [hfr]
    unfold ackFrames awFrames
    split_ifs <;> simp [writesTo_append, writesTo_cons, hne]
  · have hne := commands_ne h hd 10 (by simp [Header.commands])
    simp only [Header.commands, List.eraseIdx, List.mem_cons, List.mem_singleton,
      List.not_mem_nil, or_false, forall_eq_or_imp, forall_eq, List.getElem_cons_succ,
      List.getElem_cons_zero] at hne
    rw [hfr]
    unfold ackFrames awFrames
    split_ifs <;> simp [writesTo_append, writesTo_cons, hne]

/-- Witness of C7: the slave build with four-byte addresses, device 1, nRF24L01 header. -/
theorem slave_addressing_witness :
    (nRF24L01.commands.Nodup ∧ nRF24L01.ERX_P0 < 8 ∧
      (Build.demo false true 4).MASTER_DEVICE = false ∧
      ((Build.demo false true 4).RF_ADDRESS_LEN = 3 ∨
        (Build.demo false true 4).RF_ADDRESS_LEN = 4 ∨
        (Build.demo false true 4).RF_ADDRESS_LEN = 5) ∧
      (Build.demo false true 4).RF_ADDRESS_LEN ≤ (Build.demo false true 4).RF_BUFFER_LEN ∧
      ((1 : Nat) = 0 ∨ (1 : Nat) = 1)) ∧
    ((∃ v, writesTo nRF24L01 nRF24L01.EN_RXADDR
          (frames (emitted (World.init RegFile.empty)
            (nrf_setup registerFile nRF24L01 (Build.demo false true 4) Stack.demo 1
              (World.init RegFile.empty)))) =
        [[wcmd nRF24L01 nRF24L01.EN_RXADDR, v]] ∧
        ∀ i, v.testBit i = true ↔ i = nRF24L01.ERX_P0) ∧
      writesTo nRF24L01 nRF24L01.RX_PW_P0
          (frames (emitted (World.init RegFile.empty)
            (nrf_setup registerFile nRF24L01 (Build.demo false true 4) Stack.demo 1
              (World.init RegFile.empty)))) =
        [[wcmd nRF24L01 nRF24L01.RX_PW_P0, 0]] ∧
      writesTo nRF24L01 nRF24L01.RX_ADDR_P0
          (frames (emitted (World.init RegFile.empty)
            (nrf_setup registerFile nRF24L01 (Build.demo false true 4) Stack.demo 1
              (World.init RegFile.empty)))) =
        [wcmd nRF24L01 nRF24L01.RX_ADDR_P0 ::
          ([[0x0f, 0xb3, 0x47, 0x17, 0x1c], [0xd7, 0x1c, 0xca, 0x3b, 0x8a]].getD 1
            []).take (Build.demo false true 4).RF_ADDRESS_LEN] ∧
      writesTo nRF24L01 nRF24L01.TX_ADDR
          (frames (emitted (World.init RegFile.empty)
            (nrf_setup registerFile nRF24L01 (Build.demo false true 4) Stack.demo 1
              (World.init RegFile.empty)))) =
        [wcmd nRF24L01 nRF24L01.TX_ADDR ::
          ([[0x0f, 0xb3, 0x47, 0x17, 0x1c], [0xd7, 0x1c, 0xca, 0x3b, 0x8a]].getD 1
            []).take (Build.demo false true 4).RF_ADDRESS_LEN]) :=
  ⟨⟨by decide, by decide, rfl, Or.inr (Or.inl rfl), by decide, Or.inr rfl⟩,
   slave_addressing registerFile nRF24L01 (Build.demo false true 4) Stack.demo 1
     (World.init RegFile.empty) (by decide) (by decide) rfl (Or.inr (Or.inl rfl))
     (by decide) (Or.inr rfl)⟩

/-- C7 as stated fails: the slave build `Build.narrow` has a legal address width
(`RF_ADDRESS_LEN = 5`) and a 4-byte payload buffer, so the rows of `slave_addr` are 4 bytes
long; for device 0, `nrf_setup` writes `0f b3 47 17 d7` to `RX_ADDR_P0` and to `TX_ADDR`
(the fifth byte is the first byte of the next row), not the first five bytes
`0f b3 47 17 1c` of entry 0 of the table. -/
theorem slave_addressing_counterexample :
    (nRF24L01.commands.Nodup ∧ nRF24L01.ERX_P0 < 8 ∧
      Build.narrow.MASTER_DEVICE = false ∧
      (Build.narrow.RF_ADDRESS_LEN = 3 ∨ Build.narrow.RF_ADDRESS_LEN = 4 ∨
        Build.narrow.RF_ADDRESS_LEN = 5) ∧
      ((0 : Nat) = 0 ∨ (0 : Nat) = 1)) ∧
    writesTo nRF24L01 nRF24L01.RX_ADDR_P0
        (frames (emitted (World.init RegFile.empty)
          (nrf_setup registerFile nRF24L01 Build.narrow Stack.demo 0
            (World.init RegFile.empty)))) =
      [[wcmd nRF24L01 nRF24L01.RX_ADDR_P0, 0x0f, 0xb3, 0x47, 0x17, 0xd7]] ∧
    writesTo nRF24L01 nRF24L01.TX_ADDR
        (frames (emitted (World.init RegFile.empty)
          (nrf_setup registerFile nRF24L01 Build.narrow Stack.demo 0
            (World.init RegFile.empty)))) =
      [[wcmd nRF24L01 nRF24L01.TX_ADDR, 0x0f, 0xb3, 0x47, 0x17, 0xd7]] ∧
    ¬ ((∃ v, writesTo nRF24L01 nRF24L01.EN_RXADDR
          (frames (emitted (World.init RegFile.empty)
            (nrf_setup registerFile nRF24L01 Build.narrow Stack.demo 0
              (World.init RegFile.empty)))) =
        [[wcmd nRF24L01 nRF24L01.EN_RXADDR, v]] ∧
        ∀ i, v.testBit i = true ↔ i = nRF24L01.ERX_P0) ∧
      writesTo nRF24L01 nRF24L01.RX_PW_P0
          (frames (emitted (World.init RegFile.empty)
            (nrf_setup registerFile nRF24L01 Build.narrow Stack.demo 0
              (World.init RegFile.empty)))) =
        [[wcmd nRF24L01 nRF24L01.RX_PW_P0, 0]] ∧
      writesTo nRF24L01 nRF24L01.RX_ADDR_P0
          (frames (emitted (World.init RegFile.empty)
            (nrf_setup registerFile nRF24L01 Build.narrow Stack.demo 0
              (World.init RegFile.empty)))) =
        [wcmd nRF24L01 nRF24L01.RX_ADDR_P0 ::
          ([[0x0f, 0xb3, 0x47, 0x17, 0x1c], [0xd7, 0x1c, 0xca, 0x3b, 0x8a]].getD 0
            []).take Build.narrow.RF_ADDRESS_LEN] ∧
      writesTo nRF24L01 nRF24L01.TX_ADDR
          (frames (emitted (World.init RegFile.empty)
            (nrf_setup registerFile nRF24L01 Build.narrow Stack.demo 0
              (World.init RegFile.empty)))) =
        [wcmd nRF24L01 nRF24L01.TX_ADDR ::
          ([[0x0f, 0xb3, 0x47, 0x17, 0x1c], [0xd7, 0x1c, 0xca, 0x3b, 0x8a]].getD 0
            []).take Build.narrow.RF_ADDRESS_LEN]) := by
  have hfr : frames (emitted (World.init RegFile.empty)
      (nrf_setup registerFile nRF24L01 Build.narrow Stack.demo 0
        (World.init RegFile.empty))) = setupFrames nRF24L01 Build.narrow Stack.demo 0 :=
    (frames_nrf_setup registerFile nRF24L01 Build.narrow Stack.demo 0
      (World.init RegFile.empty)).1
  have h0 : writesTo nRF24L01 nRF24L01.RX_ADDR_P0
      (setupFrames nRF24L01 Build.narrow Stack.demo 0) =
      [[wcmd nRF24L01 nRF24L01.RX_ADDR_P0, 0x0f, 0xb3, 0x47, 0x17, 0xd7]] := by decide
  have h1 : writesTo nRF24L01 nRF24L01.TX_ADDR
      (setupFrames nRF24L01 Build.narrow Stack.demo 0) =
      [[wcmd nRF24L01 nRF24L01.TX_ADDR, 0x0f, 0xb3, 0x47, 0x17, 0xd7]] := by decide
  rw [hfr, h0, h1]
  refine ⟨⟨by decide, by decide, rfl, Or.inr (Or.inr rfl), Or.inl rfl⟩, rfl, rfl, ?_⟩
  rintro ⟨-, -, h2, -⟩
  revert h2
  decide

/-! ## C8: validation of the address width -/

/-- C8. For every configured address length `L`: `nrf_setup` performs a write to `SETUP_AW`
if and only if `L` is 3, 4 or 5; then there is exactly one, with value `L - 2`; for every
other `L` there is none and the rest of the configuration sequence is still emitted (the
command bytes of all the other steps, in order, ending with the power-up write and the
delay). -/
theorem address_width_validation (c : Chip σ) (h : Header) (b : Build) (m : Stack)
    (device_num : Nat) (w : World σ) (hd : h.commands.Nodup) :
    ((∃ f ∈ frames (emitted w (nrf_setup c h b m device_num w)),
        f.head? = some (wcmd h h.SETUP_AW)) ↔
      (b.RF_ADDRESS_LEN = 3 ∨ b.RF_ADDRESS_LEN = 4 ∨ b.RF_ADDRESS_LEN = 5)) ∧
    writesTo h h.SETUP_AW (frames (emitted w (nrf_setup c h b m device_num w))) =
      (if b.RF_ADDRESS_LEN = 3 ∨ b.RF_ADDRESS_LEN = 4 ∨ b.RF_ADDRESS_LEN = 5 then
        [[wcmd h h.SETUP_AW, b.RF_ADDRESS_LEN - 2]] else []) ∧
    (¬ (b.RF_ADDRESS_LEN = 3 ∨ b.RF_ADDRESS_LEN = 4 ∨ b.RF_ADDRESS_LEN = 5) →
      (frames (emitted w (nrf_setup c h b m device_num w))).map List.head? =
        ([wcmd h h.CONFIG] ++
          (if b.USE_AUTO_ACK then [wcmd h h.SETUP_RETR, wcmd h h.EN_AA]
            else [wcmd h h.EN_AA, wcmd h h.SETUP_RETR]) ++
          [wcmd h h.RF_CH, wcmd h h.RF_SETUP, wcmd h h.NRF_STATUS] ++
          (if b.MASTER_DEVICE then
            [wcmd h h.EN_RXADDR, wcmd h h.RX_ADDR_P0, wcmd h h.RX_ADDR_P1, wcmd h h.RX_PW_P0,
             wcmd h h.RX_PW_P1, wcmd h h.TX_ADDR]
            else [wcmd h h.EN_RXADDR, wcmd h h.RX_PW_P0, wcmd h h.RX_ADDR_P0, wcmd h h.TX_ADDR]) ++
          [wcmd h h.DYNPD, wcmd h h.FEATURE, u8 h.FLUSH_RX, u8 h.FLUSH_TX,
           wcmd h h.CONFIG]).map some ∧
      (emitted w (nrf_setup c h b m device_num w)).getLast? = some (Event.delay 100)) := by
  have hne := commands_ne h hd 3 (by simp [Header.commands])
  simp only [Header.commands, List.eraseIdx, List.mem_cons, List.mem_singleton,
    List.not_mem_nil, or_false, forall_eq_or_imp, forall_eq, List.getElem_cons_succ,
    List.getElem_cons_zero] at hne
  have hw : writesTo h h.SETUP_AW (frames (emitted w (nrf_setup c h b m device_num w))) =
      (if b.RF_ADDRESS_LEN = 3 ∨ b.RF_ADDRESS_LEN = 4 ∨ b.RF_ADDRESS_LEN = 5 then
        [[wcmd h h.SETUP_AW, b.RF_ADDRESS_LEN - 2]] else []) := by
    rw [(frames_nrf_setup c h b m device_num w).1]
    unfold setupFrames setupMiddle ackFrames awFrames pipeFrames
    split_ifs <;> simp_all [writesTo_append, writesTo_cons]
  refine ⟨?_, hw, ?_⟩
  · have hiff : (∃ f ∈ frames (emitted w (nrf_setup c h b m device_num w)),
        f.head? = some (wcmd h h.SETUP_AW)) ↔
        writesTo h h.SETUP_AW (frames (emitted w (nrf_setup c h b m device_num w))) ≠ [] := by
      rw [writesTo, Ne, List.filter_eq_nil_iff]
      simp
    rw [hiff, hw]
    split_ifs with hL <;> simp [hL]
  · intro hL
    refine ⟨?_, (frames_nrf_setup c h b m device_num w).2⟩
    rw [(frames_nrf_setup c h b m device_num w).1]
    have h3 : ¬ b.RF_ADDRESS_LEN = 3 := fun e => hL (Or.inl e)
    have h4 : ¬ b.RF_ADDRESS_LEN = 4 := fun e => hL (Or.inr (Or.inl e))
    have h5 : ¬ b.RF_ADDRESS_LEN = 5 := fun e => hL (Or.inr (Or.inr e))
    cases hm : b.MASTER_DEVICE <;> cases ha : b.USE_AUTO_ACK <;>
      simp [setupFrames, setupMiddle, ackFrames, awFrames, pipeFrames, hm, ha, h3, h4, h5]

/-- Witness of C8: a master build whose address length is 6, on the nRF24L01 header. -/
theorem address_width_validation_witness :
    nRF24L01.commands.Nodup ∧
    (((∃ f ∈ frames (emitted (World.init RegFile.empty)
          (nrf_setup registerFile nRF24L01 (Build.demo true true 6) Stack.demo 0
            (World.init RegFile.empty))),
        f.head? = some (wcmd nRF24L01 nRF24L01.SETUP_AW)) ↔
      ((Build.demo true true 6).RF_ADDRESS_LEN = 3 ∨ (Build.demo true true 6).RF_ADDRESS_LEN = 4 ∨
        (Build.demo true true 6).RF_ADDRESS_LEN = 5)) ∧
    writesTo nRF24L01 nRF24L01.SETUP_AW
        (frames (emitted (World.init RegFile.empty)
          (nrf_setup registerFile nRF24L01 (Build.demo true true 6) Stack.demo 0
            (World.init RegFile.empty)))) =
      (if (Build.demo true true 6).RF_ADDRESS_LEN = 3 ∨
          (Build.demo true true 6).RF_ADDRESS_LEN = 4 ∨
          (Build.demo true true 6).RF_ADDRESS_LEN = 5 then
        [[wcmd nRF24L01 nRF24L01.SETUP_AW, (Build.demo true true 6).RF_ADDRESS_LEN - 2]]
        else []) ∧
    (¬ ((Build.demo true true 6).RF_ADDRESS_LEN = 3 ∨
        (Build.demo true true 6).RF_ADDRESS_LEN = 4 ∨
        (Build.demo true true 6).RF_ADDRESS_LEN = 5) →
      (frames (emitted (World.init RegFile.empty)
          (nrf_setup registerFile nRF24L01 (Build.demo true true 6) Stack.demo 0
            (World.init RegFile.empty)))).map List.head? =
        ([wcmd nRF24L01 nRF24L01.CONFIG] ++
          (if (Build.demo true true 6).USE_AUTO_ACK then
            [wcmd nRF24L01 nRF24L01.SETUP_RETR, wcmd nRF24L01 nRF24L01.EN_AA]
            else [wcmd nRF24L01 nRF24L01.EN_AA, wcmd nRF24L01 nRF24L01.SETUP_RETR]) ++
          [wcmd nRF24L01 nRF24L01.RF_CH, wcmd nRF24L01 nRF24L01.RF_SETUP,
           wcmd nRF24L01 nRF24L01.NRF_STATUS] ++
          (if (Build.demo true true 6).MASTER_DEVICE then
            [wcmd nRF24L01 nRF24L01.EN_RXADDR, wcmd nRF24L01 nRF24L01.RX_ADDR_P0,
             wcmd nRF24L01 nRF24L01.RX_ADDR_P1, wcmd nRF24L01 nRF24L01.RX_PW_P0,
             wcmd nRF24L01 nRF24L01.RX_PW_P1, wcmd nRF24L01 nRF24L01.TX_ADDR]
            else [wcmd nRF24L01 nRF24L01.EN_RXADDR, wcmd nRF24L01 nRF24L01.RX_PW_P0,
             wcmd nRF24L01 nRF24L01.RX_ADDR_P0, wcmd nRF24L01 nRF24L01.TX_ADDR]) ++
          [wcmd nRF24L01 nRF24L01.DYNPD, wcmd nRF24L01 nRF24L01.FEATURE, u8 nRF24L01.FLUSH_RX,
           u8 nRF24L01.FLUSH_TX, wcmd nRF24L01 nRF24L01.CONFIG]).map some ∧
      (emitted (World.init RegFile.empty)
          (nrf_setup registerFile nRF24L01 (Build.demo true true 6) Stack.demo 0
            (World.init RegFile.empty))).getLast? = some (Event.delay 100))) :=
  ⟨by decide,
   address_width_validation registerFile nRF24L01 (Build.demo true true 6) Stack.demo 0
     (World.init RegFile.empty) (by decide)⟩

/-! ## C9: the golden configuration log of a master -/

/-- C9. In a master build with auto-ack and a legal address width, for every `device_num` the
transactions of `nrf_setup` are exactly: `CONFIG` (power down), `SETUP_RETR = 0`,
`EN_AA = ENAA_P0|ENAA_P1`, `RF_CH`, `RF_SETUP`, `SETUP_AW`, `STATUS = 0xFF`, `EN_RXADDR`,
`RX_ADDR_P0`, `RX_ADDR_P1`, `RX_PW_P0`, `RX_PW_P1`, `TX_ADDR`, `DYNPD = 0`, `FEATURE`,
`FLUSH_RX`, `FLUSH_TX`, `CONFIG` (power up); the trace ends with the 100 microsecond delay;
and what the driver puts on the transport is the same for every `device_num`. The three
address transactions carry the first `W` bytes of the rows `slave_addr[0]`, `slave_addr[1]`
and of `zero_addr`; whenever `W <= RF_BUFFER_LEN` these are the first `W` bytes of
`0f b3 47 17 1c`, of `d7 1c ca 3b 8a`, and `W` zeros. -/
theorem golden_configuration_log (c : Chip σ) (h : Header) (b : Build) (m : Stack)
    (device_num : Nat) (w : World σ)
    (hlt : ∀ i ∈ [h.CRCO, h.EN_CRC, h.PWR_UP, h.PRIM_RX], i < 8)
    (hnd : [h.CRCO, h.EN_CRC, h.PWR_UP, h.PRIM_RX].Nodup)
    (hm : b.MASTER_DEVICE = true) (ha : b.USE_AUTO_ACK = true)
    (hW : b.RF_ADDRESS_LEN = 3 ∨ b.RF_ADDRESS_LEN = 4 ∨ b.RF_ADDRESS_LEN = 5) :
    ∃ off on_,
      frames (emitted w (nrf_setup c h b m device_num w)) =
        [[wcmd h h.CONFIG, off],
         [wcmd h h.SETUP_RETR, 0],
         [wcmd h h.EN_AA, u8 ((1 <<< h.ENAA_P0) ||| (1 <<< h.ENAA_P1))],
         [wcmd h h.RF_CH, 0x02],
         [wcmd h h.RF_SETUP, u8 ((0 <<< h.RF_DR_LOW) ||| (1 <<< h.RF_DR_HIGH) |||
           (if b.RF_PWR_LEVEL < h.RF_PWR then 1 else 0))],
         [wcmd h h.SETUP_AW, b.RF_ADDRESS_LEN - 2],
         [wcmd h h.NRF_STATUS, 0xFF],
         [wcmd h h.EN_RXADDR, u8 ((1 <<< h.ERX_P0) ||| (1 <<< h.ERX_P1))],
         wcmd h h.RX_ADDR_P0 :: (slave_addr b m 0).bytes 0 b.RF_ADDRESS_LEN,
         wcmd h h.RX_ADDR_P1 :: (slave_addr b m 1).bytes 0 b.RF_ADDRESS_LEN,
         [wcmd h h.RX_PW_P0, b.RF_BUFFER_LEN],
         [wcmd h h.RX_PW_P1, b.RF_BUFFER_LEN],
         wcmd h h.TX_ADDR :: (zero_addr b m).bytes 0 b.RF_ADDRESS_LEN,
         [wcmd h h.DYNPD, 0],
         [wcmd h h.FEATURE, 0],
         [u8 h.FLUSH_RX],
         [u8 h.FLUSH_TX],
         [wcmd h h.CONFIG, on_]] ∧
      (b.RF_ADDRESS_LEN ≤ b.RF_BUFFER_LEN →
        (slave_addr b m 0).bytes 0 b.RF_ADDRESS_LEN =
          [0x0f, 0xb3, 0x47, 0x17, 0x1c].take b.RF_ADDRESS_LEN ∧
        (slave_addr b m 1).bytes 0 b.RF_ADDRESS_LEN =
          [0xd7, 0x1c, 0xca, 0x3b, 0x8a].take b.RF_ADDRESS_LEN ∧
        (zero_addr b m).bytes 0 b.RF_ADDRESS_LEN = List.replicate b.RF_ADDRESS_LEN 0) ∧
      off.testBit h.PWR_UP = false ∧ on_.testBit h.PWR_UP = true ∧
      (emitted w (nrf_setup c h b m device_num w)).getLast? = some (Event.delay 100) ∧
      ∀ dev2, outs (emitted w (nrf_setup c h b m dev2 w)) =
        outs (emitted w (nrf_setup c h b m device_num w)) := by
  simp only [List.mem_cons, List.mem_singleton, List.not_mem_nil, or_false, forall_eq_or_imp,
    forall_eq] at hlt
  simp only [List.nodup_cons, List.mem_cons, List.mem_singleton, List.not_mem_nil, or_false,
    not_or, List.nodup_nil, and_true, not_false_eq_true] at hnd
  obtain ⟨h1, h2, h3, h4⟩ := hlt
  obtain ⟨⟨n1, n2, n3⟩, ⟨n4, n5⟩, n6⟩ := hnd
  have hW5 : b.RF_ADDRESS_LEN ≤ 5 := by omega
  have hWu : u8 b.RF_ADDRESS_LEN = b.RF_ADDRESS_LEN := u8_of_lt (by omega)
  have hLu : u8 b.RF_BUFFER_LEN = b.RF_BUFFER_LEN := u8_of_lt b.buffer_byte
  refine ⟨configByte h b false, configByte h b true, ?_, ?_, ?_, ?_,
    (frames_nrf_setup c h b m device_num w).2, ?_⟩
  · rw [(frames_nrf_setup c h b m device_num w).1]
    have haw : awFrames h b = [[wcmd h h.SETUP_AW, b.RF_ADDRESS_LEN - 2]] := by
      rcases hW with hW | hW | hW <;> simp [awFrames, hW]
    simp [setupFrames, setupMiddle, ackFrames, haw, pipeFrames, rfSetupByte,
      featuresByte, hm, ha, hWu, hLu]
  · intro hWle
    have e0 := slave_addr_bytes b m 0 b.RF_ADDRESS_LEN (by decide) hW5 hWle
    have e1 := slave_addr_bytes b m 1 b.RF_ADDRESS_LEN (by decide) hW5 hWle
    have ez := zero_addr_bytes b m b.RF_ADDRESS_LEN hWle
    simp only [slave_addr_init, List.getD_cons_zero, List.getD_cons_succ] at e0 e1
    exact ⟨e0, e1, ez⟩
  · have e3 : ¬ (h.PWR_UP = h.CRCO) := fun e => n2 e.symm
    have e4 : ¬ (h.PWR_UP = h.EN_CRC) := fun e => n4 e.symm
    have e5 : ¬ (h.PRIM_RX = h.PWR_UP) := fun e => n6 e.symm
    simp [testBit_configByte, n2, n4, n6, e3, e4, e5]
  · simp [testBit_configByte, h3]
  · intro dev2
    rw [outs_emitted w _ _ (outs_nrf_setup c h b m dev2 w),
      outs_emitted w _ _ (outs_nrf_setup c h b m device_num w)]
    simp [setupFrames, setupMiddle, ackFrames, pipeFrames, hm, ha]

/-- Witness of C9: the master build with auto-ack, five-byte addresses and a 16-byte payload
buffer, device 0; the address transactions carry the listed bytes. -/
theorem golden_configuration_log_witness :
    ((∀ i ∈ [nRF24L01.CRCO, nRF24L01.EN_CRC, nRF24L01.PWR_UP, nRF24L01.PRIM_RX], i < 8) ∧
      [nRF24L01.CRCO, nRF24L01.EN_CRC, nRF24L01.PWR_UP, nRF24L01.PRIM_RX].Nodup ∧
      (Build.demo true true 5).MASTER_DEVICE = true ∧
      (Build.demo true true 5).USE_AUTO_ACK = true ∧
      ((Build.demo true true 5).RF_ADDRESS_LEN = 3 ∨ (Build.demo true true 5).RF_ADDRESS_LEN = 4 ∨
        (Build.demo true true 5).RF_ADDRESS_LEN = 5)) ∧
    ∃ off on_,
      frames (emitted (World.init RegFile.empty)
          (nrf_setup registerFile nRF24L01 (Build.demo true true 5) Stack.demo 0
            (World.init RegFile.empty))) =
        [[wcmd nRF24L01 nRF24L01.CONFIG, off],
         [wcmd nRF24L01 nRF24L01.SETUP_RETR, 0],
         [wcmd nRF24L01 nRF24L01.EN_AA,
           u8 ((1 <<< nRF24L01.ENAA_P0) ||| (1 <<< nRF24L01.ENAA_P1))],
         [wcmd nRF24L01 nRF24L01.RF_CH, 0x02],
         [wcmd nRF24L01 nRF24L01.RF_SETUP,
           u8 ((0 <<< nRF24L01.RF_DR_LOW) ||| (1 <<< nRF24L01.RF_DR_HIGH) |||
             (if (Build.demo true true 5).RF_PWR_LEVEL < nRF24L01.RF_PWR then 1 else 0))],
         [wcmd nRF24L01 nRF24L01.SETUP_AW, (Build.demo true true 5).RF_ADDRESS_LEN - 2],
         [wcmd nRF24L01 nRF24L01.NRF_STATUS, 0xFF],
         [wcmd nRF24L01 nRF24L01.EN_RXADDR,
           u8 ((1 <<< nRF24L01.ERX_P0) ||| (1 <<< nRF24L01.ERX_P1))],
         wcmd nRF24L01 nRF24L01.RX_ADDR_P0 ::
           [0x0f, 0xb3, 0x47, 0x17, 0x1c].take (Build.demo true true 5).RF_ADDRESS_LEN,
         wcmd nRF24L01 nRF24L01.RX_ADDR_P1 ::
           [0xd7, 0x1c, 0xca, 0x3b, 0x8a].take (Build.demo true true 5).RF_ADDRESS_LEN,
         [wcmd nRF24L01 nRF24L01.RX_PW_P0, (Build.demo true true 5).RF_BUFFER_LEN],
         [wcmd nRF24L01 nRF24L01.RX_PW_P1, (Build.demo true true 5).RF_BUFFER_LEN],
         wcmd nRF24L01 nRF24L01.TX_ADDR ::
           List.replicate (Build.demo true true 5).RF_ADDRESS_LEN 0,
         [wcmd nRF24L01 nRF24L01.DYNPD, 0],
         [wcmd nRF24L01 nRF24L01.FEATURE, 0],
         [u8 nRF24L01.FLUSH_RX],
         [u8 nRF24L01.FLUSH_TX],
         [wcmd nRF24L01 nRF24L01.CONFIG, on_]] ∧
      off.testBit nRF24L01.PWR_UP = false ∧ on_.testBit nRF24L01.PWR_UP = true ∧
      (emitted (World.init RegFile.empty)
          (nrf_setup registerFile nRF24L01 (Build.demo true true 5) Stack.demo 0
            (World.init RegFile.empty))).getLast? = some (Event.delay 100) ∧
      ∀ dev2, outs (emitted (World.init RegFile.empty)
          (nrf_setup registerFile nRF24L01 (Build.demo true true 5) Stack.demo dev2
            (World.init RegFile.empty))) =
        outs (emitted (World.init RegFile.empty)
          (nrf_setup registerFile nRF24L01 (Build.demo true true 5) Stack.demo 0
            (World.init RegFile.empty))) := by
  obtain ⟨off, on_, hf, haddr, hrest⟩ :=
    golden_configuration_log registerFile nRF24L01 (Build.demo true true 5) Stack.demo 0
      (World.init RegFile.empty) (by decide) (by decide) rfl rfl (Or.inr (Or.inr rfl))
  obtain ⟨a0, a1, az⟩ := haddr (by decide)
  rw [a0, a1, az] at hf
  exact ⟨⟨by decide, by decide, rfl, rfl, Or.inr (Or.inr rfl)⟩, off, on_, hf, hrest⟩

/-! ## C10: extraction of the pipe number -/

/-- C10. `nrf_rx_pipe_number` performs one read of `STATUS`; with `s` the byte the chip
returns as its data byte (any of the 256 values) and `RX_P_NO = 1`, the result is
`(s >> 1) & 0b111`: it lies in 0..7, its bits are exactly bits 1-3 of `s`, and it depends
neither on the other bits of `s` nor on the reply to the command byte. -/
theorem pipe_number_extraction (c : Chip σ) (h : Header) (w : World σ) (hP : h.RX_P_NO = 1) :
    ∃ r0 s, s < 256 ∧
      emitted w (nrf_rx_pipe_number c h w).2 =
        [Event.csn false, Event.xfer (rcmd h h.NRF_STATUS) r0, Event.xfer (u8 h.NOP) s,
         Event.csn true] ∧
      (nrf_rx_pipe_number c h w).1 = (s >>> 1) &&& 0b111 ∧
      (nrf_rx_pipe_number c h w).1 ≤ 7 ∧
      (∀ i, ((nrf_rx_pipe_number c h w).1).testBit i = (decide (i < 3) && s.testBit (i + 1))) ∧
      (∀ s2, (∀ i, 1 ≤ i → i ≤ 3 → s2.testBit i = s.testBit i) →
        (s2 >>> 1) &&& 0b111 = (nrf_rx_pipe_number c h w).1) := by
  have hbits : ∀ x i : Nat, ((x >>> 1) &&& 0b111).testBit i =
      (decide (i < 3) && x.testBit (i + 1)) := by
    intro x i
    have e7 : (0b111 : Nat) = 2 ^ 3 - 1 := rfl
    rw [Nat.testBit_and, Nat.testBit_shiftRight, e7, Nat.testBit_two_pow_sub_one,
      Nat.add_comm 1 i, Bool.and_comm]
  have hle : ∀ x : Nat, (x >>> 1) &&& 0b111 ≤ 7 := fun x => Nat.and_le_right
  have hres : (nrf_rx_pipe_number c h w).1 =
      ((transaction c [rcmd h h.NRF_STATUS, u8 h.NOP] w).1.tail.headD 0 >>> 1) &&& 0b111 := by
    rw [nrf_rx_pipe_number, read_reg_eq, hP]
    exact u8_of_lt (Nat.lt_of_le_of_lt (hle _) (by decide))
  refine ⟨(transaction c [rcmd h h.NRF_STATUS, u8 h.NOP] w).1.headD 0,
    (transaction c [rcmd h h.NRF_STATUS, u8 h.NOP] w).1.tail.headD 0, ?_, ?_, hres, ?_, ?_, ?_⟩
  · simp [transaction, Chip.feed, u8_lt]
  · rw [nrf_rx_pipe_number, read_reg_eq, emitted_transaction]
    simp [transaction, bracket, Chip.feed]
  · rw [hres]; exact hle _
  · intro i
    rw [hres]; exact hbits _ i
  · intro s2 hs2
    rw [hres]
    apply Nat.eq_of_testBit_eq
    intro i
    rw [hbits, hbits]
    by_cases hi : i < 3
    · rw [hs2 (i + 1) (by omega) (by omega)]
    · simp [hi]

/-- Witness of C10: the register-file chip whose `STATUS` register holds `0x4E`. -/
theorem pipe_number_extraction_witness :
    nRF24L01.RX_P_NO = 1 ∧
    ∃ r0 s, s < 256 ∧
      emitted (World.init (RegFile.holding 7 [0x4E]))
          (nrf_rx_pipe_number registerFile nRF24L01 (World.init (RegFile.holding 7 [0x4E]))).2 =
        [Event.csn false, Event.xfer (rcmd nRF24L01 nRF24L01.NRF_STATUS) r0,
         Event.xfer (u8 nRF24L01.NOP) s, Event.csn true] ∧
      (nrf_rx_pipe_number registerFile nRF24L01 (World.init (RegFile.holding 7 [0x4E]))).1 =
        (s >>> 1) &&& 0b111 ∧
      (nrf_rx_pipe_number registerFile nRF24L01 (World.init (RegFile.holding 7 [0x4E]))).1 ≤ 7 ∧
      (∀ i, ((nrf_rx_pipe_number registerFile nRF24L01
          (World.init (RegFile.holding 7 [0x4E]))).1).testBit i =
        (decide (i < 3) && s.testBit (i + 1))) ∧
      (∀ s2, (∀ i, 1 ≤ i → i ≤ 3 → s2.testBit i = s.testBit i) →
        (s2 >>> 1) &&& 0b111 =
          (nrf_rx_pipe_number registerFile nRF24L01
            (World.init (RegFile.holding 7 [0x4E]))).1) :=
  ⟨rfl, pipe_number_extraction registerFile nRF24L01 (World.init (RegFile.holding 7 [0x4E])) rfl⟩

/-! ## C12: loading a payload -/

theorem Buf.bytes_of_lt (buf : Buf) (len : Nat) (hbuf : ∀ i, i < len → buf.byte i < 256) :
    buf.bytes 0 len = (List.range len).map buf.byte := by
  apply List.map_congr_left
  intro k hk
  rw [Nat.zero_add]
  exact u8_of_lt (hbuf k (List.mem_range.1 hk))

/-- C12. For every buffer of bytes and every `len` in 0..255, `nrf_load_tx_fifo(buf, len)`
exchanges, inside one chip-select bracket, the opcode `W_TX_PAYLOAD` when auto-ack is enabled
and `W_TX_PAYLOAD_NO_ACK` when it is not, followed by `buf[0..len-1]` in index order, and
returns the reply of the chip to the opcode byte. -/
theorem payload_load (c : Chip σ) (h : Header) (b : Build) (buf : Buf) (len : Nat)
    (w : World σ) (hlen : len < 256) (hack : h.W_TX_PAYLOAD < 256)
    (hnoack : h.W_TX_PAYLOAD_NO_ACK < 256) (hbuf : ∀ i, i < len → buf.byte i < 256) :
    ∃ rs, rs.length = 1 + len ∧
      emitted w (nrf_load_tx_fifo c h b buf len w).2 =
        Event.csn false ::
          (List.zipWith Event.xfer
            ((if b.USE_AUTO_ACK then h.W_TX_PAYLOAD else h.W_TX_PAYLOAD_NO_ACK) ::
              (List.range len).map buf.byte) rs ++ [Event.csn true]) ∧
      (nrf_load_tx_fifo c h b buf len w).1 = rs.headD 0 := by
  have hop : u8 (if b.USE_AUTO_ACK then h.W_TX_PAYLOAD else h.W_TX_PAYLOAD_NO_ACK) =
      (if b.USE_AUTO_ACK then h.W_TX_PAYLOAD else h.W_TX_PAYLOAD_NO_ACK) := by
    split_ifs
    · exact u8_of_lt hack
    · exact u8_of_lt hnoack
  have hsent : (u8 (if b.USE_AUTO_ACK then h.W_TX_PAYLOAD else h.W_TX_PAYLOAD_NO_ACK) ::
      buf.bytes 0 (u8 len)) =
      ((if b.USE_AUTO_ACK then h.W_TX_PAYLOAD else h.W_TX_PAYLOAD_NO_ACK) ::
        (List.range len).map buf.byte) := by
    rw [hop, u8_of_lt hlen, Buf.bytes_of_lt buf len hbuf]
  rw [nrf_load_tx_fifo_eq, hsent]
  refine ⟨(transaction c ((if b.USE_AUTO_ACK then h.W_TX_PAYLOAD else h.W_TX_PAYLOAD_NO_ACK) ::
    (List.range len).map buf.byte) w).1, ?_, ?_, rfl⟩
  · rw [transaction_replies_length]
    simp [Nat.add_comm]
  · rw [emitted_logLoads, emitted_transaction]
    rfl

/-- Witness of C12: a three-byte payload in a build without auto-ack, nRF24L01 header. -/
theorem payload_load_witness :
    (3 < 256 ∧ nRF24L01.W_TX_PAYLOAD < 256 ∧ nRF24L01.W_TX_PAYLOAD_NO_ACK < 256 ∧
      ∀ i, i < 3 → (Buf.ofList [0x11, 0x22, 0x33]).byte i < 256) ∧
    ∃ rs, rs.length = 1 + 3 ∧
      emitted (World.init RegFile.empty)
          (nrf_load_tx_fifo registerFile nRF24L01 (Build.demo false false 5)
            (Buf.ofList [0x11, 0x22, 0x33]) 3 (World.init RegFile.empty)).2 =
        Event.csn false ::
          (List.zipWith Event.xfer
            ((if (Build.demo false false 5).USE_AUTO_ACK then nRF24L01.W_TX_PAYLOAD
                else nRF24L01.W_TX_PAYLOAD_NO_ACK) ::
              (List.range 3).map (Buf.ofList [0x11, 0x22, 0x33]).byte) rs ++
            [Event.csn true]) ∧
      (nrf_load_tx_fifo registerFile nRF24L01 (Build.demo false false 5)
        (Buf.ofList [0x11, 0x22, 0x33]) 3 (World.init RegFile.empty)).1 = rs.headD 0 :=
  ⟨⟨by decide, by decide, by decide, by decide⟩,
   payload_load registerFile nRF24L01 (Build.demo false false 5) (Buf.ofList [0x11, 0x22, 0x33])
     3 (World.init RegFile.empty) (by decide) (by decide) (by decide) (by decide)⟩

/-! ## C16: clearing the interrupt flags -/

theorem frames_emitted_of_outs (w w1 : World σ) (fs : List (List Nat))
    (ht : outs w1.trace = outs w.trace ++ script fs) : frames (emitted w w1) = fs := by
  rw [← frames_outs, outs_emitted w w1 _ ht]
  have := frames_script fs []
  simpa [frames, framesFrom] using this

/-- C16. `nrf_clear_flags` performs exactly one transaction: a write to the `STATUS` register
of the value `0x70`, whose set bits are exactly the three interrupt flags `RX_DR`, `TX_DS`
and `MAX_RT` (bits 6, 5 and 4; `nrf.c` names only `MAX_RT`, the other two positions of
`nRF24L01.h` are the parameters `RX_DR` and `TX_DS`). -/
theorem flag_clearing (c : Chip σ) (h : Header) (w : World σ) (RX_DR TX_DS : Nat)
    (hRX : RX_DR = 6) (hTX : TX_DS = 5) (hMAX : h.MAX_RT = 4) :
    ∃ v, frames (emitted w (nrf_clear_flags c h w)) = [[wcmd h h.NRF_STATUS, v]] ∧
      isBracket 2 (emitted w (nrf_clear_flags c h w)) = true ∧
      v = 0x70 ∧ ∀ i, v.testBit i = true ↔ (i = RX_DR ∨ i = TX_DS ∨ i = h.MAX_RT) := by
  refine ⟨0x70, ?_, ?_, rfl, ?_⟩
  · apply frames_emitted_of_outs
    rw [nrf_clear_flags, outs_write_reg]
    rfl
  · rw [nrf_clear_flags, write_reg_eq, emitted_logLoads, emitted_transaction]
    exact isBracket_bracket _ _ (transaction_replies_length c _ w)
  · intro i
    have e : (0x70 : Nat) = (1 <<< 4) ||| (1 <<< 5) ||| (1 <<< 6) := by decide
    rw [e, Nat.testBit_or, Nat.testBit_or, testBit_one_shiftLeft, testBit_one_shiftLeft,
      testBit_one_shiftLeft, hRX, hTX, hMAX]
    simp only [Bool.or_eq_true, decide_eq_true_eq]
    omega

/-- Witness of C16: the nRF24L01 header and the register-file chip. -/
theorem flag_clearing_witness :
    ((6 : Nat) = 6 ∧ (5 : Nat) = 5 ∧ nRF24L01.MAX_RT = 4) ∧
    ∃ v, frames (emitted (World.init RegFile.empty)
          (nrf_clear_flags registerFile nRF24L01 (World.init RegFile.empty))) =
        [[wcmd nRF24L01 nRF24L01.NRF_STATUS, v]] ∧
      isBracket 2 (emitted (World.init RegFile.empty)
          (nrf_clear_flags registerFile nRF24L01 (World.init RegFile.empty))) = true ∧
      v = 0x70 ∧ ∀ i, v.testBit i = true ↔ (i = 6 ∨ i = 5 ∨ i = nRF24L01.MAX_RT) :=
  ⟨⟨rfl, rfl, rfl⟩,
   flag_clearing registerFile nRF24L01 (World.init RegFile.empty) 6 5 rfl rfl rfl⟩

/-! ## The polling loop -/

theorem read_reg_trace (c : Chip σ) (h : Header) (reg : Nat) (w : World σ) :
    (read_reg c h reg w).2.trace =
      w.trace ++ readEvents h reg (cmdReply c h reg w) (read_reg c h reg w).1 := by
  rw [read_reg_eq]
  simp [cmdReply, transaction, bracket, readEvents, Chip.feed]

@[simp] theorem read_reg_cePin (c : Chip σ) (h : Header) (reg : Nat) (w : World σ) :
    (read_reg c h reg w).2.cePin = w.cePin := by
  rw [read_reg_eq]; rfl

theorem nrf_send_all_loop_succ (c : Chip σ) (h : Header) (fuel : Nat) (w : World σ) :
    nrf_send_all_loop c h (fuel + 1) w =
      if pollExits c h w = true then
        some (if (read_reg c h h.FIFO_STATUS w).1 &&& (1 <<< h.TX_EMPTY) ≠ 0 then
          (read_reg c h h.FIFO_STATUS w).2 else pollStep c h w)
      else nrf_send_all_loop c h fuel (pollStep c h w) := by
  rw [nrf_send_all_loop]
  by_cases h1 : (read_reg c h h.FIFO_STATUS w).1 &&& (1 <<< h.TX_EMPTY) ≠ 0
  · simp [pollExits, h1]
  · by_cases h2 : (read_reg c h h.NRF_STATUS (read_reg c h h.FIFO_STATUS w).2).1
        &&& (1 <<< h.MAX_RT) ≠ 0
    · simp [pollExits, pollStep, h1, h2]
    · simp [pollExits, pollStep, h1, h2]

theorem filter_isCe_readEvents (h : Header) (reg r0 v : Nat) :
    (readEvents h reg r0 v).filter Event.isCe = [] := by
  simp [readEvents, Event.isCe]

theorem filter_isCe_polls (h : Header) (ps : List Poll) :
    ((ps.map (Poll.events h)).flatten).filter Event.isCe = [] := by
  induction ps with
  | nil => rfl
  | cons p ps ih =>
    simp only [List.map_cons, List.flatten_cons, List.filter_append, ih, List.append_nil]
    cases hs : p.status <;> simp [Poll.events, hs, filter_isCe_readEvents]

theorem filter_isCe_drain (xs : List Event) (hx : xs.filter Event.isCe = []) :
    (Event.ce true :: Event.delay 11 :: (xs ++ [Event.ce false])).filter Event.isCe =
      [Event.ce true, Event.ce false] := by
  simp [List.filter_cons, List.filter_append, hx, Event.isCe]

/-- What a run of the polling loop that returns has put on the transport. -/
theorem nrf_send_all_loop_trace (c : Chip σ) (h : Header) (fuel : Nat) (w w1 : World σ)
    (hret : nrf_send_all_loop c h fuel w = some w1) :
    ∃ (ps : List Poll) (last : Poll),
      w1.trace = w.trace ++ ((ps ++ [last]).map (Poll.events h)).flatten ∧
      (∀ p ∈ ps ++ [last], p.ordered h = true) ∧
      (∀ p ∈ ps, p.txEmpty h = false ∧ p.maxRt h = false) ∧
      (last.txEmpty h = true ∨ last.maxRt h = true) ∧
      w1.cePin = w.cePin := by
  induction fuel generalizing w with
  | zero => simp [nrf_send_all_loop] at hret
  | succ fuel ih =>
    rw [nrf_send_all_loop] at hret
    by_cases h1 : (read_reg c h h.FIFO_STATUS w).1 &&& (1 <<< h.TX_EMPTY) ≠ 0
    · rw [if_pos h1] at hret
      cases hret
      refine ⟨[], ⟨(cmdReply c h h.FIFO_STATUS w, (read_reg c h h.FIFO_STATUS w).1), none⟩, ?_, ?_, ?_, ?_, ?_⟩
      · rw [read_reg_trace]
        simp [Poll.events]
      · simp [Poll.ordered, Poll.txEmpty, h1]
      · simp
      · left; simp [Poll.txEmpty, h1]
      · simp
    · rw [if_neg h1] at hret
      have h1z : (read_reg c h h.FIFO_STATUS w).1 &&& (1 <<< h.TX_EMPTY) = 0 := not_not.1 h1
      by_cases h2 : (read_reg c h h.NRF_STATUS (read_reg c h h.FIFO_STATUS w).2).1
          &&& (1 <<< h.MAX_RT) ≠ 0
      · rw [if_pos h2] at hret
        cases hret
        refine ⟨[], ⟨(cmdReply c h h.FIFO_STATUS w, (read_reg c h h.FIFO_STATUS w).1),
          some (cmdReply c h h.NRF_STATUS (read_reg c h h.FIFO_STATUS w).2,
            (read_reg c h h.NRF_STATUS (read_reg c h h.FIFO_STATUS w).2).1)⟩,
          ?_, ?_, ?_, ?_, ?_⟩
        · rw [read_reg_trace, read_reg_trace]
          simp [Poll.events]
        · simp [Poll.ordered, Poll.txEmpty, h1z]
        · simp
        · right; simp [Poll.maxRt, h2]
        · simp
      · rw [if_neg h2] at hret
        have h2z : (read_reg c h h.NRF_STATUS (read_reg c h h.FIFO_STATUS w).2).1
            &&& (1 <<< h.MAX_RT) = 0 := not_not.1 h2
        obtain ⟨ps, last, ht, ho, hp, hl, hce⟩ := ih _ hret
        refine ⟨⟨(cmdReply c h h.FIFO_STATUS w, (read_reg c h h.FIFO_STATUS w).1),
          some (cmdReply c h h.NRF_STATUS (read_reg c h h.FIFO_STATUS w).2,
            (read_reg c h h.NRF_STATUS (read_reg c h h.FIFO_STATUS w).2).1)⟩ :: ps,
          last, ?_, ?_, ?_, hl, ?_⟩
        · rw [ht, read_reg_trace, read_reg_trace]
          simp [Poll.events]
        · intro p hp'
          rcases List.mem_cons.1 hp' with rfl | hp'
          · simp [Poll.ordered, Poll.txEmpty, h1z]
          · exact ho p hp'
        · intro p hp'
          rcases List.mem_cons.1 hp' with rfl | hp'
          · simp [Poll.txEmpty, Poll.maxRt, h1z, h2z]
          · exact hp p hp'
        · rw [hce]; simp

/-! ## C11: what `nrf_send_all` has done when it returns -/

/-- C11. Whenever `nrf_send_all` returns, its trace is chip-enable high, an 11 microsecond
delay, one or more poll iterations and chip-enable low as the last event. Each iteration
reads `FIFO_STATUS` and reads `STATUS` exactly when that reading has `TX_EMPTY` clear; every
iteration but the last saw `TX_EMPTY` clear and `MAX_RT` clear; the last saw `TX_EMPTY` set or
`MAX_RT` set. The only chip-enable events are the first and the last one. -/
theorem drain_postcondition (c : Chip σ) (h : Header) (fuel : Nat) (w w1 : World σ)
    (hret : nrf_send_all c h fuel w = some w1) :
    ∃ (ps : List Poll) (last : Poll),
      emitted w w1 =
        Event.ce true :: Event.delay 11 ::
          (((ps ++ [last]).map (Poll.events h)).flatten ++ [Event.ce false]) ∧
      (∀ p ∈ ps ++ [last], p.ordered h = true) ∧
      (∀ p ∈ ps, p.txEmpty h = false ∧ p.maxRt h = false) ∧
      (last.txEmpty h = true ∨ last.maxRt h = true) ∧
      (emitted w w1).filter Event.isCe = [Event.ce true, Event.ce false] ∧
      w1.cePin = false := by
  rw [nrf_send_all] at hret
  cases hloop : nrf_send_all_loop c h fuel (delay_us c 11 (ce c 1 w)) with
  | none => rw [hloop] at hret; simp at hret
  | some w2 =>
    rw [hloop] at hret
    simp only [Option.map_some', Option.some.injEq] at hret
    subst hret
    obtain ⟨ps, last, ht, ho, hp, hl, _⟩ := nrf_send_all_loop_trace c h fuel _ w2 hloop
    have hem : emitted w (ce c 0 w2) =
        Event.ce true :: Event.delay 11 ::
          (((ps ++ [last]).map (Poll.events h)).flatten ++ [Event.ce false]) := by
      apply emitted_of_append
      simp [ce, delay_us, ht, u8]
    refine ⟨ps, last, hem, ho, hp, hl, ?_, ?_⟩
    · rw [hem]
      exact filter_isCe_drain _ (filter_isCe_polls h _)
    · simp [ce, u8]

/-- Witness of C11: a stream of replies whose sixth byte, the second `FIFO_STATUS` reading,
has `TX_EMPTY` set; two iterations are made. -/
theorem drain_postcondition_witness :
    nrf_send_all (streamChip (fun k => if k = 5 then 0x10 else 0)) nRF24L01 2 (World.init 0) =
      some { chip := 6, csnPin := true, cePin := false,
             trace := [Event.ce true, Event.delay 11,
               Event.csn false, Event.xfer 23 0, Event.xfer 255 0, Event.csn true,
               Event.csn false, Event.xfer 7 0, Event.xfer 255 0, Event.csn true,
               Event.csn false, Event.xfer 23 0, Event.xfer 255 16, Event.csn true,
               Event.ce false],
             loads := [] } ∧
    ∃ (ps : List Poll) (last : Poll),
      emitted (World.init 0)
          { chip := 6, csnPin := true, cePin := false,
            trace := [Event.ce true, Event.delay 11,
              Event.csn false, Event.xfer 23 0, Event.xfer 255 0, Event.csn true,
              Event.csn false, Event.xfer 7 0, Event.xfer 255 0, Event.csn true,
              Event.csn false, Event.xfer 23 0, Event.xfer 255 16, Event.csn true,
              Event.ce false],
            loads := [] } =
        Event.ce true :: Event.delay 11 ::
          (((ps ++ [last]).map (Poll.events nRF24L01)).flatten ++ [Event.ce false]) ∧
      (∀ p ∈ ps ++ [last], p.ordered nRF24L01 = true) ∧
      (∀ p ∈ ps, p.txEmpty nRF24L01 = false ∧ p.maxRt nRF24L01 = false) ∧
      (last.txEmpty nRF24L01 = true ∨ last.maxRt nRF24L01 = true) ∧
      (emitted (World.init 0)
          { chip := 6, csnPin := true, cePin := false,
            trace := [Event.ce true, Event.delay 11,
              Event.csn false, Event.xfer 23 0, Event.xfer 255 0, Event.csn true,
              Event.csn false, Event.xfer 7 0, Event.xfer 255 0, Event.csn true,
              Event.csn false, Event.xfer 23 0, Event.xfer 255 16, Event.csn true,
              Event.ce false],
            loads := [] }).filter Event.isCe = [Event.ce true, Event.ce false] ∧
      ({ chip := 6, csnPin := true, cePin := false,
         trace := [Event.ce true, Event.delay 11,
           Event.csn false, Event.xfer 23 0, Event.xfer 255 0, Event.csn true,
           Event.csn false, Event.xfer 7 0, Event.xfer 255 0, Event.csn true,
           Event.csn false, Event.xfer 23 0, Event.xfer 255 16, Event.csn true,
           Event.ce false],
         loads := [] } : World Nat).cePin = false :=
  ⟨rfl,
   drain_postcondition (streamChip (fun k => if k = 5 then 0x10 else 0)) nRF24L01 2
     (World.init 0) _ rfl⟩

/-! ## C17: termination of the drain -/

theorem nrf_send_all_loop_isSome (c : Chip σ) (h : Header) (fuel : Nat) (w : World σ) :
    (nrf_send_all_loop c h fuel w).isSome = true ↔
      ∃ k, k < fuel ∧ (∀ j, j < k → pollExits c h (pollRun c h j w) = false) ∧
        pollExits c h (pollRun c h k w) = true := by
  induction fuel generalizing w with
  | zero => simp [nrf_send_all_loop]
  | succ fuel ih =>
    rw [nrf_send_all_loop_succ]
    by_cases he : pollExits c h w = true
    · rw [if_pos he]
      simp only [Option.isSome_some, true_iff]
      exact ⟨0, Nat.succ_pos _, fun j hj => absurd hj (Nat.not_lt_zero j), he⟩
    · rw [if_neg he, ih]
      have he' : pollExits c h w = false := by simpa using he
      constructor
      · rintro ⟨k, hk, hmin, hex⟩
        refine ⟨k + 1, Nat.succ_lt_succ hk, ?_, hex⟩
        intro j hj
        cases j with
        | zero => exact he'
        | succ j => exact hmin j (Nat.lt_of_succ_lt_succ hj)
      · rintro ⟨k, hk, hmin, hex⟩
        cases k with
        | zero => exact absurd hex he
        | succ k =>
          exact ⟨k, Nat.lt_of_succ_lt_succ hk,
            fun j hj => hmin (j + 1) (Nat.succ_lt_succ hj), hex⟩

theorem pollRun_cePin (c : Chip σ) (h : Header) (k : Nat) (w : World σ) :
    (pollRun c h k w).cePin = w.cePin := by
  induction k generalizing w with
  | zero => rfl
  | succ k ih => rw [pollRun, ih, pollStep, read_reg_cePin, read_reg_cePin]

theorem pollRun_trace (c : Chip σ) (h : Header) (k : Nat) (w : World σ) :
    ∃ xs, (pollRun c h k w).trace = w.trace ++ xs ∧ xs.filter Event.isCe = [] := by
  induction k generalizing w with
  | zero => exact ⟨[], by simp [pollRun], rfl⟩
  | succ k ih =>
    obtain ⟨xs, hx, hf⟩ := ih (pollStep c h w)
    refine ⟨readEvents h h.FIFO_STATUS (cmdReply c h h.FIFO_STATUS w)
        (read_reg c h h.FIFO_STATUS w).1 ++
      (readEvents h h.NRF_STATUS (cmdReply c h h.NRF_STATUS (read_reg c h h.FIFO_STATUS w).2)
        (read_reg c h h.NRF_STATUS (read_reg c h h.FIFO_STATUS w).2).1 ++ xs), ?_, ?_⟩
    · rw [pollRun, hx, pollStep, read_reg_trace, read_reg_trace, List.append_assoc,
        List.append_assoc]
    · rw [List.filter_append, List.filter_append, filter_isCe_readEvents,
        filter_isCe_readEvents, hf]
      rfl

/-- C17. For every chip (in particular every stream of replies), `nrf_send_all` terminates
if and only if some poll iteration receives a `FIFO_STATUS` reading with `TX_EMPTY` set or a
`STATUS` reading with `MAX_RT` set; when the first such iteration is iteration `k` (counted
from 0), the call returns exactly when more than `k` iterations are allowed. If no iteration
ever reports a flag, the loop never exits, chip-enable stays high and is never written
low. -/
theorem drain_termination (c : Chip σ) (h : Header) (w : World σ) :
    ((∃ fuel w1, nrf_send_all c h fuel w = some w1) ↔
      ∃ k, (∀ j, j < k →
          pollExits c h (pollRun c h j (delay_us c 11 (ce c 1 w))) = false) ∧
        pollExits c h (pollRun c h k (delay_us c 11 (ce c 1 w))) = true) ∧
    (∀ k, (∀ j, j < k →
          pollExits c h (pollRun c h j (delay_us c 11 (ce c 1 w))) = false) →
        pollExits c h (pollRun c h k (delay_us c 11 (ce c 1 w))) = true →
        ∀ fuel, (nrf_send_all c h fuel w).isSome = decide (k < fuel)) ∧
    ((∀ k, pollExits c h (pollRun c h k (delay_us c 11 (ce c 1 w))) = false) →
      (∀ fuel, nrf_send_all c h fuel w = none) ∧
      ∀ k, (pollRun c h k (delay_us c 11 (ce c 1 w))).cePin = true ∧
        Event.ce false ∉ emitted w (pollRun c h k (delay_us c 11 (ce c 1 w)))) := by
  have hsome : ∀ fuel, (nrf_send_all c h fuel w).isSome =
      (nrf_send_all_loop c h fuel (delay_us c 11 (ce c 1 w))).isSome := by
    intro fuel
    rw [nrf_send_all]
    cases nrf_send_all_loop c h fuel (delay_us c 11 (ce c 1 w)) <;> rfl
  refine ⟨?_, ?_, ?_⟩
  · constructor
    · rintro ⟨fuel, w1, hret⟩
      have : (nrf_send_all c h fuel w).isSome = true := by rw [hret]; rfl
      rw [hsome, nrf_send_all_loop_isSome] at this
      obtain ⟨k, _, hmin, hex⟩ := this
      exact ⟨k, hmin, hex⟩
    · rintro ⟨k, hmin, hex⟩
      have : (nrf_send_all c h (k + 1) w).isSome = true := by
        rw [hsome, nrf_send_all_loop_isSome]
        exact ⟨k, Nat.lt_succ_self k, hmin, hex⟩
      obtain ⟨w1, hw1⟩ := Option.isSome_iff_exists.1 this
      exact ⟨k + 1, w1, hw1⟩
  · intro k hmin hex fuel
    rw [hsome]
    by_cases hk : k < fuel
    · rw [decide_eq_true hk, nrf_send_all_loop_isSome]
      exact ⟨k, hk, hmin, hex⟩
    · rw [decide_eq_false hk]
      cases hs : (nrf_send_all_loop c h fuel (delay_us c 11 (ce c 1 w))).isSome with
      | false => rfl
      | true =>
        obtain ⟨k2, hk2, hmin2, hex2⟩ := (nrf_send_all_loop_isSome c h fuel _).1 hs
        exfalso
        rcases Nat.lt_trichotomy k2 k with hlt | heq | hgt
        · rw [hmin k2 hlt] at hex2
          exact Bool.noConfusion hex2
        · subst heq; exact hk hk2
        · rw [hmin2 k hgt] at hex
          exact Bool.noConfusion hex
  · intro hnever
    refine ⟨?_, ?_⟩
    · intro fuel
      cases hs : (nrf_send_all c h fuel w).isSome with
      | false => simpa using hs
      | true =>
        rw [hsome, nrf_send_all_loop_isSome] at hs
        obtain ⟨k, _, _, hex⟩ := hs
        rw [hnever k] at hex
        exact Bool.noConfusion hex
    · intro k
      refine ⟨?_, ?_⟩
      · rw [pollRun_cePin]
        simp [delay_us, ce, u8]
      · obtain ⟨xs, hx, hf⟩ := pollRun_trace c h k (delay_us c 11 (ce c 1 w))
        have hem : emitted w (pollRun c h k (delay_us c 11 (ce c 1 w))) =
            Event.ce true :: Event.delay 11 :: xs := by
          apply emitted_of_append
          rw [hx]
          simp [delay_us, ce, u8]
        rw [hem]
        intro hmem
        rcases List.mem_cons.1 hmem with hmem | hmem
        · exact Event.noConfusion hmem (fun e => Bool.noConfusion e)
        · rcases List.mem_cons.1 hmem with hmem | hmem
          · exact Event.noConfusion hmem
          · have : Event.ce false ∈ xs.filter Event.isCe :=
              List.mem_filter.2 ⟨hmem, rfl⟩
            rw [hf] at this
            exact absurd this (List.not_mem_nil _)

/-- Witness of C17: on the stream of replies whose sixth byte has `TX_EMPTY` set, the first
iteration stays in the loop, the second leaves it, and the call returns. -/
theorem drain_termination_witness :
    ((∀ j, j < 1 →
        pollExits (streamChip (fun k => if k = 5 then 0x10 else 0)) nRF24L01
          (pollRun (streamChip (fun k => if k = 5 then 0x10 else 0)) nRF24L01 j
            (delay_us (streamChip (fun k => if k = 5 then 0x10 else 0)) 11
              (ce (streamChip (fun k => if k = 5 then 0x10 else 0)) 1 (World.init 0)))) =
          false) ∧
      pollExits (streamChip (fun k => if k = 5 then 0x10 else 0)) nRF24L01
        (pollRun (streamChip (fun k => if k = 5 then 0x10 else 0)) nRF24L01 1
          (delay_us (streamChip (fun k => if k = 5 then 0x10 else 0)) 11
            (ce (streamChip (fun k => if k = 5 then 0x10 else 0)) 1 (World.init 0)))) =
        true) ∧
    ∃ fuel w1,
      nrf_send_all (streamChip (fun k => if k = 5 then 0x10 else 0)) nRF24L01 fuel
        (World.init 0) = some w1 :=
  ⟨⟨fun j hj => by
      have hj0 : j = 0 := by omega
      subst hj0
      rfl, rfl⟩,
   (drain_termination (streamChip (fun k => if k = 5 then 0x10 else 0)) nRF24L01
      (World.init 0)).1.2
     ⟨1, fun j hj => by
        have hj0 : j = 0 := by omega
        subst hj0
        rfl, rfl⟩⟩

/-! ## C15: the chip-enable line -/

theorem ceFree_cons (e : Event) (es : List Event) :
    ceFree (e :: es) = (!e.isCe && ceFree es) := by
  simp only [ceFree, List.all_cons]

theorem ceFree_append (xs ys : List Event) :
    ceFree (xs ++ ys) = (ceFree xs && ceFree ys) := by
  simp only [ceFree, List.all_append]

theorem ceFree_zipWith (sent recv : List Nat) :
    ceFree (List.zipWith Event.xfer sent recv) = true := by
  induction sent generalizing recv with
  | nil => rfl
  | cons x xs ih =>
    cases recv with
    | nil => rfl
    | cons y ys =>
      rw [List.zipWith_cons_cons, ceFree_cons, ih ys]
      rfl

theorem ceFree_bracket (sent recv : List Nat) : ceFree (bracket sent recv) = true := by
  rw [bracket, ceFree_cons, ceFree_append, ceFree_zipWith]
  rfl

theorem ceUntouched_transaction (c : Chip σ) (sent : List Nat) (ls : List Load)
    (w : World σ) : CeUntouched w (logLoads ls (transaction c sent w).2) := by
  refine ⟨?_, rfl⟩
  rw [emitted_logLoads, emitted_transaction]
  exact ceFree_bracket _ _

theorem isCe_erase (e : Event) : e.erase.isCe = e.isCe := by
  cases e <;> rfl

theorem ceFree_outs (es : List Event) : ceFree (outs es) = ceFree es := by
  induction es with
  | nil => rfl
  | cons e es ih =>
    have : outs (e :: es) = e.erase :: outs es := rfl
    rw [this, ceFree_cons, ceFree_cons, ih, isCe_erase]

theorem ceFree_quiet (sent : List Nat) : ceFree (quiet sent) = true := by
  have hx : ∀ s : List Nat, ceFree (s.map (fun x => Event.xfer x 0)) = true := by
    intro s
    induction s with
    | nil => rfl
    | cons x xs ih =>
      rw [List.map_cons, ceFree_cons, ih]
      rfl
  rw [quiet, ceFree_cons, ceFree_append, hx]
  rfl

theorem ceFree_script (fs : List (List Nat)) (rest : List Event) (hr : ceFree rest = true) :
    ceFree (script fs ++ rest) = true := by
  induction fs with
  | nil => simpa [script] using hr
  | cons f fs ih =>
    rw [script_cons, List.append_assoc, ceFree_append, ceFree_quiet, ih]
    rfl

@[simp] theorem write_reg_cePin (c : Chip σ) (h : Header) (reg data : Nat) (w : World σ) :
    (write_reg c h reg data w).2.cePin = w.cePin := by
  rw [write_reg_eq]; rfl

@[simp] theorem write_buf_cePin (c : Chip σ) (h : Header) (reg : Nat) (buf : Buf) (len : Nat)
    (w : World σ) : (write_buf c h reg buf len w).2.cePin = w.cePin := by
  rw [write_buf_eq]; rfl

@[simp] theorem spi_command_cePin (c : Chip σ) (command : Nat) (w : World σ) :
    (spi_command c command w).2.cePin = w.cePin := by
  rw [spi_command_eq]; rfl

@[simp] theorem delay_us_cePin (c : Chip σ) (n : Nat) (w : World σ) :
    (delay_us c n w).cePin = w.cePin := rfl

theorem nrf_setup_cePin (c : Chip σ) (h : Header) (b : Build) (m : Stack) (device_num : Nat)
    (w : World σ) : (nrf_setup c h b m device_num w).cePin = w.cePin := by
  have hp : ∀ (on_ : Bool) (w : World σ), (nrf_power_set c h b on_ w).cePin = w.cePin := by
    intro on_ w
    cases hm : b.MASTER_DEVICE <;> simp [nrf_power_set, hm]
  have hack : ∀ (d f : Nat) (w : World σ), (nrf_setup_ack c h b d f w).2.cePin = w.cePin := by
    intro d f w
    cases ha : b.USE_AUTO_ACK <;> cases hm : b.MASTER_DEVICE <;> by_cases hd : d = 0 <;>
      simp [nrf_setup_ack, ha, hm, hd]
  have haw : ∀ (w : World σ), (nrf_setup_aw c h b w).cePin = w.cePin := by
    intro w
    unfold nrf_setup_aw
    split_ifs <;> simp
  have hpipes : ∀ (d : Nat) (w : World σ), (nrf_setup_pipes c h b m d w).cePin = w.cePin := by
    intro d w
    cases hm : b.MASTER_DEVICE <;> simp [nrf_setup_pipes, hm]
  simp [nrf_setup, hp, hack, haw, hpipes]

theorem ceUntouched_nrf_setup (c : Chip σ) (h : Header) (b : Build) (m : Stack)
    (device_num : Nat) (w : World σ) : CeUntouched w (nrf_setup c h b m device_num w) := by
  refine ⟨?_, nrf_setup_cePin c h b m device_num w⟩
  rw [← ceFree_outs, outs_emitted w _ _ (outs_nrf_setup c h b m device_num w)]
  exact ceFree_script _ _ rfl

/-- C15. `nrf_send_one` emits exactly chip-enable high, an 11 microsecond delay, chip-enable
low (no byte exchange, no status read) and leaves chip-enable low. `nrf_setup`,
`nrf_load_tx_fifo`, `nrf_read_rx_fifo`, `nrf_clear_flags`, `nrf_rx_pipe_number` and the
register-access operations emit no chip-enable event and leave the pin as it was;
`nrf_send_all` leaves it low whenever it returns. So chip-enable is low after every driver
operation when it was low before. -/
theorem chip_enable_discipline (c : Chip σ) (h : Header) (b : Build) (m : Stack)
    (reg data command device_num len : Nat) (buf : Buf) (w : World σ) :
    emitted w (nrf_send_one c w) = [Event.ce true, Event.delay 11, Event.ce false] ∧
    (nrf_send_one c w).cePin = false ∧
    CeUntouched w (nrf_setup c h b m device_num w) ∧
    CeUntouched w (nrf_load_tx_fifo c h b buf len w).2 ∧
    CeUntouched w (nrf_read_rx_fifo c h len w).2 ∧
    CeUntouched w (nrf_clear_flags c h w) ∧
    CeUntouched w (nrf_rx_pipe_number c h w).2 ∧
    CeUntouched w (read_buf c h reg len w).2 ∧
    CeUntouched w (read_reg c h reg w).2 ∧
    CeUntouched w (write_buf c h reg buf len w).2 ∧
    CeUntouched w (write_reg c h reg data w).2 ∧
    CeUntouched w (spi_command c command w).2 ∧
    (∀ fuel w1, nrf_send_all c h fuel w = some w1 → w1.cePin = false) := by
  refine ⟨?_, ?_, ceUntouched_nrf_setup c h b m device_num w, ?_, ?_, ?_, ?_, ?_, ?_, ?_, ?_,
    ?_, ?_⟩
  · apply emitted_of_append
    simp [nrf_send_one, ce, delay_us, u8]
  · simp [nrf_send_one, ce, u8]
  · rw [nrf_load_tx_fifo_eq]; exact ceUntouched_transaction c _ _ w
  · rw [nrf_read_rx_fifo_eq]; exact ceUntouched_transaction c _ [] w
  · rw [nrf_clear_flags, write_reg_eq]; exact ceUntouched_transaction c _ _ w
  · rw [nrf_rx_pipe_number, read_reg_eq]; exact ceUntouched_transaction c _ [] w
  · rw [read_buf_eq]; exact ceUntouched_transaction c _ [] w
  · rw [read_reg_eq]; exact ceUntouched_transaction c _ [] w
  · rw [write_buf_eq]; exact ceUntouched_transaction c _ _ w
  · rw [write_reg_eq]; exact ceUntouched_transaction c _ _ w
  · rw [spi_command_eq]; exact ceUntouched_transaction c _ [] w
  · intro fuel w1 hret
    rw [nrf_send_all] at hret
    cases hloop : nrf_send_all_loop c h fuel (delay_us c 11 (ce c 1 w)) with
    | none => rw [hloop] at hret; simp at hret
    | some w2 =>
      rw [hloop] at hret
      simp only [Option.map_some', Option.some.injEq] at hret
      subst hret
      simp [ce, u8]

/-! ## C18: the configuration is open loop -/

/-- C18. For a fixed build configuration, stack content and `device_num`, what `nrf_setup`
puts on the transport (chip-select levels, bytes sent, delays) is the same for every chip,
whatever bytes it returns and whatever was done before; every transaction is a write of one
of the registers or a flush, so no register is read back: with `R_REGISTER = 0x00`,
`REGISTER_MASK = 0x1F` and the other command bytes at `0x20` or above, no transaction is a
register read. -/
theorem open_loop_configuration {τ : Type} (c : Chip σ) (c2 : Chip τ) (h : Header) (b : Build)
    (m : Stack) (device_num : Nat) (w : World σ) (w2 : World τ) :
    outs (emitted w (nrf_setup c h b m device_num w)) =
      outs (emitted w2 (nrf_setup c2 h b m device_num w2)) ∧
    outs (emitted w (nrf_setup c h b m device_num w)) =
      script (frames (emitted w (nrf_setup c h b m device_num w))) ++ [Event.delay 100] ∧
    (∀ f ∈ frames (emitted w (nrf_setup c h b m device_num w)),
      ∃ x ∈ h.commands, f.head? = some x) ∧
    (h.R_REGISTER = 0x00 → h.REGISTER_MASK = 0x1F → (∀ x ∈ h.commands, 0x20 ≤ x) →
      ∀ f ∈ frames (emitted w (nrf_setup c h b m device_num w)),
        ∀ reg, f.head? ≠ some (rcmd h reg)) := by
  have hA := outs_emitted w _ _ (outs_nrf_setup c h b m device_num w)
  have hB := outs_emitted w2 _ _ (outs_nrf_setup c2 h b m device_num w2)
  have hfr := (frames_nrf_setup c h b m device_num w).1
  have hheads : ∀ f ∈ frames (emitted w (nrf_setup c h b m device_num w)),
      ∃ x ∈ h.commands, f.head? = some x := by
    rw [hfr]
    intro f hf
    simp only [setupFrames, List.mem_cons, List.mem_append, List.mem_singleton,
      List.not_mem_nil, or_false] at hf
    rcases hf with rfl | hf | rfl
    · exact ⟨wcmd h h.CONFIG, by simp [Header.commands], rfl⟩
    · have := setupMiddle_heads h b m device_num f hf
      simp only [List.mem_cons, List.mem_singleton, List.not_mem_nil, or_false] at this
      rcases this with e | e | e | e | e | e | e | e | e | e | e | e | e | e | e | e <;>
        exact ⟨_, by simp [Header.commands], e⟩
    · exact ⟨wcmd h h.CONFIG, by simp [Header.commands], rfl⟩
  refine ⟨by rw [hA, hB], by rw [hA, hfr], hheads, ?_⟩
  intro hR hM hge f hf reg hread
  obtain ⟨x, hx, hxf⟩ := hheads f hf
  rw [hxf] at hread
  have hx32 := hge x hx
  have : rcmd h reg < 0x20 := by
    rw [rcmd, hR, hM, and_31, Nat.zero_or]
    have hm : u8 reg % 32 < 32 := Nat.mod_lt _ (by decide)
    rw [u8_of_lt (by omega)]
    exact hm
  have hxe : x = rcmd h reg := Option.some.inj hread
  omega

/-! ## C13: auto-ack off -/

/-- C13. When auto-ack is disabled, for either role and every `device_num`, `nrf_setup`
writes `0` to `EN_AA`, `0` to `SETUP_RETR` and writes `FEATURE` with exactly the bit
`EN_DYN_ACK` set; when it is enabled it writes `FEATURE = 0`. In both cases `FEATURE` is
written exactly once, right after `DYNPD = 0` and right before the two flush commands. -/
theorem auto_ack_off (c : Chip σ) (h : Header) (b : Build) (m : Stack) (device_num : Nat)
    (w : World σ) (hd : h.commands.Nodup) (hbit : h.EN_DYN_ACK < 8) :
    (b.USE_AUTO_ACK = false →
      writesTo h h.EN_AA (frames (emitted w (nrf_setup c h b m device_num w))) =
        [[wcmd h h.EN_AA, 0]] ∧
      writesTo h h.SETUP_RETR (frames (emitted w (nrf_setup c h b m device_num w))) =
        [[wcmd h h.SETUP_RETR, 0]] ∧
      ∃ v, writesTo h h.FEATURE (frames (emitted w (nrf_setup c h b m device_num w))) =
          [[wcmd h h.FEATURE, v]] ∧
        ∀ i, v.testBit i = true ↔ i = h.EN_DYN_ACK) ∧
    (b.USE_AUTO_ACK = true →
      writesTo h h.FEATURE (frames (emitted w (nrf_setup c h b m device_num w))) =
        [[wcmd h h.FEATURE, 0]]) ∧
    (∃ pre v on_,
      frames (emitted w (nrf_setup c h b m device_num w)) =
        pre ++ [[wcmd h h.DYNPD, 0], [wcmd h h.FEATURE, v], [u8 h.FLUSH_RX], [u8 h.FLUSH_TX],
          [wcmd h h.CONFIG, on_]] ∧
      writesTo h h.FEATURE (frames (emitted w (nrf_setup c h b m device_num w))) =
        [[wcmd h h.FEATURE, v]]) := by
  have hfr := (frames_nrf_setup c h b m device_num w).1
  have hfeat : writesTo h h.FEATURE (frames (emitted w (nrf_setup c h b m device_num w))) =
      [[wcmd h h.FEATURE, featuresByte h b]] := by
    have hne := commands_ne h hd 14 (by simp [Header.commands])
    simp only [Header.commands, List.eraseIdx, List.mem_cons, List.mem_singleton,
      List.not_mem_nil, or_false, forall_eq_or_imp, forall_eq, List.getElem_cons_succ,
      List.getElem_cons_zero] at hne
    rw [hfr]
    unfold setupFrames setupMiddle ackFrames awFrames pipeFrames
    split_ifs <;> simp [writesTo_append, writesTo_cons, hne]
  refine ⟨?_, ?_, ?_⟩
  · intro ha
    refine ⟨?_, ?_, u8 (1 <<< h.EN_DYN_ACK), ?_, fun i => testBit_one_bit _ i hbit⟩
    · have hne := commands_ne h hd 1 (by simp [Header.commands])
      simp only [Header.commands, List.eraseIdx, List.mem_cons, List.mem_singleton,
        List.not_mem_nil, or_false, forall_eq_or_imp, forall_eq, List.getElem_cons_succ,
        List.getElem_cons_zero] at hne
      rw [hfr]
      simp only [setupFrames, setupMiddle, ackFrames, awFrames, pipeFrames, ha,
        Bool.false_eq_true, if_false]
      split_ifs <;> simp [writesTo_append, writesTo_cons, hne]
    · have hne := commands_ne h hd 4 (by simp [Header.commands])
      simp only [Header.commands, List.eraseIdx, List.mem_cons, List.mem_singleton,
        List.not_mem_nil, or_false, forall_eq_or_imp, forall_eq, List.getElem_cons_succ,
        List.getElem_cons_zero] at hne
      rw [hfr]
      simp only [setupFrames, setupMiddle, ackFrames, awFrames, pipeFrames, ha,
        Bool.false_eq_true, if_false]
      split_ifs <;> simp [writesTo_append, writesTo_cons, hne]
    · rw [hfeat, featuresByte, ha]
      simp
  · intro ha
    rw [hfeat, featuresByte, ha]
    simp
  · refine ⟨[wcmd h h.CONFIG, configByte h b false] ::
        (ackFrames h b (u8 device_num) ++
          [[wcmd h h.RF_CH, 0x02], [wcmd h h.RF_SETUP, rfSetupByte h b]] ++
          awFrames h b ++ [[wcmd h h.NRF_STATUS, 0xff]] ++ pipeFrames h b m (u8 device_num)),
      featuresByte h b, configByte h b true, ?_, hfeat⟩
    rw [hfr]
    simp [setupFrames, setupMiddle]

/-- Witness of C13: a slave build without auto-ack, device 1, nRF24L01 header. -/
theorem auto_ack_off_witness :
    (nRF24L01.commands.Nodup ∧ nRF24L01.EN_DYN_ACK < 8) ∧
    (((Build.demo false false 5).USE_AUTO_ACK = false →
      writesTo nRF24L01 nRF24L01.EN_AA
          (frames (emitted (World.init RegFile.empty)
            (nrf_setup registerFile nRF24L01 (Build.demo false false 5) Stack.demo 1
              (World.init RegFile.empty)))) =
        [[wcmd nRF24L01 nRF24L01.EN_AA, 0]] ∧
      writesTo nRF24L01 nRF24L01.SETUP_RETR
          (frames (emitted (World.init RegFile.empty)
            (nrf_setup registerFile nRF24L01 (Build.demo false false 5) Stack.demo 1
              (World.init RegFile.empty)))) =
        [[wcmd nRF24L01 nRF24L01.SETUP_RETR, 0]] ∧
      ∃ v, writesTo nRF24L01 nRF24L01.FEATURE
            (frames (emitted (World.init RegFile.empty)
              (nrf_setup registerFile nRF24L01 (Build.demo false false 5) Stack.demo 1
                (World.init RegFile.empty)))) =
          [[wcmd nRF24L01 nRF24L01.FEATURE, v]] ∧
        ∀ i, v.testBit i = true ↔ i = nRF24L01.EN_DYN_ACK) ∧
    ((Build.demo false false 5).USE_AUTO_ACK = true →
      writesTo nRF24L01 nRF24L01.FEATURE
          (frames (emitted (World.init RegFile.empty)
            (nrf_setup registerFile nRF24L01 (Build.demo false false 5) Stack.demo 1
              (World.init RegFile.empty)))) =
        [[wcmd nRF24L01 nRF24L01.FEATURE, 0]]) ∧
    (∃ pre v on_,
      frames (emitted (World.init RegFile.empty)
          (nrf_setup registerFile nRF24L01 (Build.demo false false 5) Stack.demo 1
            (World.init RegFile.empty))) =
        pre ++ [[wcmd nRF24L01 nRF24L01.DYNPD, 0], [wcmd nRF24L01 nRF24L01.FEATURE, v],
          [u8 nRF24L01.FLUSH_RX], [u8 nRF24L01.FLUSH_TX],
          [wcmd nRF24L01 nRF24L01.CONFIG, on_]] ∧
      writesTo nRF24L01 nRF24L01.FEATURE
          (frames (emitted (World.init RegFile.empty)
            (nrf_setup registerFile nRF24L01 (Build.demo false false 5) Stack.demo 1
              (World.init RegFile.empty)))) =
        [[wcmd nRF24L01 nRF24L01.FEATURE, v]])) :=
  ⟨⟨by decide, by decide⟩,
   auto_ack_off registerFile nRF24L01 (Build.demo false false 5) Stack.demo 1
     (World.init RegFile.empty) (by decide) (by decide)⟩

/-! ## C14: radio parameters -/

theorem testBit_rfSetupByte (h : Header) (b : Build) (i : Nat) :
    (rfSetupByte h b).testBit i =
      (decide (i < 8) && (decide (h.RF_DR_HIGH = i) ||
        (decide (b.RF_PWR_LEVEL < h.RF_PWR) && decide (i = 0)))) := by
  rw [rfSetupByte, testBit_u8, Nat.testBit_or, Nat.testBit_or, testBit_one_shiftLeft,
    Nat.zero_shiftLeft]
  by_cases hp : b.RF_PWR_LEVEL < h.RF_PWR
  · have e : (if b.RF_PWR_LEVEL < h.RF_PWR then 1 else 0 : Nat) = 1 <<< 0 := by simp [hp]
    rw [e, testBit_one_shiftLeft]
    simp [hp, eq_comm]
  · simp [hp]

/-- C14. For every role, auto-ack setting, `device_num` and `RF_PWR_LEVEL`, `nrf_setup` writes
`2` to `RF_CH` and writes `RF_SETUP` with a value that has `RF_DR_HIGH` set, `RF_DR_LOW`
clear and the two-bit power field that starts at bit `RF_PWR` equal to 0 (2 Mbps at
-18 dBm). The header is any one with distinct command bytes in which `RF_DR_HIGH` is below 8
and outside the power field and `RF_DR_LOW` is neither `RF_DR_HIGH` nor bit 0. -/
theorem radio_parameters (c : Chip σ) (h : Header) (b : Build) (m : Stack) (device_num : Nat)
    (w : World σ) (hd : h.commands.Nodup) (hH : h.RF_DR_HIGH < 8)
    (hHL : h.RF_DR_LOW ≠ h.RF_DR_HIGH) (hL0 : h.RF_DR_LOW ≠ 0)
    (hP : h.RF_DR_HIGH ≠ h.RF_PWR) (hP1 : h.RF_DR_HIGH ≠ h.RF_PWR + 1) :
    writesTo h h.RF_CH (frames (emitted w (nrf_setup c h b m device_num w))) =
      [[wcmd h h.RF_CH, 2]] ∧
    ∃ v, writesTo h h.RF_SETUP (frames (emitted w (nrf_setup c h b m device_num w))) =
        [[wcmd h h.RF_SETUP, v]] ∧
      v.testBit h.RF_DR_HIGH = true ∧ v.testBit h.RF_DR_LOW = false ∧
      v.testBit h.RF_PWR = false ∧ v.testBit (h.RF_PWR + 1) = false := by
  have hfr := (frames_nrf_setup c h b m device_num w).1
  refine ⟨?_, rfSetupByte h b, ?_, ?_, ?_, ?_, ?_⟩
  · have hne := commands_ne h hd 5 (by simp [Header.commands])
    simp only [Header.commands, List.eraseIdx, List.mem_cons, List.mem_singleton,
      List.not_mem_nil, or_false, forall_eq_or_imp, forall_eq, List.getElem_cons_succ,
      List.getElem_cons_zero] at hne
    rw [hfr]
    unfold setupFrames setupMiddle ackFrames awFrames pipeFrames
    split_ifs <;> simp [writesTo_append, writesTo_cons, hne]
  · have hne := commands_ne h hd 6 (by simp [Header.commands])
    simp only [Header.commands, List.eraseIdx, List.mem_cons, List.mem_singleton,
      List.not_mem_nil, or_false, forall_eq_or_imp, forall_eq, List.getElem_cons_succ,
      List.getElem_cons_zero] at hne
    rw [hfr]
    unfold setupFrames setupMiddle ackFrames awFrames pipeFrames
    split_ifs <;> simp [writesTo_append, writesTo_cons, hne]
  · rw [testBit_rfSetupByte]
    simp [hH]
  · rw [testBit_rfSetupByte]
    have e : ¬ (h.RF_DR_HIGH = h.RF_DR_LOW) := fun e => hHL e.symm
    simp [e, hL0]
  · rw [testBit_rfSetupByte]
    by_cases hp : b.RF_PWR_LEVEL < h.RF_PWR
    · have : ¬ (h.RF_PWR = 0) := by omega
      simp [hP, this]
    · simp [hP, hp]
  · rw [testBit_rfSetupByte]
    simp [hP1]

/-- Witness of C14: the nRF24L01 header, on which the comparison of line 144 sets bit 0 of
the value for power level 0. -/
theorem radio_parameters_witness :
    (nRF24L01.commands.Nodup ∧ nRF24L01.RF_DR_HIGH < 8 ∧
      nRF24L01.RF_DR_LOW ≠ nRF24L01.RF_DR_HIGH ∧ nRF24L01.RF_DR_LOW ≠ 0 ∧
      nRF24L01.RF_DR_HIGH ≠ nRF24L01.RF_PWR ∧ nRF24L01.RF_DR_HIGH ≠ nRF24L01.RF_PWR + 1) ∧
    (writesTo nRF24L01 nRF24L01.RF_CH
        (frames (emitted (World.init RegFile.empty)
          (nrf_setup registerFile nRF24L01 (Build.demo true true 5) Stack.demo 0
            (World.init RegFile.empty)))) =
      [[wcmd nRF24L01 nRF24L01.RF_CH, 2]] ∧
    ∃ v, writesTo nRF24L01 nRF24L01.RF_SETUP
          (frames (emitted (World.init RegFile.empty)
            (nrf_setup registerFile nRF24L01 (Build.demo true true 5) Stack.demo 0
              (World.init RegFile.empty)))) =
        [[wcmd nRF24L01 nRF24L01.RF_SETUP, v]] ∧
      v.testBit nRF24L01.RF_DR_HIGH = true ∧ v.testBit nRF24L01.RF_DR_LOW = false ∧
      v.testBit nRF24L01.RF_PWR = false ∧ v.testBit (nRF24L01.RF_PWR + 1) = false) :=
  ⟨⟨by decide, by decide, by decide, by decide, by decide, by decide⟩,
   radio_parameters registerFile nRF24L01 (Build.demo true true 5) Stack.demo 0
     (World.init RegFile.empty) (by decide) (by decide) (by decide) (by decide) (by decide)
     (by decide)⟩

/-! ## C19: bounds of the array reads of `nrf_setup` -/

@[simp] theorem write_reg_loads (c : Chip σ) (h : Header) (reg data : Nat) (w : World σ) :
    (write_reg c h reg data w).2.loads = w.loads ++ [Load.mk 1 0] := by
  rw [write_reg_eq]; rfl

@[simp] theorem write_buf_loads (c : Chip σ) (h : Header) (reg : Nat) (buf : Buf) (len : Nat)
    (w : World σ) :
    (write_buf c h reg buf len w).2.loads = w.loads ++ buf.reads 0 (u8 len) := by
  rw [write_buf_eq]; rfl

@[simp] theorem spi_command_loads (c : Chip σ) (command : Nat) (w : World σ) :
    (spi_command c command w).2.loads = w.loads := by
  rw [spi_command_eq]; rfl

@[simp] theorem delay_us_loads (c : Chip σ) (n : Nat) (w : World σ) :
    (delay_us c n w).loads = w.loads := rfl

theorem nrf_power_set_loads (c : Chip σ) (h : Header) (b : Build) (on_ : Bool) (w : World σ) :
    (nrf_power_set c h b on_ w).loads = w.loads ++ [Load.mk 1 0] := by
  cases hm : b.MASTER_DEVICE <;> simp [nrf_power_set, hm]

theorem nrf_setup_ack_loads (c : Chip σ) (h : Header) (b : Build) (d f : Nat) (w : World σ) :
    (nrf_setup_ack c h b d f w).2.loads = w.loads ++ [Load.mk 1 0, Load.mk 1 0] := by
  cases ha : b.USE_AUTO_ACK <;> cases hm : b.MASTER_DEVICE <;> by_cases hd : d = 0 <;>
    simp [nrf_setup_ack, ha, hm, hd]

theorem nrf_setup_aw_loads (c : Chip σ) (h : Header) (b : Build) (w : World σ) :
    ∃ xs, (nrf_setup_aw c h b w).loads = w.loads ++ xs ∧ ∀ l ∈ xs, l = Load.mk 1 0 := by
  unfold nrf_setup_aw
  split_ifs
  · exact ⟨[Load.mk 1 0], by simp, by simp⟩
  · exact ⟨[Load.mk 1 0], by simp, by simp⟩
  · exact ⟨[Load.mk 1 0], by simp, by simp⟩
  · exact ⟨[], by simp, by simp⟩

theorem nrf_setup_pipes_loads (c : Chip σ) (h : Header) (b : Build) (m : Stack) (d : Nat)
    (w : World σ) :
    (nrf_setup_pipes c h b m d w).loads = w.loads ++
      (if b.MASTER_DEVICE then
        Load.mk 1 0 :: ((slave_addr b m 0).reads 0 (u8 b.RF_ADDRESS_LEN) ++
          ((slave_addr b m 1).reads 0 (u8 b.RF_ADDRESS_LEN) ++
            (Load.mk 1 0 :: Load.mk 1 0 :: (zero_addr b m).reads 0 (u8 b.RF_ADDRESS_LEN))))
       else
        Load.mk 1 0 :: Load.mk 1 0 :: ((slave_addr b m d).reads 0 (u8 b.RF_ADDRESS_LEN) ++
          (slave_addr b m d).reads 0 (u8 b.RF_ADDRESS_LEN))) := by
  cases hm : b.MASTER_DEVICE <;> simp [nrf_setup_pipes, hm]

/-- The array reads of `nrf_setup`: reads of the one-byte argument of `write_reg` around the
reads of the address tables made by lines 156-172. -/
theorem nrf_setup_loaded (c : Chip σ) (h : Header) (b : Build) (m : Stack) (device_num : Nat)
    (w : World σ) :
    ∃ xs ys, (∀ l ∈ xs ++ ys, l = Load.mk 1 0) ∧
      loaded w (nrf_setup c h b m device_num w) = xs ++
        ((if b.MASTER_DEVICE then
          Load.mk 1 0 :: ((slave_addr b m 0).reads 0 (u8 b.RF_ADDRESS_LEN) ++
            ((slave_addr b m 1).reads 0 (u8 b.RF_ADDRESS_LEN) ++
              (Load.mk 1 0 :: Load.mk 1 0 :: (zero_addr b m).reads 0 (u8 b.RF_ADDRESS_LEN))))
         else
          Load.mk 1 0 :: Load.mk 1 0 ::
            ((slave_addr b m (u8 device_num)).reads 0 (u8 b.RF_ADDRESS_LEN) ++
              (slave_addr b m (u8 device_num)).reads 0 (u8 b.RF_ADDRESS_LEN))) ++ ys) := by
  obtain ⟨aw, haw, hawl⟩ := nrf_setup_aw_loads c h b
    (write_reg c h h.RF_SETUP
      ((0 <<< h.RF_DR_LOW) ||| (1 <<< h.RF_DR_HIGH) |||
        (if b.RF_PWR_LEVEL < h.RF_PWR then 1 else 0))
      (write_reg c h h.RF_CH 0x02
        (nrf_setup_ack c h b (u8 device_num) 0 (nrf_power_set c h b false w)).2).2).2
  refine ⟨[Load.mk 1 0, Load.mk 1 0, Load.mk 1 0, Load.mk 1 0, Load.mk 1 0] ++ aw ++
    [Load.mk 1 0], [Load.mk 1 0, Load.mk 1 0, Load.mk 1 0], ?_, ?_⟩
  · intro l hl
    rcases List.mem_append.1 hl with h1 | h1
    · rcases List.mem_append.1 h1 with h2 | h2
      · rcases List.mem_append.1 h2 with h3 | h3
        · simpa using h3
        · exact hawl l h3
      · simpa using h2
    · simpa using h1
  · have : (nrf_setup c h b m device_num w).loads = w.loads ++
        ([Load.mk 1 0, Load.mk 1 0, Load.mk 1 0, Load.mk 1 0, Load.mk 1 0] ++ aw ++
          [Load.mk 1 0] ++
        ((if b.MASTER_DEVICE then
          Load.mk 1 0 :: ((slave_addr b m 0).reads 0 (u8 b.RF_ADDRESS_LEN) ++
            ((slave_addr b m 1).reads 0 (u8 b.RF_ADDRESS_LEN) ++
              (Load.mk 1 0 :: Load.mk 1 0 :: (zero_addr b m).reads 0 (u8 b.RF_ADDRESS_LEN))))
         else
          Load.mk 1 0 :: Load.mk 1 0 ::
            ((slave_addr b m (u8 device_num)).reads 0 (u8 b.RF_ADDRESS_LEN) ++
              (slave_addr b m (u8 device_num)).reads 0 (u8 b.RF_ADDRESS_LEN))) ++
          [Load.mk 1 0, Load.mk 1 0, Load.mk 1 0])) := by
      simp only [nrf_setup, delay_us_loads, nrf_power_set_loads, spi_command_loads,
        write_reg_loads, nrf_setup_pipes_loads, haw, nrf_setup_ack_loads, List.append_assoc,
        List.cons_append, List.nil_append]
    rw [loaded, this, List.drop_left]

theorem mem_reads (buf : Buf) (n : Nat) (l : Load) (hl : l ∈ buf.reads 0 n) :
    ∃ k, k < n ∧ l = Load.mk buf.size k := by
  simp only [Buf.reads, List.mem_map, List.mem_range, Nat.zero_add] at hl
  obtain ⟨k, hk, rfl⟩ := hl
  exact ⟨k, hk, rfl⟩

/-- C19. With the rows of the address table and the zero address holding `RF_BUFFER_LEN`
bytes (at least 5 in the claim; any length here), every array read made by `nrf_setup` is in
bounds provided `RF_ADDRESS_LEN <= RF_BUFFER_LEN` and, in a slave build, `device_num < 2`.
In a slave build
with `device_num` in 2..255 the row `slave_addr[device_num]` lies outside the two-entry
table and, with a legal address width, reads out of bounds are made, although the
retry-delay branch treats `device_num` like any nonzero device (it writes `ARD = 0`). -/
theorem table_bounds (c : Chip σ) (h : Header) (b : Build) (m : Stack) (device_num : Nat)
    (w : World σ) :
    (b.RF_ADDRESS_LEN ≤ b.RF_BUFFER_LEN → (b.MASTER_DEVICE = false → device_num < 2) →
      ∀ l ∈ loaded w (nrf_setup c h b m device_num w), l.inBounds = true) ∧
    (b.MASTER_DEVICE = false → 2 ≤ device_num → device_num < 256 →
      (slave_addr b m device_num).size = 0 ∧
      (1 ≤ b.RF_ADDRESS_LEN → b.RF_ADDRESS_LEN < 256 →
        ∃ l ∈ loaded w (nrf_setup c h b m device_num w), l.inBounds = false) ∧
      (b.USE_AUTO_ACK = true →
        [wcmd h h.SETUP_RETR, u8 ((0 <<< h.ARD) ||| (b.MAX_RETRANSMIT <<< h.ARC))] ∈
          frames (emitted w (nrf_setup c h b m device_num w)))) := by
  obtain ⟨xs, ys, hone, hl⟩ := nrf_setup_loaded c h b m device_num w
  have hL := b.buffer_byte
  refine ⟨?_, ?_⟩
  · intro hW hdev l hmem
    have hWu : u8 b.RF_ADDRESS_LEN = b.RF_ADDRESS_LEN := u8_of_lt (by omega)
    rw [hl, hWu] at hmem
    have hin1 : (Load.mk 1 0).inBounds = true := by decide
    have hrow : ∀ n, n < 2 → ∀ l ∈ (slave_addr b m n).reads 0 b.RF_ADDRESS_LEN,
        l.inBounds = true := by
      intro n hn l hl1
      obtain ⟨k, hk, rfl⟩ := mem_reads _ _ _ hl1
      simp only [Load.inBounds, slave_addr, if_pos hn, decide_eq_true_eq]
      omega
    have hzero : ∀ l ∈ (zero_addr b m).reads 0 b.RF_ADDRESS_LEN, l.inBounds = true := by
      intro l hl1
      obtain ⟨k, hk, rfl⟩ := mem_reads _ _ _ hl1
      simp only [Load.inBounds, zero_addr, decide_eq_true_eq]
      omega
    rcases List.mem_append.1 hmem with hx | hmem
    · rw [hone l (List.mem_append_left _ hx)]; exact hin1
    rcases List.mem_append.1 hmem with hmid | hy
    swap
    · rw [hone l (List.mem_append_right _ hy)]; exact hin1
    cases hm : b.MASTER_DEVICE with
    | true =>
      rw [hm] at hmid
      simp only [if_true, List.mem_cons, List.mem_append] at hmid
      rcases hmid with rfl | h0 | h1 | rfl | rfl | hz
      · exact hin1
      · exact hrow 0 (by decide) l h0
      · exact hrow 1 (by decide) l h1
      · exact hin1
      · exact hin1
      · exact hzero l hz
    | false =>
      have hd2 := hdev hm
      have hdu : u8 device_num = device_num := u8_of_lt (by omega)
      rw [hm, hdu] at hmid
      simp only [Bool.false_eq_true, if_false, List.mem_cons, List.mem_append] at hmid
      rcases hmid with rfl | rfl | h0 | h0
      · exact hin1
      · exact hin1
      · exact hrow device_num hd2 l h0
      · exact hrow device_num hd2 l h0
  · intro hm h2 h256
    have hdu : u8 device_num = device_num := u8_of_lt h256
    refine ⟨?_, ?_, ?_⟩
    · have hn : ¬ device_num < 2 := by omega
      simp [slave_addr, hn]
    · intro hW1 hW256
      have hWu : u8 b.RF_ADDRESS_LEN = b.RF_ADDRESS_LEN := u8_of_lt hW256
      refine ⟨Load.mk (slave_addr b m device_num).size 0, ?_, ?_⟩
      · rw [hl, hm, hdu, hWu]
        apply List.mem_append_right
        apply List.mem_append_left
        simp only [Bool.false_eq_true, if_false, List.mem_cons, List.mem_append]
        right; right; left
        simp only [Buf.reads, List.mem_map, List.mem_range, Nat.zero_add]
        exact ⟨0, by omega, rfl⟩
      · have hn : ¬ device_num < 2 := by omega
        simp [Load.inBounds, slave_addr, hn]
    · intro ha
      rw [(frames_nrf_setup c h b m device_num w).1]
      have h0 : ¬ device_num = 0 := by omega
      simp [setupFrames, setupMiddle, ackFrames, retrByte, hm, ha, hdu, h0]

/-- Witness of C19: a slave build with auto-ack and five-byte addresses, once as device 1 (all
reads in bounds) and once as device 2 (reads outside the table). -/
theorem table_bounds_witness :
    (∀ l ∈ loaded (World.init RegFile.empty)
        (nrf_setup registerFile nRF24L01 (Build.demo false true 5) Stack.demo 1
          (World.init RegFile.empty)), l.inBounds = true) ∧
    ((slave_addr (Build.demo false true 5) Stack.demo 2).size = 0 ∧
      (1 ≤ (Build.demo false true 5).RF_ADDRESS_LEN →
        (Build.demo false true 5).RF_ADDRESS_LEN < 256 →
        ∃ l ∈ loaded (World.init RegFile.empty)
            (nrf_setup registerFile nRF24L01 (Build.demo false true 5) Stack.demo 2
              (World.init RegFile.empty)), l.inBounds = false) ∧
      ((Build.demo false true 5).USE_AUTO_ACK = true →
        [wcmd nRF24L01 nRF24L01.SETUP_RETR,
          u8 ((0 <<< nRF24L01.ARD) |||
            ((Build.demo false true 5).MAX_RETRANSMIT <<< nRF24L01.ARC))] ∈
          frames (emitted (World.init RegFile.empty)
            (nrf_setup registerFile nRF24L01 (Build.demo false true 5) Stack.demo 2
              (World.init RegFile.empty))))) :=
  ⟨(table_bounds registerFile nRF24L01 (Build.demo false true 5) Stack.demo 1
      (World.init RegFile.empty)).1 (by decide) (fun _ => by decide),
   (table_bounds registerFile nRF24L01 (Build.demo false true 5) Stack.demo 2
      (World.init RegFile.empty)).2 rfl (by decide) (by decide)⟩

end Nrf
